import Mathlib

/-!
# cloud-kit: the DNSRecord / DNSZone reconcilers

A shallow embedding of `pkg/controller/dnsrecord/dnsrecord_controller.go`,
`pkg/controller/dnszone/dnszone_controller.go`, the API types of
`pkg/apis/cloudkit/v1alpha1` and the fake actuator of `pkg/controller/util`.

The Resource Store (`client.Client`) and the Actuator are external collaborators.
They are embedded as arbitrary state transformers over a world `W`, so that a
statement quantified over `W` and over the transformers covers every behaviour
they can show.  Every call the reconciler makes is appended, together with its
response, to a call log; the log is the observable trace of one invocation.
In the main embedding a call hands the collaborator the resource by value.  The
Go actuator is handed a pointer; the section `InPlace` embeds the two methods a
second time with that pointer made explicit, for the statements that depend on
what an actuator writes through it.
Logging statements of the source have no effect on control flow and are dropped.
-/

namespace CloudKit

/-! ## apimachinery types -/

/-- metav1.Time: an instant, counted in nanoseconds from Go's zero time. -/
structure Time where
  nanos : Nat
  deriving DecidableEq, Repr

/-- The method `(*metav1.Time).IsZero`: a nil pointer and the zero instant are both zero. -/
def Time.IsZero : Option Time → Bool
  | none => true
  | some t => t.nanos == 0

/-- types.NamespacedName -/
structure NamespacedName where
  Namespace : String
  Name : String
  deriving DecidableEq, Repr

/-- metav1.TypeMeta -/
structure TypeMeta where
  Kind : String := ""
  APIVersion : String := ""
  deriving DecidableEq, Repr

/-- metav1.ObjectMeta, with the fields the controllers and their tests touch. -/
structure ObjectMeta where
  Name : String := ""
  Namespace : String := ""
  UID : String := ""
  DeletionTimestamp : Option Time := none
  Finalizers : List String := []
  Annotations : List (String × String) := []
  deriving DecidableEq, Repr

/-- runtime.RawExtension: an uninterpreted payload. -/
structure RawExtension where
  Raw : List Nat := []
  deriving DecidableEq, Repr

/-- reconcile.Request -/
structure Request where
  NamespacedName : NamespacedName
  deriving DecidableEq, Repr

/-- reconcile.Result -/
structure Result where
  Requeue : Bool := false
  RequeueAfter : Nat := 0
  deriving DecidableEq, Repr

/-! ## pkg/apis/cloudkit/v1alpha1 -/

/-- DNSRecordFinalizer is set on DNSRecords to invoke Delete on their actuator. -/
def DNSRecordFinalizer : String := "dnsrecord.cloudkit.openshift.io"

/-- DNSZoneFinalizer is set on DNSZones to invoke Delete on their actuator. -/
def DNSZoneFinalizer : String := "dnszone.cloudkit.openshift.io"

/-- DNSRecordSpec defines the desired state of DNSRecord. -/
structure DNSRecordSpec where
  ZoneName : String := ""
  RecordName : String := ""
  RecordType : String := ""
  Value : Option String := none
  ProviderSpec : Option RawExtension := none
  deriving DecidableEq, Repr

/-- DNSRecordStatus defines the observed state of DNSRecord. -/
structure DNSRecordStatus where
  ProviderStatus : Option RawExtension := none
  deriving DecidableEq, Repr

/-- DNSRecord is the Schema for the dnsrecords API. -/
structure DNSRecord where
  TypeMeta : TypeMeta := {}
  ObjectMeta : ObjectMeta := {}
  Spec : DNSRecordSpec := {}
  Status : DNSRecordStatus := {}
  deriving DecidableEq, Repr

/-- DNSZoneSpec defines the desired state of DNSZone. -/
structure DNSZoneSpec where
  ZoneName : String := ""
  ProviderSpec : Option RawExtension := none
  deriving DecidableEq, Repr

/-- DNSZoneStatus defines the observed state of DNSZone. -/
structure DNSZoneStatus where
  ProviderStatus : Option RawExtension := none
  deriving DecidableEq, Repr

/-- DNSZone is the Schema for the dnszones API. -/
structure DNSZone where
  TypeMeta : TypeMeta := {}
  ObjectMeta : ObjectMeta := {}
  Spec : DNSZoneSpec := {}
  Status : DNSZoneStatus := {}
  deriving DecidableEq, Repr

/-! ## Errors -/

/-- The one classification of errors the controllers use, `errors.IsNotFound` of
apimachinery, given for an arbitrary type `ε` of non-nil Go error values.  A Go
`error` is embedded as `Option ε`, with `none` for nil. -/
class APIStatus (ε : Type) where
  IsNotFound : ε → Bool

namespace errors

/-- errors.IsNotFound -/
def IsNotFound {ε : Type} [APIStatus ε] (err : ε) : Bool :=
  APIStatus.IsNotFound err

end errors

/-! ## The two interfaces and the call log -/

/-- One call made by a reconciler, with the response it got. -/
inductive Call (R ε : Type) where
  | clientGet (key : NamespacedName) (resp : Except ε R)
  | clientUpdate (obj : R) (resp : Option ε)
  | actuatorCreate (obj : R) (resp : Option ε)
  | actuatorDelete (obj : R) (resp : Option ε)
  | actuatorUpdate (obj : R) (resp : Option ε)
  | actuatorExists (obj : R) (resp : Bool × Option ε)

/-- The state threaded through one invocation: the world the collaborators act
on, and the calls made so far, oldest first. -/
structure Exec (W R ε : Type) where
  world : W
  calls : List (Call R ε)

/-- What one invocation of Reconcile leaves behind: the two returned values, the
world after the last call and the log of all calls. -/
structure Outcome (W R ε : Type) where
  result : Result
  err : Option ε
  world : W
  calls : List (Call R ε)

/-- A Go `return result, err`. -/
def Exec.ret {W R ε : Type} (s : Exec W R ε) (result : Result) (err : Option ε) : Outcome W R ε :=
  { result := result, err := err, world := s.world, calls := s.calls }

/-- The part of `client.Client` the controllers use.  `doGet` and `doUpdate` are the
behaviour of the store: given the world they answer and leave a new world. -/
structure Client (W R ε : Type) where
  doGet : NamespacedName → W → Except ε R × W
  doUpdate : R → W → Option ε × W

/-- The Actuator interface of `actuator.go` (one per resource kind).  The four
fields are the behaviour of the provider.  The resource is handed over by value:
this is an actuator that does not write to the resource it is given
(`InPlace.Actuator` is the interface with the pointer made explicit). -/
structure Actuator (W R ε : Type) where
  doCreate : R → W → Option ε × W
  doDelete : R → W → Option ε × W
  doUpdate : R → W → Option ε × W
  doExists : R → W → (Bool × Option ε) × W

section calls
variable {W R ε : Type}

/-- The call `c.Get(ctx, key, obj)`, logged. -/
def Client.Get (c : Client W R ε) (key : NamespacedName) (s : Exec W R ε) :
    Except ε R × Exec W R ε :=
  let x := c.doGet key s.world
  (x.1, { world := x.2, calls := s.calls ++ [Call.clientGet key x.1] })

/-- The call `c.Update(ctx, obj)`, logged. -/
def Client.Update (c : Client W R ε) (obj : R) (s : Exec W R ε) : Option ε × Exec W R ε :=
  let x := c.doUpdate obj s.world
  (x.1, { world := x.2, calls := s.calls ++ [Call.clientUpdate obj x.1] })

/-- The call `a.Create(obj)`, logged. -/
def Actuator.Create (a : Actuator W R ε) (obj : R) (s : Exec W R ε) : Option ε × Exec W R ε :=
  let x := a.doCreate obj s.world
  (x.1, { world := x.2, calls := s.calls ++ [Call.actuatorCreate obj x.1] })

/-- The call `a.Delete(obj)`, logged. -/
def Actuator.Delete (a : Actuator W R ε) (obj : R) (s : Exec W R ε) : Option ε × Exec W R ε :=
  let x := a.doDelete obj s.world
  (x.1, { world := x.2, calls := s.calls ++ [Call.actuatorDelete obj x.1] })

/-- The call `a.Update(obj)`, logged. -/
def Actuator.Update (a : Actuator W R ε) (obj : R) (s : Exec W R ε) : Option ε × Exec W R ε :=
  let x := a.doUpdate obj s.world
  (x.1, { world := x.2, calls := s.calls ++ [Call.actuatorUpdate obj x.1] })

/-- The call `a.Exists(obj)`, logged. -/
def Actuator.Exists (a : Actuator W R ε) (obj : R) (s : Exec W R ε) :
    (Bool × Option ε) × Exec W R ε :=
  let x := a.doExists obj s.world
  (x.1, { world := x.2, calls := s.calls ++ [Call.actuatorExists obj x.1] })

end calls

/-! ## pkg/controller/util: the finalizer helpers

The file of package util that holds the three finalizer helpers is not at hand.
The reconcilers take the helpers as a parameter; `Util.spec`, further down, is
the reading the specification gives of them. -/

/-- The finalizer helpers of package util, as called by the controllers:
in Go `AddFinalizer` and `DeleteFinalizer` change the object in place, here they
return the changed object. -/
structure Util (R : Type) where
  HasFinalizer : R → String → Bool
  AddFinalizer : R → String → R
  DeleteFinalizer : R → String → R

/-! ## The reconcilers -/

/-- The struct shared by `ReconcileDNSRecord` and `ReconcileDNSZone`: the embedded
`client.Client` and the actuator (the scheme and the logger play no part). -/
structure Reconciler (W R ε : Type) where
  Client : Client W R ε
  actuator : Actuator W R ε

/-- The method `Get` promoted from the embedded client. -/
def Reconciler.Get {W R ε : Type} (r : Reconciler W R ε) (key : NamespacedName)
    (s : Exec W R ε) : Except ε R × Exec W R ε :=
  r.Client.Get key s

/-- The method `Update` promoted from the embedded client. -/
def Reconciler.Update {W R ε : Type} (r : Reconciler W R ε) (obj : R) (s : Exec W R ε) :
    Option ε × Exec W R ε :=
  r.Client.Update obj s

/-- ReconcileDNSRecord reconciles a DNSRecord object. -/
abbrev ReconcileDNSRecord (W ε : Type) : Type := Reconciler W DNSRecord ε

/-- ReconcileDNSZone reconciles a DNSZone object. -/
abbrev ReconcileDNSZone (W ε : Type) : Type := Reconciler W DNSZone ε

/-- The method `(*ReconcileDNSRecord).Reconcile` of dnsrecord_controller.go, lines 87-163. -/
def ReconcileDNSRecord.Reconcile {W ε : Type} [APIStatus ε] (r : ReconcileDNSRecord W ε)
    (util : Util DNSRecord) (request : Request) (w : W) : Outcome W DNSRecord ε :=
  -- Fetch the DNSRecord instance
  match r.Get request.NamespacedName { world := w, calls := [] } with
  | (.error err, s) =>
    if errors.IsNotFound err then
      -- Object not found, return.
      s.ret {} none
    else
      -- Error reading the object - requeue the request.
      s.ret {} (some err)
  | (.ok record, s) =>
    -- If DNS record hasn't been deleted and doesn't have a finalizer, add one
    if Time.IsZero record.ObjectMeta.DeletionTimestamp &&
        !util.HasFinalizer record DNSRecordFinalizer then
      let record := util.AddFinalizer record DNSRecordFinalizer
      match r.Update record s with
      | (some err, s) => s.ret {} (some err)
      | (none, s) => s.ret {} none
    else if !Time.IsZero record.ObjectMeta.DeletionTimestamp then
      -- no-op if finalizer has been removed.
      if !util.HasFinalizer record DNSRecordFinalizer then
        s.ret {} none
      else
        match r.actuator.Delete record s with
        | (some err, s) => s.ret {} (some err)
        | (none, s) =>
          -- Remove finalizer on successful deletion.
          let record := util.DeleteFinalizer record DNSRecordFinalizer
          match r.Client.Update record s with
          | (some err, s) => s.ret {} (some err)
          | (none, s) => s.ret {} none
    else
      match r.actuator.Exists record s with
      | ((_, some err), s) => s.ret {} (some err)
      | ((exist, none), s) =>
        if exist then
          match r.actuator.Update record s with
          | (some err, s) => s.ret {} (some err)
          | (none, s) => s.ret {} none
        else
          match r.actuator.Create record s with
          | (some err, s) => s.ret {} (some err)
          | (none, s) => s.ret {} none

/-- The method `(*ReconcileDNSZone).Reconcile` of dnszone_controller.go, lines 87-163. -/
def ReconcileDNSZone.Reconcile {W ε : Type} [APIStatus ε] (r : ReconcileDNSZone W ε)
    (util : Util DNSZone) (request : Request) (w : W) : Outcome W DNSZone ε :=
  -- Fetch the DNSZone instance
  match r.Get request.NamespacedName { world := w, calls := [] } with
  | (.error err, s) =>
    if errors.IsNotFound err then
      -- Object not found, return.
      s.ret {} none
    else
      -- Error reading the object - requeue the request.
      s.ret {} (some err)
  | (.ok zone, s) =>
    -- If DNS zone hasn't been deleted and doesn't have a finalizer, add one
    if Time.IsZero zone.ObjectMeta.DeletionTimestamp &&
        !util.HasFinalizer zone DNSZoneFinalizer then
      let zone := util.AddFinalizer zone DNSZoneFinalizer
      match r.Update zone s with
      | (some err, s) => s.ret {} (some err)
      | (none, s) => s.ret {} none
    else if !Time.IsZero zone.ObjectMeta.DeletionTimestamp then
      -- no-op if finalizer has been removed.
      if !util.HasFinalizer zone DNSZoneFinalizer then
        s.ret {} none
      else
        match r.actuator.Delete zone s with
        | (some err, s) => s.ret {} (some err)
        | (none, s) =>
          -- Remove finalizer on successful deletion.
          let zone := util.DeleteFinalizer zone DNSZoneFinalizer
          match r.Client.Update zone s with
          | (some err, s) => s.ret {} (some err)
          | (none, s) => s.ret {} none
    else
      match r.actuator.Exists zone s with
      | ((_, some err), s) => s.ret {} (some err)
      | ((exist, none), s) =>
        if exist then
          match r.actuator.Update zone s with
          | (some err, s) => s.ret {} (some err)
          | (none, s) => s.ret {} none
        else
          match r.actuator.Create zone s with
          | (some err, s) => s.ret {} (some err)
          | (none, s) => s.ret {} none

/-! ## The two resource kinds, side by side -/

/-- The two resource kinds that have a reconciler. -/
inductive Kind where
  | dnsrecord
  | dnszone
  deriving DecidableEq, Repr

/-- The Go type of the resources of a kind. -/
@[reducible] def Kind.Resource : Kind → Type
  | .dnsrecord => DNSRecord
  | .dnszone => DNSZone

/-- The finalizer token a kind's reconciler tests for, adds and removes. -/
def Kind.Finalizer : Kind → String
  | .dnsrecord => DNSRecordFinalizer
  | .dnszone => DNSZoneFinalizer

/-- The embedded `ObjectMeta` of a resource. -/
def Kind.ObjectMeta : (k : Kind) → k.Resource → ObjectMeta
  | .dnsrecord, record => record.ObjectMeta
  | .dnszone, zone => zone.ObjectMeta

/-- Whether a loaded resource carries a deletion marker, by the test the
reconcilers use: the negation of `DeletionTimestamp.IsZero()`.  (A non-nil
pointer to the zero instant counts as no marker; on the wire the zero instant is
written as null, so a store never hands one out.) -/
def Kind.deleted (k : Kind) (obj : k.Resource) : Bool :=
  !Time.IsZero (k.ObjectMeta obj).DeletionTimestamp

/-- Reconcile of the reconciler of kind `k`: one of the two methods above. -/
def Reconcile {W ε : Type} [APIStatus ε] : (k : Kind) → Reconciler W k.Resource ε →
    Util k.Resource → Request → W → Outcome W k.Resource ε
  | .dnsrecord => ReconcileDNSRecord.Reconcile
  | .dnszone => ReconcileDNSZone.Reconcile

/-! ## The finalizer helpers, as the specification reads them -/

/-- Replace the finalizer list of a resource, leaving every other field as it is. -/
def Kind.setFinalizers : (k : Kind) → k.Resource → List String → k.Resource
  | .dnsrecord, record, fs => { record with ObjectMeta := { record.ObjectMeta with Finalizers := fs } }
  | .dnszone, zone, fs => { zone with ObjectMeta := { zone.ObjectMeta with Finalizers := fs } }

/-- Modelled from the spec: `HasFinalizer`, `AddFinalizer` and `DeleteFinalizer` of
pkg/controller/util, whose source file is missing.  The finalizers are a set of
tokens: `HasFinalizer` is membership, `AddFinalizer` inserts the token (a token
already present is not added again), `DeleteFinalizer` removes it. -/
def Util.spec (k : Kind) : Util k.Resource where
  HasFinalizer obj finalizer := (k.ObjectMeta obj).Finalizers.contains finalizer
  AddFinalizer obj finalizer :=
    if (k.ObjectMeta obj).Finalizers.contains finalizer then obj
    else k.setFinalizers obj ((k.ObjectMeta obj).Finalizers ++ [finalizer])
  DeleteFinalizer obj finalizer :=
    k.setFinalizers obj ((k.ObjectMeta obj).Finalizers.filter (fun f => f != finalizer))

/-! ## pkg/controller/util/fake_actuator.go -/

/-- One entry of the fake actuator's call log. -/
structure methodCall where
  method : String
  deriving DecidableEq, Repr

/-- The fake actuator: the log of calls and the configured answers. -/
structure fakeActuator (ε : Type) where
  calls : List methodCall := []
  createErr : Option ε := none
  updateErr : Option ε := none
  deleteErr : Option ε := none
  existsErr : Option ε := none
  existsResult : Bool := false

/-- NewFakeActuator returns the zero value of the struct. -/
def NewFakeActuator {ε : Type} : fakeActuator ε := {}

namespace fakeActuator
variable {ε R : Type}

/-- Create logs the call and answers `createErr`. -/
def Create (a : fakeActuator ε) (_obj : R) : Option ε × fakeActuator ε :=
  (a.createErr, { a with calls := a.calls ++ [{ method := "Create" }] })

/-- Delete logs the call and answers `deleteErr`. -/
def Delete (a : fakeActuator ε) (_obj : R) : Option ε × fakeActuator ε :=
  (a.deleteErr, { a with calls := a.calls ++ [{ method := "Delete" }] })

/-- Update logs the call and answers `updateErr`. -/
def Update (a : fakeActuator ε) (_obj : R) : Option ε × fakeActuator ε :=
  (a.updateErr, { a with calls := a.calls ++ [{ method := "Update" }] })

/-- Exists logs the call and answers `existsResult, existsErr`. -/
def Exists (a : fakeActuator ε) (_obj : R) : (Bool × Option ε) × fakeActuator ε :=
  ((a.existsResult, a.existsErr), { a with calls := a.calls ++ [{ method := "Exists" }] })

/-- CallCount is the length of the log. -/
def CallCount (a : fakeActuator ε) : Nat :=
  a.calls.length

/-- Called reports whether some logged call has the given method name. -/
def Called (a : fakeActuator ε) (method : String) : Bool :=
  a.calls.any (fun call => call.method == method)

/-- OnCreate sets the answer of Create. -/
def OnCreate (a : fakeActuator ε) (err : Option ε) : fakeActuator ε :=
  { a with createErr := err }

/-- OnUpdate sets the answer of Update. -/
def OnUpdate (a : fakeActuator ε) (err : Option ε) : fakeActuator ε :=
  { a with updateErr := err }

/-- OnDelete sets the answer of Delete. -/
def OnDelete (a : fakeActuator ε) (err : Option ε) : fakeActuator ε :=
  { a with deleteErr := err }

/-- OnExists sets the answer of Exists. -/
def OnExists (a : fakeActuator ε) (result : Bool) (err : Option ε) : fakeActuator ε :=
  { a with existsResult := result, existsErr := err }

end fakeActuator

/-! ## A test bench: the unit tests' fake client and fake actuator -/

/-- Error values of the test bench: the two store errors the specification names
and plain errors made with `errors.New`. -/
inductive TestError where
  | notFound
  | conflict
  | plain (msg : String)
  deriving DecidableEq, Repr

instance : APIStatus TestError where
  IsNotFound err := match err with
    | .notFound => true
    | _ => false

/-- The world of the test bench: the objects held by the fake client and the
fake actuator. -/
structure TestWorld (R : Type) where
  objects : List R
  actuator : fakeActuator TestError

/-- The key of a resource. -/
def Kind.key (k : Kind) (obj : k.Resource) : NamespacedName :=
  { Namespace := (k.ObjectMeta obj).Namespace, Name := (k.ObjectMeta obj).Name }

/-- A stand-in for the fake client of the unit tests: Get answers the stored
object with the key or NotFound, Update replaces the stored object with the
same key or answers NotFound. -/
def fakeClient (k : Kind) : Client (TestWorld k.Resource) k.Resource TestError where
  doGet key w :=
    match w.objects.find? (fun o => decide (k.key o = key)) with
    | some o => (.ok o, w)
    | none => (.error .notFound, w)
  doUpdate obj w :=
    if w.objects.any (fun o => decide (k.key o = k.key obj)) then
      (none, { w with objects := w.objects.map (fun o => if k.key o = k.key obj then obj else o) })
    else (some .notFound, w)

/-- The actuator handed to the reconciler by `NewFakeActuator` of fake_actuator.go
in package dnsrecord (and its dnszone twin): every method forwards to the fake. -/
def testActuator (k : Kind) : Actuator (TestWorld k.Resource) k.Resource TestError where
  doCreate obj w := let x := w.actuator.Create obj; (x.1, { w with actuator := x.2 })
  doDelete obj w := let x := w.actuator.Delete obj; (x.1, { w with actuator := x.2 })
  doUpdate obj w := let x := w.actuator.Update obj; (x.1, { w with actuator := x.2 })
  doExists obj w := let x := w.actuator.Exists obj; (x.1, { w with actuator := x.2 })

/-- The reconciler as the unit tests build it. -/
def testReconciler (k : Kind) : Reconciler (TestWorld k.Resource) k.Resource TestError :=
  { Client := fakeClient k, actuator := testActuator k }

/-- The record `testDNSRecord()` of dnsrecord_controller_test.go. -/
def testDNSRecord : DNSRecord :=
  { ObjectMeta := { Name := "dnsrecord", Namespace := "testns",
                    Finalizers := [DNSRecordFinalizer], UID := "1234" },
    Spec := { ZoneName := "zone", RecordName := "record" } }

/-- The record `testDNSRecordWithoutFinalizer()`. -/
def testDNSRecordWithoutFinalizer : DNSRecord :=
  { testDNSRecord with ObjectMeta := { testDNSRecord.ObjectMeta with Finalizers := [] } }

/-- The record `testDeletedDNSRecordWithoutFinalizer()`, deleted at instant `now`. -/
def testDeletedDNSRecordWithoutFinalizer (now : Time) : DNSRecord :=
  { testDNSRecordWithoutFinalizer with
    ObjectMeta := { testDNSRecordWithoutFinalizer.ObjectMeta with DeletionTimestamp := some now } }

/-- The record `testDeletedDNSRecord()`, deleted at instant `now`. -/
def testDeletedDNSRecord (now : Time) : DNSRecord :=
  { testDNSRecord with ObjectMeta := { testDNSRecord.ObjectMeta with DeletionTimestamp := some now } }

/-- The request of the unit tests. -/
def testRequest : Request :=
  { NamespacedName := { Namespace := "testns", Name := "dnsrecord" } }

/-- The body of the unit tests' loop: a fake client holding the one record, the
given fake actuator, and one call of Reconcile for the test request. -/
def runTest (dnsRecord : DNSRecord) (fake : fakeActuator TestError) :
    Outcome (TestWorld DNSRecord) DNSRecord TestError :=
  Reconcile .dnsrecord (testReconciler .dnsrecord) (Util.spec .dnsrecord) testRequest
    { objects := [dnsRecord], actuator := fake }

/-! ## Reading the call log -/

/-- The method a call went to. -/
inductive Method where
  | clientGet
  | clientUpdate
  | actuatorCreate
  | actuatorDelete
  | actuatorUpdate
  | actuatorExists
  deriving DecidableEq, Repr

/-- The method of a logged call. -/
def Call.method {R ε : Type} : Call R ε → Method
  | .clientGet _ _ => .clientGet
  | .clientUpdate _ _ => .clientUpdate
  | .actuatorCreate _ _ => .actuatorCreate
  | .actuatorDelete _ _ => .actuatorDelete
  | .actuatorUpdate _ _ => .actuatorUpdate
  | .actuatorExists _ _ => .actuatorExists

/-- The resource handed to a logged call (Get is handed a key). -/
def Call.arg {R ε : Type} : Call R ε → Option R
  | .clientGet _ _ => none
  | .clientUpdate obj _ => some obj
  | .actuatorCreate obj _ => some obj
  | .actuatorDelete obj _ => some obj
  | .actuatorUpdate obj _ => some obj
  | .actuatorExists obj _ => some obj

/-- The error a logged call returned, `none` when it returned nil. -/
def Call.error {R ε : Type} : Call R ε → Option ε
  | .clientGet _ (.error e) => some e
  | .clientGet _ (.ok _) => none
  | .clientUpdate _ resp => resp
  | .actuatorCreate _ resp => resp
  | .actuatorDelete _ resp => resp
  | .actuatorUpdate _ resp => resp
  | .actuatorExists _ resp => resp.2

/-- Whether a logged call is a Get that failed with a NotFound error. -/
def Call.isGetNotFound {R ε : Type} [APIStatus ε] : Call R ε → Bool
  | .clientGet _ (.error e) => errors.IsNotFound e
  | _ => false

/-! ## The five actions of one invocation -/

section actions
variable {R ε : Type}

/-- The attach-finalizer action: the log holds a successful load of a resource
that lacks the token and a Store Update of a resource that carries it. -/
def attachFinalizerExecuted (util : Util R) (finalizer : String) (calls : List (Call R ε)) :
    Bool :=
  calls.any (fun c => match c with
    | .clientGet _ (.ok loaded) => !util.HasFinalizer loaded finalizer
    | _ => false) &&
  calls.any (fun c => match c with
    | .clientUpdate obj _ => util.HasFinalizer obj finalizer
    | _ => false)

/-- The delete-path action: Delete of the actuator is in the log. -/
def deletePathExecuted (calls : List (Call R ε)) : Bool :=
  calls.any (fun c => c.method == .actuatorDelete)

/-- The create action: Create of the actuator is in the log. -/
def createExecuted (calls : List (Call R ε)) : Bool :=
  calls.any (fun c => c.method == .actuatorCreate)

/-- The update action: Update of the actuator is in the log. -/
def updateExecuted (calls : List (Call R ε)) : Bool :=
  calls.any (fun c => c.method == .actuatorUpdate)

/-- The no-op action: the log holds no Store Update and no actuator call. -/
def noOpExecuted (calls : List (Call R ε)) : Bool :=
  calls.all (fun c => c.method == .clientGet)

/-- How many of the five actions attach-finalizer, delete-path, create, update
and no-op an invocation with this log executed. -/
def actionsExecuted (util : Util R) (finalizer : String) (calls : List (Call R ε)) : Nat :=
  [attachFinalizerExecuted util finalizer calls, deletePathExecuted calls,
    createExecuted calls, updateExecuted calls, noOpExecuted calls].count true

end actions

/-! ## What a call was answered, apart from the resource type -/

/-- The answer to a call, as far as a reconciler looks at it: for a successful
load the two facts it tests on the loaded resource, for the other calls the
returned values. -/
inductive Answer (ε : Type) where
  | found (deleted hasFinalizer : Bool)
  | failed (err : ε)
  | done
  | exist (result : Bool) (err : Option ε)
  deriving DecidableEq, Repr

/-- The answer made of a returned Go error: done for nil, failed otherwise. -/
def Answer.ofError {ε : Type} : Option ε → Answer ε
  | none => .done
  | some e => .failed e

/-- The answer logged with a call of the reconciler of kind `k`. -/
def Kind.answer {ε : Type} (k : Kind) (util : Util k.Resource) : Call k.Resource ε → Answer ε
  | .clientGet _ (.ok loaded) => .found (k.deleted loaded) (util.HasFinalizer loaded k.Finalizer)
  | .clientGet _ (.error e) => .failed e
  | .clientUpdate _ resp => .ofError resp
  | .actuatorCreate _ resp => .ofError resp
  | .actuatorDelete _ resp => .ofError resp
  | .actuatorUpdate _ resp => .ofError resp
  | .actuatorExists _ resp => .exist resp.1 resp.2

/-- The zone `testDNSZone()` of dnszone_controller_test.go. -/
def testDNSZone : DNSZone :=
  { ObjectMeta := { Name := "dnszone", Namespace := "testns",
                    Finalizers := [DNSZoneFinalizer], UID := "1234" },
    Spec := { ZoneName := "zone" } }

/-- The request of the dnszone unit tests. -/
def testZoneRequest : Request :=
  { NamespacedName := { Namespace := "testns", Name := "dnszone" } }

/-! ## A store that keeps what it is given

For statements about several invocations the store has to remember.  The world
is the resource stored under the key of interest together with the state of
everything else; the store behaves as section 6 of the specification asks:
Get answers the stored resource or NotFound, Update replaces it or is rejected
with an error and then changes nothing.  The actuator acts on the rest of the
world only. -/

/-- The world: the resource the store holds, if any, and the state of the
provider and of whatever else decides the answers. -/
structure Cluster (R A : Type) where
  stored : Option R
  provider : A

/-- The collaborators around such a store: the actuator, acting on the provider
state; the verdict of the store on an Update, nil to accept it or an error such
as Conflict to reject it; and the error value the store uses for NotFound. -/
structure Backing (A R ε : Type) where
  actuator : Actuator A R ε
  verdict : R → A → Option ε × A
  notFound : ε

/-- The store and actuator over a `Cluster`, as a reconciler sees them. -/
def Backing.reconciler {A ε : Type} (k : Kind) (b : Backing A k.Resource ε) :
    Reconciler (Cluster k.Resource A) k.Resource ε where
  Client :=
    { doGet := fun key w =>
        match w.stored with
        | some o => if k.key o = key then (.ok o, w) else (.error b.notFound, w)
        | none => (.error b.notFound, w)
      doUpdate := fun obj w =>
        match b.verdict obj w.provider with
        | (some e, a) => (some e, { w with provider := a })
        | (none, a) =>
          match w.stored with
          | some o =>
            if k.key o = k.key obj then (none, { stored := some obj, provider := a })
            else (some b.notFound, { w with provider := a })
          | none => (some b.notFound, { w with provider := a }) }
  actuator :=
    { doCreate := fun obj w =>
        let x := b.actuator.doCreate obj w.provider
        (x.1, { w with provider := x.2 })
      doDelete := fun obj w =>
        let x := b.actuator.doDelete obj w.provider
        (x.1, { w with provider := x.2 })
      doUpdate := fun obj w =>
        let x := b.actuator.doUpdate obj w.provider
        (x.1, { w with provider := x.2 })
      doExists := fun obj w =>
        let x := b.actuator.doExists obj w.provider
        (x.1, { w with provider := x.2 }) }

/-- One step of a history of the stored resource: an invocation of Reconcile, or
an edit of the stored resource by another actor. -/
inductive Step (R : Type) where
  | reconcile
  | edit (f : R → R)

/-- Run a history from a world: the outcomes of its invocations, in order, and
the world at the end.  Every invocation starts in the world the step before
left. -/
def runSteps {A ε : Type} [APIStatus ε] (k : Kind) (b : Backing A k.Resource ε)
    (util : Util k.Resource) (request : Request) :
    List (Step k.Resource) → Cluster k.Resource A →
      List (Outcome (Cluster k.Resource A) k.Resource ε) × Cluster k.Resource A
  | [], w => ([], w)
  | .reconcile :: rest, w =>
    let out := Reconcile k (b.reconciler k) util request w
    let x := runSteps k b util request rest out.world
    (out :: x.1, x.2)
  | .edit f :: rest, w => runSteps k b util request rest { w with stored := w.stored.map f }

/-- The bench of the unit tests as a backing: the fake actuator, a store that
accepts every Update. -/
def testBacking (k : Kind) : Backing (fakeActuator TestError) k.Resource TestError where
  actuator :=
    { doCreate := fun obj a => a.Create obj
      doDelete := fun obj a => a.Delete obj
      doUpdate := fun obj a => a.Update obj
      doExists := fun obj a => a.Exists obj }
  verdict := fun _ a => (none, a)
  notFound := .notFound

/-- The bench with a store that rejects every Update with Conflict. -/
def conflictBacking (k : Kind) : Backing (fakeActuator TestError) k.Resource TestError :=
  { testBacking k with verdict := fun _ a => (some .conflict, a) }

/-! ## Histories: which invocation attached, which reached the steady state -/

section histories
variable {W R ε : Type}

/-- An invocation with this log reached the steady-state branch: it called Exists. -/
def existsCalled (calls : List (Call R ε)) : Bool :=
  calls.any (fun c => c.method == .actuatorExists)

/-- An invocation with this log attached the token: it loaded a resource that
lacks the token and its Store Update of a resource that carries it returned nil. -/
def finalizerAttached (util : Util R) (finalizer : String) (calls : List (Call R ε)) : Bool :=
  calls.any (fun c => match c with
    | .clientGet _ (.ok loaded) => !util.HasFinalizer loaded finalizer
    | _ => false) &&
  calls.any (fun c => match c with
    | .clientUpdate obj none => util.HasFinalizer obj finalizer
    | _ => false)

/-- In a sequence of outcomes, every invocation that called Exists comes after
an invocation that attached the token. -/
def ExistsPrecededByAttach (util : Util R) (finalizer : String)
    (outs : List (Outcome W R ε)) : Prop :=
  ∀ (i : Nat) (out : Outcome W R ε), outs[i]? = some out → existsCalled out.calls = true →
    ∃ (j : Nat) (out' : Outcome W R ε),
      j < i ∧ outs[j]? = some out' ∧ finalizerAttached util finalizer out'.calls = true

end histories

/-! ## The lifecycle of one resource -/

/-- Set the deletion timestamp of a resource, as the store does when another
actor asks for the deletion of a resource that still has finalizers. -/
def Kind.setDeletionTimestamp : (k : Kind) → Option Time → k.Resource → k.Resource
  | .dnsrecord, t, record =>
    { record with ObjectMeta := { record.ObjectMeta with DeletionTimestamp := t } }
  | .dnszone, t, zone =>
    { zone with ObjectMeta := { zone.ObjectMeta with DeletionTimestamp := t } }

/-- A provider whose calls all succeed and whose Exists answers false until
Create has run and true afterwards (until Delete has run); the provider state
is that one bit.  The store accepts every Update. -/
def lifecycleBacking {R ε : Type} (notFound : ε) : Backing Bool R ε where
  actuator :=
    { doCreate := fun _ _ => (none, true)
      doDelete := fun _ _ => (none, false)
      doUpdate := fun _ created => (none, created)
      doExists := fun _ created => ((created, none), created) }
  verdict := fun _ created => (none, created)
  notFound := notFound

/-- The history of the lifecycle: the invocation that follows the creation of the
resource, the one triggered by the attach, `m` further ones, then the request
for deletion at instant `t` by another actor and the invocation it triggers. -/
def lifecycleSteps (k : Kind) (m : Nat) (t : Time) : List (Step k.Resource) :=
  [.reconcile, .reconcile] ++ List.replicate m .reconcile ++
    [.edit (k.setDeletionTimestamp (some t)), .reconcile]

/-- The methods called over a sequence of invocations, in order. -/
def methodsCalled {W R ε : Type} (outs : List (Outcome W R ε)) : List Method :=
  (outs.map (fun out => out.calls.map Call.method)).flatten

/-- The actuator methods that change the external object. -/
def Method.mutatesProvider : Method → Bool
  | .actuatorCreate => true
  | .actuatorUpdate => true
  | .actuatorDelete => true
  | _ => false

/-! ## Counting the calls of one invocation -/

/-- The methods of the Actuator interface. -/
def Method.isActuator : Method → Bool
  | .actuatorCreate => true
  | .actuatorDelete => true
  | .actuatorUpdate => true
  | .actuatorExists => true
  | _ => false

/-- The actuator methods an invocation called, in order. -/
def actuatorCalls {R ε : Type} (calls : List (Call R ε)) : List Method :=
  (calls.map Call.method).filter Method.isActuator

/-- An answer with the identity of every error forgotten: what is left of an
error is that there was one. -/
def Answer.coarse {ε : Type} : Answer ε → Answer Unit
  | .found deleted hasFinalizer => .found deleted hasFinalizer
  | .failed _ => .failed ()
  | .done => .done
  | .exist result err => .exist result (err.map fun _ => ())

/-- An invocation with this log went through the steady-state branch to its end:
it called Exists and then Create or Update. -/
def steadyStateCompleted {R ε : Type} (calls : List (Call R ε)) : Bool :=
  existsCalled calls && (createExecuted calls || updateExecuted calls)

/-! ## Driving the fake actuator -/

/-- One use of the fake actuator through the FakeActuator interface: a call of
one of the four actuator methods, of a setter, or of a query. -/
inductive FakeOp (ε : Type) where
  | Create
  | Delete
  | Update
  | Exists
  | OnCreate (err : Option ε)
  | OnUpdate (err : Option ε)
  | OnDelete (err : Option ε)
  | OnExists (result : Bool) (err : Option ε)
  | CallCount
  | Called (method : String)

/-- The fake after one use.  The object handed to an actuator method plays no
part, and the two queries only read. -/
def FakeOp.apply {ε : Type} (a : fakeActuator ε) : FakeOp ε → fakeActuator ε
  | .Create => (a.Create ()).2
  | .Delete => (a.Delete ()).2
  | .Update => (a.Update ()).2
  | .Exists => (a.Exists ()).2
  | .OnCreate err => a.OnCreate err
  | .OnUpdate err => a.OnUpdate err
  | .OnDelete err => a.OnDelete err
  | .OnExists result err => a.OnExists result err
  | .CallCount => a
  | .Called _ => a

/-- The name under which a use is logged: the method name for the four actuator
methods, nothing for setters and queries. -/
def FakeOp.logged {ε : Type} : FakeOp ε → Option String
  | .Create => some "Create"
  | .Delete => some "Delete"
  | .Update => some "Update"
  | .Exists => some "Exists"
  | _ => none

/-- The fake after a sequence of uses, the oldest first. -/
def runOps {ε : Type} (ops : List (FakeOp ε)) (a : fakeActuator ε) : fakeActuator ε :=
  ops.foldl FakeOp.apply a

/-- The error most recently given to OnCreate in a sequence of uses, `start`
when there is none. -/
def configuredCreate {ε : Type} (ops : List (FakeOp ε)) (start : Option ε) : Option ε :=
  ops.foldl (fun acc op => match op with
    | .OnCreate err => err
    | _ => acc) start

/-- The error most recently given to OnUpdate in a sequence of uses. -/
def configuredUpdate {ε : Type} (ops : List (FakeOp ε)) (start : Option ε) : Option ε :=
  ops.foldl (fun acc op => match op with
    | .OnUpdate err => err
    | _ => acc) start

/-- The error most recently given to OnDelete in a sequence of uses. -/
def configuredDelete {ε : Type} (ops : List (FakeOp ε)) (start : Option ε) : Option ε :=
  ops.foldl (fun acc op => match op with
    | .OnDelete err => err
    | _ => acc) start

/-- The pair most recently given to OnExists in a sequence of uses. -/
def configuredExists {ε : Type} (ops : List (FakeOp ε)) (start : Bool × Option ε) :
    Bool × Option ε :=
  ops.foldl (fun acc op => match op with
    | .OnExists result err => (result, err)
    | _ => acc) start

/-! ## The actuator handed a pointer

In Go the four methods of the Actuator interface take a pointer to the resource,
and what a method writes through it is seen by the code that follows the call.
The definitions of this section make that explicit: an actuator method returns,
next to its Go results, the resource as it left it, and Reconcile goes on with
that resource.  The store's Update is handed the pointer too, but both uses are
followed by a return, so what it writes is never read. -/

namespace InPlace

/-- The Actuator interface of `actuator.go`, each method returning the resource
behind the pointer as the call left it. -/
structure Actuator (W R ε : Type) where
  doCreate : R → W → (Option ε × R) × W
  doDelete : R → W → (Option ε × R) × W
  doUpdate : R → W → (Option ε × R) × W
  doExists : R → W → ((Bool × Option ε) × R) × W

section calls
variable {W R ε : Type}

/-- The call `a.Create(obj)`, logged with the resource as handed over. -/
def Actuator.Create (a : Actuator W R ε) (obj : R) (s : Exec W R ε) :
    (Option ε × R) × Exec W R ε :=
  let x := a.doCreate obj s.world
  (x.1, { world := x.2, calls := s.calls ++ [Call.actuatorCreate obj x.1.1] })

/-- The call `a.Delete(obj)`, logged with the resource as handed over. -/
def Actuator.Delete (a : Actuator W R ε) (obj : R) (s : Exec W R ε) :
    (Option ε × R) × Exec W R ε :=
  let x := a.doDelete obj s.world
  (x.1, { world := x.2, calls := s.calls ++ [Call.actuatorDelete obj x.1.1] })

/-- The call `a.Update(obj)`, logged with the resource as handed over. -/
def Actuator.Update (a : Actuator W R ε) (obj : R) (s : Exec W R ε) :
    (Option ε × R) × Exec W R ε :=
  let x := a.doUpdate obj s.world
  (x.1, { world := x.2, calls := s.calls ++ [Call.actuatorUpdate obj x.1.1] })

/-- The call `a.Exists(obj)`, logged with the resource as handed over. -/
def Actuator.Exists (a : Actuator W R ε) (obj : R) (s : Exec W R ε) :
    ((Bool × Option ε) × R) × Exec W R ε :=
  let x := a.doExists obj s.world
  (x.1, { world := x.2, calls := s.calls ++ [Call.actuatorExists obj x.1.1] })

end calls

/-- The struct shared by `ReconcileDNSRecord` and `ReconcileDNSZone`, with an
actuator that is handed a pointer. -/
structure Reconciler (W R ε : Type) where
  Client : Client W R ε
  actuator : Actuator W R ε

/-- The method `Get` promoted from the embedded client. -/
def Reconciler.Get {W R ε : Type} (r : Reconciler W R ε) (key : NamespacedName)
    (s : Exec W R ε) : Except ε R × Exec W R ε :=
  r.Client.Get key s

/-- The method `Update` promoted from the embedded client. -/
def Reconciler.Update {W R ε : Type} (r : Reconciler W R ε) (obj : R) (s : Exec W R ε) :
    Option ε × Exec W R ε :=
  r.Client.Update obj s

/-- The method `(*ReconcileDNSRecord).Reconcile` of dnsrecord_controller.go, lines
87-163, with `record` the resource behind the pointer at each point. -/
def ReconcileDNSRecord.Reconcile {W ε : Type} [APIStatus ε] (r : Reconciler W DNSRecord ε)
    (util : Util DNSRecord) (request : Request) (w : W) : Outcome W DNSRecord ε :=
  -- Fetch the DNSRecord instance
  match r.Get request.NamespacedName { world := w, calls := [] } with
  | (.error err, s) =>
    if errors.IsNotFound err then
      -- Object not found, return.
      s.ret {} none
    else
      -- Error reading the object - requeue the request.
      s.ret {} (some err)
  | (.ok record, s) =>
    -- If DNS record hasn't been deleted and doesn't have a finalizer, add one
    if Time.IsZero record.ObjectMeta.DeletionTimestamp &&
        !util.HasFinalizer record DNSRecordFinalizer then
      let record := util.AddFinalizer record DNSRecordFinalizer
      match r.Update record s with
      | (some err, s) => s.ret {} (some err)
      | (none, s) => s.ret {} none
    else if !Time.IsZero record.ObjectMeta.DeletionTimestamp then
      -- no-op if finalizer has been removed.
      if !util.HasFinalizer record DNSRecordFinalizer then
        s.ret {} none
      else
        match r.actuator.Delete record s with
        | ((some err, _), s) => s.ret {} (some err)
        | ((none, record), s) =>
          -- Remove finalizer on successful deletion.
          let record := util.DeleteFinalizer record DNSRecordFinalizer
          match r.Client.Update record s with
          | (some err, s) => s.ret {} (some err)
          | (none, s) => s.ret {} none
    else
      match r.actuator.Exists record s with
      | (((_, some err), _), s) => s.ret {} (some err)
      | (((exist, none), record), s) =>
        if exist then
          match r.actuator.Update record s with
          | ((some err, _), s) => s.ret {} (some err)
          | ((none, _), s) => s.ret {} none
        else
          match r.actuator.Create record s with
          | ((some err, _), s) => s.ret {} (some err)
          | ((none, _), s) => s.ret {} none

/-- The method `(*ReconcileDNSZone).Reconcile` of dnszone_controller.go, lines
87-163, with `zone` the resource behind the pointer at each point. -/
def ReconcileDNSZone.Reconcile {W ε : Type} [APIStatus ε] (r : Reconciler W DNSZone ε)
    (util : Util DNSZone) (request : Request) (w : W) : Outcome W DNSZone ε :=
  -- Fetch the DNSZone instance
  match r.Get request.NamespacedName { world := w, calls := [] } with
  | (.error err, s) =>
    if errors.IsNotFound err then
      -- Object not found, return.
      s.ret {} none
    else
      -- Error reading the object - requeue the request.
      s.ret {} (some err)
  | (.ok zone, s) =>
    -- If DNS zone hasn't been deleted and doesn't have a finalizer, add one
    if Time.IsZero zone.ObjectMeta.DeletionTimestamp &&
        !util.HasFinalizer zone DNSZoneFinalizer then
      let zone := util.AddFinalizer zone DNSZoneFinalizer
      match r.Update zone s with
      | (some err, s) => s.ret {} (some err)
      | (none, s) => s.ret {} none
    else if !Time.IsZero zone.ObjectMeta.DeletionTimestamp then
      -- no-op if finalizer has been removed.
      if !util.HasFinalizer zone DNSZoneFinalizer then
        s.ret {} none
      else
        match r.actuator.Delete zone s with
        | ((some err, _), s) => s.ret {} (some err)
        | ((none, zone), s) =>
          -- Remove finalizer on successful deletion.
          let zone := util.DeleteFinalizer zone DNSZoneFinalizer
          match r.Client.Update zone s with
          | (some err, s) => s.ret {} (some err)
          | (none, s) => s.ret {} none
    else
      match r.actuator.Exists zone s with
      | (((_, some err), _), s) => s.ret {} (some err)
      | (((exist, none), zone), s) =>
        if exist then
          match r.actuator.Update zone s with
          | ((some err, _), s) => s.ret {} (some err)
          | ((none, _), s) => s.ret {} none
        else
          match r.actuator.Create zone s with
          | ((some err, _), s) => s.ret {} (some err)
          | ((none, _), s) => s.ret {} none

/-- Reconcile of the reconciler of kind `k`: one of the two methods above. -/
def Reconcile {W ε : Type} [APIStatus ε] : (k : Kind) → Reconciler W k.Resource ε →
    Util k.Resource → Request → W → Outcome W k.Resource ε
  | .dnsrecord => ReconcileDNSRecord.Reconcile
  | .dnszone => ReconcileDNSZone.Reconcile

/-- A reconciler whose actuator never writes to the resource it is handed. -/
def ofByValue {W R ε : Type} (r : CloudKit.Reconciler W R ε) : Reconciler W R ε where
  Client := r.Client
  actuator :=
    { doCreate := fun obj w => let x := r.actuator.doCreate obj w; ((x.1, obj), x.2)
      doDelete := fun obj w => let x := r.actuator.doDelete obj w; ((x.1, obj), x.2)
      doUpdate := fun obj w => let x := r.actuator.doUpdate obj w; ((x.1, obj), x.2)
      doExists := fun obj w => let x := r.actuator.doExists obj w; ((x.1, obj), x.2) }

end InPlace

/-- An actuator in the manner of a provider that reports on the resource: Delete
writes the provider status of the record it is handed and returns nil; the other
methods leave the record alone, and Exists answers false. -/
def statusWritingActuator (W : Type) : InPlace.Actuator W DNSRecord TestError where
  doCreate obj w := ((none, obj), w)
  doDelete obj w := ((none, { obj with Status := { ProviderStatus := some { Raw := [1] } } }), w)
  doUpdate obj w := ((none, obj), w)
  doExists obj w := (((false, none), obj), w)

/-- The reconciler of the unit tests with the status-writing actuator in place of
the fake. -/
def statusWritingReconciler :
    InPlace.Reconciler (TestWorld DNSRecord) DNSRecord TestError :=
  { Client := fakeClient .dnsrecord, actuator := statusWritingActuator (TestWorld DNSRecord) }

/-! ## Theorems

### Every path through Reconcile -/

section paths
variable {W ε : Type} [APIStatus ε]

/-- The eight ways an invocation can go, each with its exact outcome: a failed
load, the finalizer-attach branch, the no-op on a deleted resource without the
finalizer, a failed Delete, a successful Delete followed by the Store Update,
a failed Exists, Exists then Update, Exists then Create. -/
theorem Reconcile_paths (k : Kind) (r : Reconciler W k.Resource ε) (util : Util k.Resource)
    (request : Request) (w : W) :
    (∃ e w1, r.Client.doGet request.NamespacedName w = (.error e, w1) ∧
      Reconcile k r util request w =
        { result := {}, err := if errors.IsNotFound e then none else some e, world := w1,
          calls := [.clientGet request.NamespacedName (.error e)] }) ∨
    (∃ obj w1, r.Client.doGet request.NamespacedName w = (.ok obj, w1) ∧
      ((k.deleted obj = false ∧ util.HasFinalizer obj k.Finalizer = false ∧
          Reconcile k r util request w =
            { result := {}, err := (r.Client.doUpdate (util.AddFinalizer obj k.Finalizer) w1).1,
              world := (r.Client.doUpdate (util.AddFinalizer obj k.Finalizer) w1).2,
              calls := [.clientGet request.NamespacedName (.ok obj),
                .clientUpdate (util.AddFinalizer obj k.Finalizer)
                  (r.Client.doUpdate (util.AddFinalizer obj k.Finalizer) w1).1] }) ∨
       (k.deleted obj = true ∧ util.HasFinalizer obj k.Finalizer = false ∧
          Reconcile k r util request w =
            { result := {}, err := none, world := w1,
              calls := [.clientGet request.NamespacedName (.ok obj)] }) ∨
       (k.deleted obj = true ∧ util.HasFinalizer obj k.Finalizer = true ∧
          ∃ e w2, r.actuator.doDelete obj w1 = (some e, w2) ∧
          Reconcile k r util request w =
            { result := {}, err := some e, world := w2,
              calls := [.clientGet request.NamespacedName (.ok obj), .actuatorDelete obj (some e)] }) ∨
       (k.deleted obj = true ∧ util.HasFinalizer obj k.Finalizer = true ∧
          ∃ w2, r.actuator.doDelete obj w1 = (none, w2) ∧
          Reconcile k r util request w =
            { result := {}, err := (r.Client.doUpdate (util.DeleteFinalizer obj k.Finalizer) w2).1,
              world := (r.Client.doUpdate (util.DeleteFinalizer obj k.Finalizer) w2).2,
              calls := [.clientGet request.NamespacedName (.ok obj), .actuatorDelete obj none,
                .clientUpdate (util.DeleteFinalizer obj k.Finalizer)
                  (r.Client.doUpdate (util.DeleteFinalizer obj k.Finalizer) w2).1] }) ∨
       (k.deleted obj = false ∧ util.HasFinalizer obj k.Finalizer = true ∧
          ∃ b e w2, r.actuator.doExists obj w1 = ((b, some e), w2) ∧
          Reconcile k r util request w =
            { result := {}, err := some e, world := w2,
              calls := [.clientGet request.NamespacedName (.ok obj),
                .actuatorExists obj (b, some e)] }) ∨
       (k.deleted obj = false ∧ util.HasFinalizer obj k.Finalizer = true ∧
          ∃ w2, r.actuator.doExists obj w1 = ((true, none), w2) ∧
          Reconcile k r util request w =
            { result := {}, err := (r.actuator.doUpdate obj w2).1,
              world := (r.actuator.doUpdate obj w2).2,
              calls := [.clientGet request.NamespacedName (.ok obj),
                .actuatorExists obj (true, none),
                .actuatorUpdate obj (r.actuator.doUpdate obj w2).1] }) ∨
       (k.deleted obj = false ∧ util.HasFinalizer obj k.Finalizer = true ∧
          ∃ w2, r.actuator.doExists obj w1 = ((false, none), w2) ∧
          Reconcile k r util request w =
            { result := {}, err := (r.actuator.doCreate obj w2).1,
              world := (r.actuator.doCreate obj w2).2,
              calls := [.clientGet request.NamespacedName (.ok obj),
                .actuatorExists obj (false, none),
                .actuatorCreate obj (r.actuator.doCreate obj w2).1] }))) := by
  cases k
  all_goals
    rcases hget : r.Client.doGet request.NamespacedName w with ⟨_ | obj, w1⟩
    · left
      refine ⟨_, _, rfl, ?_⟩
      simp only [Reconcile, ReconcileDNSRecord.Reconcile, ReconcileDNSZone.Reconcile, Reconciler.Get,
        Client.Get, hget, Exec.ret]
      split <;> simp_all
    · right
      refine ⟨obj, w1, rfl, ?_⟩
      cases hd : Time.IsZero obj.ObjectMeta.DeletionTimestamp <;>
      cases hf : util.HasFinalizer obj _
      · simp_all [Reconcile, ReconcileDNSRecord.Reconcile, ReconcileDNSZone.Reconcile, Reconciler.Get,
          Reconciler.Update, Client.Get, Client.Update, Actuator.Delete, Actuator.Exists,
          Actuator.Update, Actuator.Create, Exec.ret, Kind.deleted, Kind.ObjectMeta, Kind.Finalizer]
      · rcases hdel : r.actuator.doDelete obj w1 with ⟨_ | e, w2⟩ <;>
        simp_all [Reconcile, ReconcileDNSRecord.Reconcile, ReconcileDNSZone.Reconcile, Reconciler.Get,
          Reconciler.Update, Client.Get, Client.Update, Actuator.Delete, Actuator.Exists,
          Actuator.Update, Actuator.Create, Exec.ret, Kind.deleted, Kind.ObjectMeta, Kind.Finalizer] <;>
        first
          | done
          | (split <;> rename_i heq <;> simp only [Prod.mk.injEq] at heq <;> obtain ⟨h1, rfl⟩ := heq <;> simp [h1])
          | exact ⟨_, _, ⟨rfl, rfl⟩, rfl, rfl, rfl⟩
      · simp_all [Reconcile, ReconcileDNSRecord.Reconcile, ReconcileDNSZone.Reconcile, Reconciler.Get,
          Reconciler.Update, Client.Get, Client.Update, Actuator.Delete, Actuator.Exists,
          Actuator.Update, Actuator.Create, Exec.ret, Kind.deleted, Kind.ObjectMeta, Kind.Finalizer]
        split <;> rename_i heq <;> simp only [Prod.mk.injEq] at heq <;> obtain ⟨h1, rfl⟩ := heq <;> simp [h1]
      · rcases hex : r.actuator.doExists obj w1 with ⟨⟨_ | _, _ | e⟩, w2⟩ <;>
        simp_all [Reconcile, ReconcileDNSRecord.Reconcile, ReconcileDNSZone.Reconcile, Reconciler.Get,
          Reconciler.Update, Client.Get, Client.Update, Actuator.Delete, Actuator.Exists,
          Actuator.Update, Actuator.Create, Exec.ret, Kind.deleted, Kind.ObjectMeta, Kind.Finalizer] <;>
        first
          | done
          | (split <;> rename_i heq <;> simp only [Prod.mk.injEq] at heq <;> obtain ⟨h1, rfl⟩ := heq <;> simp [h1])
          | exact ⟨_, _, ⟨rfl, rfl⟩, rfl, rfl, rfl⟩

end paths

/-! ### The finalizer helpers as modelled -/

section spec_util

/-- The modelled `HasFinalizer` is membership in the finalizer list. -/
theorem spec_HasFinalizer (k : Kind) (obj : k.Resource) (finalizer : String) :
    (Util.spec k).HasFinalizer obj finalizer = true ↔
      finalizer ∈ (k.ObjectMeta obj).Finalizers := by
  simp [Util.spec]

/-- Replacing the finalizer list changes that field of the metadata and no other. -/
theorem ObjectMeta_setFinalizers (k : Kind) (obj : k.Resource) (fs : List String) :
    k.ObjectMeta (k.setFinalizers obj fs) = { k.ObjectMeta obj with Finalizers := fs } := by
  cases k <;> rfl

/-- The finalizer list left by the modelled `DeleteFinalizer`. -/
theorem spec_DeleteFinalizer (k : Kind) (obj : k.Resource) (finalizer : String) :
    (k.ObjectMeta ((Util.spec k).DeleteFinalizer obj finalizer)).Finalizers =
      (k.ObjectMeta obj).Finalizers.filter (fun f => f != finalizer) := by
  simp [Util.spec, ObjectMeta_setFinalizers]

/-- The modelled `AddFinalizer` on a resource that lacks the token appends it. -/
theorem spec_AddFinalizer (k : Kind) (obj : k.Resource) (finalizer : String)
    (h : finalizer ∉ (k.ObjectMeta obj).Finalizers) :
    (Util.spec k).AddFinalizer obj finalizer =
      k.setFinalizers obj ((k.ObjectMeta obj).Finalizers ++ [finalizer]) := by
  simp [Util.spec, h]

end spec_util

/-! ### Properties of one invocation

In the statements below `k` ranges over the two kinds, so each statement is about
both `ReconcileDNSRecord.Reconcile` and `ReconcileDNSZone.Reconcile`; `r` is any
store and any actuator over any world `W`.  Where `util` is a variable the
statement holds whatever the three finalizer helpers compute, and "carries the
token" means that `util.HasFinalizer` answers true, the test the source makes.
A resource "has a deletion marker" when `DeletionTimestamp.IsZero()` is false. -/

section claims
variable {W ε : Type} [APIStatus ε]

/-- C1. If an invocation issues a Store Update for a resource that no longer
carries the finalizer token while the loaded resource did, then the log of the
invocation is exactly: Get, Delete on the loaded resource answering nil, that
Store Update; and the updated resource is `DeleteFinalizer` of the loaded one.
So Delete was called, succeeded, and is the call just before the Update; when
Delete is not called or fails there is no such Update.  (The conclusion does not
need the assumption that the updated resource lacks the token.) -/
theorem finalizer_removed_only_after_successful_delete (k : Kind)
    (r : Reconciler W k.Resource ε) (util : Util k.Resource) (request : Request) (w : W)
    (loaded obj : k.Resource) (resp : Option ε)
    (hload : Call.clientGet request.NamespacedName (.ok loaded) ∈
      (Reconcile k r util request w).calls)
    (hupd : Call.clientUpdate obj resp ∈ (Reconcile k r util request w).calls)
    (hhad : util.HasFinalizer loaded k.Finalizer = true)
    (_hgone : util.HasFinalizer obj k.Finalizer = false) :
    (Reconcile k r util request w).calls =
      [.clientGet request.NamespacedName (.ok loaded), .actuatorDelete loaded none,
        .clientUpdate obj resp] ∧
    obj = util.DeleteFinalizer loaded k.Finalizer := by
  rcases Reconcile_paths k r util request w with
    ⟨e, w1, _, hout⟩ | ⟨o, w1, _, ⟨_, _, hout⟩ | ⟨_, _, hout⟩ | ⟨_, _, e, w2, _, hout⟩ |
      ⟨_, _, w2, _, hout⟩ | ⟨_, _, b, e, w2, _, hout⟩ | ⟨_, _, w2, _, hout⟩ |
      ⟨_, _, w2, _, hout⟩⟩ <;>
  simp_all

/-- The unit test "Deleted with finalizer": the log is Get, Delete, Update of the
record without its finalizer. -/
theorem finalizer_removed_only_after_successful_delete_witness :
    (runTest (testDeletedDNSRecord ⟨1⟩) NewFakeActuator).calls =
      [.clientGet testRequest.NamespacedName (.ok (testDeletedDNSRecord ⟨1⟩)),
        .actuatorDelete (testDeletedDNSRecord ⟨1⟩) none,
        .clientUpdate (testDeletedDNSRecordWithoutFinalizer ⟨1⟩) none] :=
  (finalizer_removed_only_after_successful_delete .dnsrecord (testReconciler .dnsrecord)
    (Util.spec .dnsrecord) testRequest
    { objects := [testDeletedDNSRecord ⟨1⟩], actuator := NewFakeActuator }
    (testDeletedDNSRecord ⟨1⟩) (testDeletedDNSRecordWithoutFinalizer ⟨1⟩) none
    (List.Mem.head _) (List.Mem.tail _ (List.Mem.tail _ (List.Mem.head _))) rfl rfl).1

/-- C2. For a resource loaded with a deletion marker and carrying the finalizer
token, if Delete returns the error `E` then Reconcile returns exactly `E`, and its
log is exactly Get followed by that Delete: no Store Update and no other
actuator call.  The world is left as Delete left it, so nothing was written to
the store and the stored resource keeps the token. -/
theorem delete_error_is_returned_and_finalizer_kept (k : Kind)
    (r : Reconciler W k.Resource ε) (util : Util k.Resource) (request : Request)
    (w w1 w2 : W) (obj : k.Resource) (E : ε)
    (hget : r.Client.doGet request.NamespacedName w = (.ok obj, w1))
    (hdel : k.deleted obj = true)
    (hfin : util.HasFinalizer obj k.Finalizer = true)
    (herr : r.actuator.doDelete obj w1 = (some E, w2)) :
    (Reconcile k r util request w).err = some E ∧
    (Reconcile k r util request w).calls =
      [.clientGet request.NamespacedName (.ok obj), .actuatorDelete obj (some E)] ∧
    (Reconcile k r util request w).world = w2 := by
  rcases Reconcile_paths k r util request w with
    ⟨e, w1, _, hout⟩ | ⟨o, w1, _, ⟨_, _, hout⟩ | ⟨_, _, hout⟩ | ⟨_, _, e, w2, _, hout⟩ |
      ⟨_, _, w2, _, hout⟩ | ⟨_, _, b, e, w2, _, hout⟩ | ⟨_, _, w2, _, hout⟩ |
      ⟨_, _, w2, _, hout⟩⟩ <;>
  simp_all

/-- Scenario C, the unit test "Actuator Delete error": the error comes back and the
stored record still has its finalizer. -/
theorem delete_error_is_returned_and_finalizer_kept_witness :
    (runTest (testDeletedDNSRecord ⟨1⟩)
      (NewFakeActuator.OnDelete (some (.plain "delete error")))).err =
      some (.plain "delete error") ∧
    (runTest (testDeletedDNSRecord ⟨1⟩)
      (NewFakeActuator.OnDelete (some (.plain "delete error")))).world.objects =
      [testDeletedDNSRecord ⟨1⟩] :=
  ⟨(delete_error_is_returned_and_finalizer_kept .dnsrecord (testReconciler .dnsrecord)
      (Util.spec .dnsrecord) testRequest
      { objects := [testDeletedDNSRecord ⟨1⟩],
        actuator := NewFakeActuator.OnDelete (some (.plain "delete error")) }
      _ _ (testDeletedDNSRecord ⟨1⟩) (.plain "delete error") rfl rfl rfl rfl).1, rfl⟩

/-- C3. For a resource loaded with a deletion marker and the finalizer token in its
list, if Delete returns nil then the log is exactly Get, one Delete, one Store
Update (no Exists, Create or Update of the actuator); the resource handed to the
Store Update is the loaded one with the token filtered out of its finalizers, so
a list `[token]` becomes `[]`; and Reconcile returns what the Store Update
returned, success when it succeeded.  The helpers are the modelled ones. -/
theorem successful_delete_removes_finalizer (k : Kind) (r : Reconciler W k.Resource ε)
    (request : Request) (w w1 w2 w3 : W) (obj : k.Resource) (resp : Option ε)
    (hget : r.Client.doGet request.NamespacedName w = (.ok obj, w1))
    (hdel : k.deleted obj = true)
    (hfin : k.Finalizer ∈ (k.ObjectMeta obj).Finalizers)
    (hok : r.actuator.doDelete obj w1 = (none, w2))
    (hupd : r.Client.doUpdate ((Util.spec k).DeleteFinalizer obj k.Finalizer) w2 = (resp, w3)) :
    (Reconcile k r (Util.spec k) request w).calls =
      [.clientGet request.NamespacedName (.ok obj), .actuatorDelete obj none,
        .clientUpdate ((Util.spec k).DeleteFinalizer obj k.Finalizer) resp] ∧
    (Util.spec k).DeleteFinalizer obj k.Finalizer =
      k.setFinalizers obj ((k.ObjectMeta obj).Finalizers.filter (fun f => f != k.Finalizer)) ∧
    k.Finalizer ∉ (k.ObjectMeta ((Util.spec k).DeleteFinalizer obj k.Finalizer)).Finalizers ∧
    ((k.ObjectMeta obj).Finalizers = [k.Finalizer] →
      (k.ObjectMeta ((Util.spec k).DeleteFinalizer obj k.Finalizer)).Finalizers = []) ∧
    (Reconcile k r (Util.spec k) request w).err = resp ∧
    (Reconcile k r (Util.spec k) request w).world = w3 := by
  have hfin' := (spec_HasFinalizer k obj k.Finalizer).2 hfin
  refine ⟨?_, rfl, ?_, ?_, ?_, ?_⟩
  case refine_2 => simp [spec_DeleteFinalizer]
  case refine_3 =>
    intro h
    simp [spec_DeleteFinalizer, h]
  all_goals
    rcases Reconcile_paths k r (Util.spec k) request w with
      ⟨e, w1, _, hout⟩ | ⟨o, w1, _, ⟨_, _, hout⟩ | ⟨_, _, hout⟩ | ⟨_, _, e, w2, _, hout⟩ |
        ⟨_, _, w2, _, hout⟩ | ⟨_, _, b, e, w2, _, hout⟩ | ⟨_, _, w2, _, hout⟩ |
        ⟨_, _, w2, _, hout⟩⟩ <;>
    simp_all

/-- Scenario B, the unit test "Deleted with finalizer": Reconcile succeeds, Delete
was called once and the stored finalizer list went from `[token]` to `[]`. -/
theorem successful_delete_removes_finalizer_witness :
    (runTest (testDeletedDNSRecord ⟨1⟩) NewFakeActuator).err = none ∧
    (runTest (testDeletedDNSRecord ⟨1⟩) NewFakeActuator).world.objects =
      [testDeletedDNSRecordWithoutFinalizer ⟨1⟩] ∧
    (runTest (testDeletedDNSRecord ⟨1⟩) NewFakeActuator).world.actuator.calls =
      [{ method := "Delete" }] :=
  ⟨(successful_delete_removes_finalizer .dnsrecord (testReconciler .dnsrecord) testRequest
      { objects := [testDeletedDNSRecord ⟨1⟩], actuator := NewFakeActuator }
      _ _ _ (testDeletedDNSRecord ⟨1⟩) none rfl rfl (List.Mem.head _) rfl rfl).2.2.2.2.1,
    rfl, rfl⟩

/-- C4. For a resource loaded without a deletion marker and without the finalizer
token in its list, the log is exactly Get followed by one Store Update, so no
actuator call is made; the resource handed to the Update is the loaded one with
the token appended to its finalizers and nothing else changed, so a list `[]`
becomes `[token]`; and Reconcile returns what the Update returned, success when
it succeeded.  The helpers are the modelled ones. -/
theorem finalizer_attached_without_actuator_call (k : Kind) (r : Reconciler W k.Resource ε)
    (request : Request) (w w1 w2 : W) (obj : k.Resource) (resp : Option ε)
    (hget : r.Client.doGet request.NamespacedName w = (.ok obj, w1))
    (hact : k.deleted obj = false)
    (hnofin : k.Finalizer ∉ (k.ObjectMeta obj).Finalizers)
    (hupd : r.Client.doUpdate ((Util.spec k).AddFinalizer obj k.Finalizer) w1 = (resp, w2)) :
    (Reconcile k r (Util.spec k) request w).calls =
      [.clientGet request.NamespacedName (.ok obj),
        .clientUpdate ((Util.spec k).AddFinalizer obj k.Finalizer) resp] ∧
    (Util.spec k).AddFinalizer obj k.Finalizer =
      k.setFinalizers obj ((k.ObjectMeta obj).Finalizers ++ [k.Finalizer]) ∧
    ((k.ObjectMeta obj).Finalizers = [] →
      (k.ObjectMeta ((Util.spec k).AddFinalizer obj k.Finalizer)).Finalizers = [k.Finalizer]) ∧
    (Reconcile k r (Util.spec k) request w).err = resp ∧
    (Reconcile k r (Util.spec k) request w).world = w2 := by
  have hfin' : (Util.spec k).HasFinalizer obj k.Finalizer = false := by
    cases h : (Util.spec k).HasFinalizer obj k.Finalizer
    · rfl
    · exact absurd ((spec_HasFinalizer k obj k.Finalizer).1 h) hnofin
  have hadd := spec_AddFinalizer k obj k.Finalizer hnofin
  refine ⟨?_, hadd, ?_, ?_, ?_⟩
  case refine_2 =>
    intro h
    rw [hadd, ObjectMeta_setFinalizers, h]
    rfl
  all_goals
    rcases Reconcile_paths k r (Util.spec k) request w with
      ⟨e, w1, _, hout⟩ | ⟨o, w1, _, ⟨_, _, hout⟩ | ⟨_, _, hout⟩ | ⟨_, _, e, w2, _, hout⟩ |
        ⟨_, _, w2, _, hout⟩ | ⟨_, _, b, e, w2, _, hout⟩ | ⟨_, _, w2, _, hout⟩ |
        ⟨_, _, w2, _, hout⟩⟩ <;>
    simp_all

/-- Scenario A, the unit test "Add finalizer": the record stored with finalizers `[]`
is stored with `[dnsrecord.cloudkit.openshift.io]` afterwards and the fake
actuator saw no call. -/
theorem finalizer_attached_without_actuator_call_witness :
    (runTest testDNSRecordWithoutFinalizer NewFakeActuator).calls =
      [.clientGet testRequest.NamespacedName (.ok testDNSRecordWithoutFinalizer),
        .clientUpdate testDNSRecord none] ∧
    (runTest testDNSRecordWithoutFinalizer NewFakeActuator).world.objects =
      [testDNSRecord] ∧
    testDNSRecord.ObjectMeta.Finalizers = ["dnsrecord.cloudkit.openshift.io"] ∧
    (runTest testDNSRecordWithoutFinalizer NewFakeActuator).world.actuator.CallCount = 0 :=
  ⟨(finalizer_attached_without_actuator_call .dnsrecord (testReconciler .dnsrecord) testRequest
      { objects := [testDNSRecordWithoutFinalizer], actuator := NewFakeActuator }
      _ _ testDNSRecordWithoutFinalizer none rfl rfl (List.not_mem_nil _) rfl).1,
    rfl, rfl, rfl⟩

/-- C5. For an active resource (no deletion marker) carrying the finalizer token,
when Exists answers `(true, nil)` the whole outcome is: log Get, Exists, one
Update of the actuator, and the returned error is the one Update returned; when
Exists answers `(false, nil)` it is: log Get, Exists, one Create, and the
returned error is the one Create returned.  In both cases Exists comes once and
first, and there is no Delete and no Store Update. -/
theorem steady_state_calls_update_or_create (k : Kind) (r : Reconciler W k.Resource ε)
    (util : Util k.Resource) (request : Request) (w w1 w2 : W) (obj : k.Resource) (exist : Bool)
    (hget : r.Client.doGet request.NamespacedName w = (.ok obj, w1))
    (hact : k.deleted obj = false)
    (hfin : util.HasFinalizer obj k.Finalizer = true)
    (hex : r.actuator.doExists obj w1 = ((exist, none), w2)) :
    (exist = true →
      Reconcile k r util request w =
        { result := {}, err := (r.actuator.doUpdate obj w2).1,
          world := (r.actuator.doUpdate obj w2).2,
          calls := [.clientGet request.NamespacedName (.ok obj),
            .actuatorExists obj (true, none),
            .actuatorUpdate obj (r.actuator.doUpdate obj w2).1] }) ∧
    (exist = false →
      Reconcile k r util request w =
        { result := {}, err := (r.actuator.doCreate obj w2).1,
          world := (r.actuator.doCreate obj w2).2,
          calls := [.clientGet request.NamespacedName (.ok obj),
            .actuatorExists obj (false, none),
            .actuatorCreate obj (r.actuator.doCreate obj w2).1] }) := by
  rcases Reconcile_paths k r util request w with
    ⟨e, w1, _, hout⟩ | ⟨o, w1, _, ⟨_, _, hout⟩ | ⟨_, _, hout⟩ | ⟨_, _, e, w2, _, hout⟩ |
      ⟨_, _, w2, _, hout⟩ | ⟨_, _, b, e, w2, _, hout⟩ | ⟨_, _, w2, _, hout⟩ |
      ⟨_, _, w2, _, hout⟩⟩ <;>
  simp_all

/-- Scenario D, the unit test "Existing DNS record": the fake actuator saw Exists
then Update, never Create, and Reconcile succeeded. -/
theorem steady_state_calls_update_or_create_witness :
    (runTest testDNSRecord (NewFakeActuator.OnExists true none)).err = none ∧
    (runTest testDNSRecord (NewFakeActuator.OnExists true none)).world.actuator.calls =
      [{ method := "Exists" }, { method := "Update" }] ∧
    (runTest testDNSRecord (NewFakeActuator.OnExists true none)).world.actuator.Called "Create" =
      false :=
  ⟨congrArg Outcome.err
      ((steady_state_calls_update_or_create .dnsrecord (testReconciler .dnsrecord)
        (Util.spec .dnsrecord) testRequest
        { objects := [testDNSRecord], actuator := NewFakeActuator.OnExists true none }
        _ _ testDNSRecord true rfl rfl rfl rfl).1 rfl),
    rfl, rfl⟩

/-- C6. For a resource loaded with a deletion marker and without the finalizer
token, Reconcile is a no-op: the log holds the Get alone (no actuator call, no
Store Update), the world is as the Get left it, and the result is success. -/
theorem deleted_without_finalizer_is_noop (k : Kind) (r : Reconciler W k.Resource ε)
    (util : Util k.Resource) (request : Request) (w w1 : W) (obj : k.Resource)
    (hget : r.Client.doGet request.NamespacedName w = (.ok obj, w1))
    (hdel : k.deleted obj = true)
    (hnofin : util.HasFinalizer obj k.Finalizer = false) :
    Reconcile k r util request w =
      { result := {}, err := none, world := w1,
        calls := [.clientGet request.NamespacedName (.ok obj)] } := by
  rcases Reconcile_paths k r util request w with
    ⟨e, w1, _, hout⟩ | ⟨o, w1, _, ⟨_, _, hout⟩ | ⟨_, _, hout⟩ | ⟨_, _, e, w2, _, hout⟩ |
      ⟨_, _, w2, _, hout⟩ | ⟨_, _, b, e, w2, _, hout⟩ | ⟨_, _, w2, _, hout⟩ |
      ⟨_, _, w2, _, hout⟩⟩ <;>
  simp_all

/-- The unit test "Deleted with no finalizer": success, the stored record is
untouched and the fake actuator has a call count of 0. -/
theorem deleted_without_finalizer_is_noop_witness :
    (runTest (testDeletedDNSRecordWithoutFinalizer ⟨1⟩) NewFakeActuator).err = none ∧
    (runTest (testDeletedDNSRecordWithoutFinalizer ⟨1⟩) NewFakeActuator).world.objects =
      [testDeletedDNSRecordWithoutFinalizer ⟨1⟩] ∧
    (runTest (testDeletedDNSRecordWithoutFinalizer ⟨1⟩)
      NewFakeActuator).world.actuator.CallCount = 0 :=
  ⟨congrArg Outcome.err
      (deleted_without_finalizer_is_noop .dnsrecord (testReconciler .dnsrecord)
        (Util.spec .dnsrecord) testRequest
        { objects := [testDeletedDNSRecordWithoutFinalizer ⟨1⟩], actuator := NewFakeActuator }
        _ (testDeletedDNSRecordWithoutFinalizer ⟨1⟩) rfl rfl rfl),
    rfl, rfl⟩

/-- C7. In an invocation whose loaded resource has a deletion marker, whatever its
finalizers and whatever the store and the actuator answer, no logged call is a
Create, an Update or an Exists of the actuator. -/
theorem no_create_update_exists_once_deleted (k : Kind) (r : Reconciler W k.Resource ε)
    (util : Util k.Resource) (request : Request) (w : W) (loaded : k.Resource)
    (hload : Call.clientGet request.NamespacedName (.ok loaded) ∈
      (Reconcile k r util request w).calls)
    (hdel : k.deleted loaded = true) :
    ∀ c ∈ (Reconcile k r util request w).calls,
      c.method ≠ .actuatorCreate ∧ c.method ≠ .actuatorUpdate ∧ c.method ≠ .actuatorExists := by
  rcases Reconcile_paths k r util request w with
    ⟨e, w1, _, hout⟩ | ⟨o, w1, _, ⟨_, _, hout⟩ | ⟨_, _, hout⟩ | ⟨_, _, e, w2, _, hout⟩ |
      ⟨_, _, w2, _, hout⟩ | ⟨_, _, b, e, w2, _, hout⟩ | ⟨_, _, w2, _, hout⟩ |
      ⟨_, _, w2, _, hout⟩⟩ <;>
  simp_all [Call.method]

/-- On the deleted test record with its finalizer, every logged call is something
other than Create, Update and Exists. -/
theorem no_create_update_exists_once_deleted_witness :
    (runTest (testDeletedDNSRecord ⟨1⟩) NewFakeActuator).calls.all
      (fun c => decide (c.method ≠ .actuatorCreate ∧ c.method ≠ .actuatorUpdate ∧
        c.method ≠ .actuatorExists)) = true :=
  List.all_eq_true.2 fun c hc =>
    decide_eq_true
      (no_create_update_exists_once_deleted .dnsrecord (testReconciler .dnsrecord)
        (Util.spec .dnsrecord) testRequest
        { objects := [testDeletedDNSRecord ⟨1⟩], actuator := NewFakeActuator }
        (testDeletedDNSRecord ⟨1⟩) (List.Mem.head _) rfl c hc)

/-- C8, invariant I1. If an invocation logs a call to Exists, Create or Update of
the actuator, then its load succeeded, the loaded resource is the one handed to
that call, it has no deletion marker and it carries the finalizer token; and the
invocation logs no Store Update at all, so it is neither the invocation that
attaches the token nor one in which persisting the token failed. -/
theorem external_calls_only_on_active_finalized_resource (k : Kind)
    (r : Reconciler W k.Resource ε) (util : Util k.Resource) (request : Request) (w : W)
    (c : Call k.Resource ε)
    (hc : c ∈ (Reconcile k r util request w).calls)
    (hm : c.method = .actuatorExists ∨ c.method = .actuatorCreate ∨ c.method = .actuatorUpdate) :
    ∃ loaded,
      (Reconcile k r util request w).calls.head? =
        some (.clientGet request.NamespacedName (.ok loaded)) ∧
      c.arg = some loaded ∧
      k.deleted loaded = false ∧
      util.HasFinalizer loaded k.Finalizer = true ∧
      ∀ c' ∈ (Reconcile k r util request w).calls, c'.method ≠ .clientUpdate := by
  rcases Reconcile_paths k r util request w with
    ⟨e, w1, _, hout⟩ | ⟨o, w1, _, ⟨_, _, hout⟩ | ⟨_, _, hout⟩ | ⟨_, _, e, w2, _, hout⟩ |
      ⟨_, _, w2, _, hout⟩ | ⟨_, _, b, e, w2, _, hout⟩ | ⟨_, _, w2, _, hout⟩ |
      ⟨_, _, w2, _, hout⟩⟩ <;>
  simp_all [Call.method, Call.arg] <;>
  aesop

/-- The unit test "Non-existent DNS record": the Create call was made on the loaded
record, which is active and has its finalizer. -/
theorem external_calls_only_on_active_finalized_resource_witness :
    ∃ loaded,
      (runTest testDNSRecord NewFakeActuator).calls.head? =
        some (.clientGet testRequest.NamespacedName (.ok loaded)) ∧
      (Call.actuatorCreate testDNSRecord none : Call DNSRecord TestError).arg = some loaded ∧
      Kind.deleted .dnsrecord loaded = false ∧
      (Util.spec .dnsrecord).HasFinalizer loaded DNSRecordFinalizer = true ∧
      ∀ c' ∈ (runTest testDNSRecord NewFakeActuator).calls, c'.method ≠ .clientUpdate :=
  external_calls_only_on_active_finalized_resource .dnsrecord (testReconciler .dnsrecord)
    (Util.spec .dnsrecord) testRequest
    { objects := [testDNSRecord], actuator := NewFakeActuator }
    (.actuatorCreate testDNSRecord none)
    (List.Mem.tail _ (List.Mem.tail _ (List.Mem.head _))) (Or.inr (Or.inl rfl))

/-- C9, invariant I2. In an invocation whose load succeeds, some logged call is a
Delete if and only if the loaded resource has a deletion marker and the
finalizer token in its list; and when a Delete answering nil is logged, it was
made on the loaded resource and is followed by the Store Update of that resource
with the token removed from its finalizers, the last call of the invocation.
The helpers are the modelled ones. -/
theorem delete_called_iff_deleted_with_finalizer (k : Kind) (r : Reconciler W k.Resource ε)
    (request : Request) (w w1 : W) (obj : k.Resource)
    (hget : r.Client.doGet request.NamespacedName w = (.ok obj, w1)) :
    ((∃ c ∈ (Reconcile k r (Util.spec k) request w).calls, c.method = .actuatorDelete) ↔
      (k.deleted obj = true ∧ k.Finalizer ∈ (k.ObjectMeta obj).Finalizers)) ∧
    (∀ o, Call.actuatorDelete o none ∈ (Reconcile k r (Util.spec k) request w).calls →
      o = obj ∧
      k.Finalizer ∉ (k.ObjectMeta ((Util.spec k).DeleteFinalizer obj k.Finalizer)).Finalizers ∧
      ∃ resp, (Reconcile k r (Util.spec k) request w).calls =
        [.clientGet request.NamespacedName (.ok obj), .actuatorDelete obj none,
          .clientUpdate ((Util.spec k).DeleteFinalizer obj k.Finalizer) resp]) := by
  have hrem : k.Finalizer ∉
      (k.ObjectMeta ((Util.spec k).DeleteFinalizer obj k.Finalizer)).Finalizers := by
    simp [spec_DeleteFinalizer]
  have hmem := spec_HasFinalizer k obj k.Finalizer
  rcases Reconcile_paths k r (Util.spec k) request w with
    ⟨e, w1, _, hout⟩ | ⟨o, w1, _, ⟨_, _, hout⟩ | ⟨_, _, hout⟩ | ⟨_, _, e, w2, _, hout⟩ |
      ⟨_, _, w2, _, hout⟩ | ⟨_, _, b, e, w2, _, hout⟩ | ⟨_, _, w2, _, hout⟩ |
      ⟨_, _, w2, _, hout⟩⟩ <;>
  simp_all [Call.method]

/-- On the deleted test record with its finalizer, Delete is called. -/
theorem delete_called_iff_deleted_with_finalizer_witness :
    (∃ c ∈ (runTest (testDeletedDNSRecord ⟨1⟩) NewFakeActuator).calls,
        c.method = .actuatorDelete) ↔
      (Kind.deleted .dnsrecord (testDeletedDNSRecord ⟨1⟩) = true ∧
        DNSRecordFinalizer ∈ (testDeletedDNSRecord ⟨1⟩).ObjectMeta.Finalizers) :=
  (delete_called_iff_deleted_with_finalizer .dnsrecord (testReconciler .dnsrecord) testRequest
    { objects := [testDeletedDNSRecord ⟨1⟩], actuator := NewFakeActuator }
    _ (testDeletedDNSRecord ⟨1⟩) rfl).1

/-- C10. Take any call in the log of an invocation that returned an error `E`,
other than a Get that failed with NotFound: be it the Get, a Store Update (of
the attach step or of the finalizer removal), or Exists, Create, Update or
Delete of the actuator.  Then Reconcile returns exactly `E`, and that call is
the last of the log, so no store or actuator call follows it; in particular
after a failed Exists, whatever boolean came with the error, neither Update nor
Create of the actuator is in the log. -/
theorem errors_are_returned_verbatim (k : Kind) (r : Reconciler W k.Resource ε)
    (util : Util k.Resource) (request : Request) (w : W)
    (pre post : List (Call k.Resource ε)) (c : Call k.Resource ε) (E : ε)
    (hsplit : (Reconcile k r util request w).calls = pre ++ c :: post)
    (herr : c.error = some E)
    (hnf : c.isGetNotFound = false) :
    (Reconcile k r util request w).err = some E ∧
    post = [] ∧
    (c.method = .actuatorExists →
      ∀ c' ∈ (Reconcile k r util request w).calls,
        c'.method ≠ .actuatorUpdate ∧ c'.method ≠ .actuatorCreate) := by
  rcases Reconcile_paths k r util request w with
    ⟨e, w1, _, hout⟩ | ⟨o, w1, _, ⟨_, _, hout⟩ | ⟨_, _, hout⟩ | ⟨_, _, e, w2, _, hout⟩ |
      ⟨_, _, w2, _, hout⟩ | ⟨_, _, b, e, w2, _, hout⟩ | ⟨_, _, w2, _, hout⟩ |
      ⟨_, _, w2, _, hout⟩⟩ <;>
  rcases pre with _ | ⟨p1, _ | ⟨p2, _ | ⟨p3, pre⟩⟩⟩ <;>
  rw [hout] at hsplit <;>
  simp only [List.nil_append, List.cons_append, List.cons.injEq] at hsplit <;>
  first
    | (obtain ⟨rfl, rfl⟩ := hsplit
       simp_all [Call.method, Call.error, Call.isGetNotFound])
    | (obtain ⟨rfl, rfl, rfl⟩ := hsplit
       simp_all [Call.method, Call.error, Call.isGetNotFound])
    | (obtain ⟨rfl, rfl, rfl, rfl⟩ := hsplit
       simp_all [Call.method, Call.error, Call.isGetNotFound])
    | simp_all [Call.method, Call.error, Call.isGetNotFound]

/-- The unit test "Exists error": Exists answers `(true, error)`, the error comes
back unchanged and Update is not called. -/
theorem errors_are_returned_verbatim_witness :
    (runTest testDNSRecord
      (NewFakeActuator.OnExists true (some (.plain "exists error")))).err =
      some (.plain "exists error") ∧
    (runTest testDNSRecord
      (NewFakeActuator.OnExists true (some (.plain "exists error")))).world.actuator.Called
        "Update" = false :=
  ⟨(errors_are_returned_verbatim .dnsrecord (testReconciler .dnsrecord) (Util.spec .dnsrecord)
      testRequest
      { objects := [testDNSRecord],
        actuator := NewFakeActuator.OnExists true (some (.plain "exists error")) }
      [.clientGet testRequest.NamespacedName (.ok testDNSRecord)] []
      (.actuatorExists testDNSRecord (true, some (.plain "exists error")))
      (.plain "exists error") rfl rfl rfl).1,
    rfl⟩

end claims

/-! ### The path equations, one by one -/

section path_equations
variable {W ε : Type} [APIStatus ε]

/-- The outcome when the load fails. -/
theorem Reconcile_load_failed (k : Kind) (r : Reconciler W k.Resource ε)
    (util : Util k.Resource) (request : Request) (w w1 : W) (e : ε)
    (hget : r.Client.doGet request.NamespacedName w = (.error e, w1)) :
    Reconcile k r util request w =
      { result := {}, err := if errors.IsNotFound e then none else some e, world := w1,
        calls := [.clientGet request.NamespacedName (.error e)] } := by
  rcases Reconcile_paths k r util request w with
    ⟨e, w1, _, hout⟩ | ⟨o, w1, _, ⟨_, _, hout⟩ | ⟨_, _, hout⟩ | ⟨_, _, e, w2, _, hout⟩ |
      ⟨_, _, w2, _, hout⟩ | ⟨_, _, b, e, w2, _, hout⟩ | ⟨_, _, w2, _, hout⟩ |
      ⟨_, _, w2, _, hout⟩⟩ <;>
  simp_all

/-- The outcome of the finalizer-attach branch. -/
theorem Reconcile_attach (k : Kind) (r : Reconciler W k.Resource ε)
    (util : Util k.Resource) (request : Request) (w w1 : W) (obj : k.Resource)
    (hget : r.Client.doGet request.NamespacedName w = (.ok obj, w1))
    (hact : k.deleted obj = false)
    (hnofin : util.HasFinalizer obj k.Finalizer = false) :
    Reconcile k r util request w =
      { result := {}, err := (r.Client.doUpdate (util.AddFinalizer obj k.Finalizer) w1).1,
        world := (r.Client.doUpdate (util.AddFinalizer obj k.Finalizer) w1).2,
        calls := [.clientGet request.NamespacedName (.ok obj),
          .clientUpdate (util.AddFinalizer obj k.Finalizer)
            (r.Client.doUpdate (util.AddFinalizer obj k.Finalizer) w1).1] } := by
  rcases Reconcile_paths k r util request w with
    ⟨e, w1, _, hout⟩ | ⟨o, w1, _, ⟨_, _, hout⟩ | ⟨_, _, hout⟩ | ⟨_, _, e, w2, _, hout⟩ |
      ⟨_, _, w2, _, hout⟩ | ⟨_, _, b, e, w2, _, hout⟩ | ⟨_, _, w2, _, hout⟩ |
      ⟨_, _, w2, _, hout⟩⟩ <;>
  simp_all

/-- The outcome on a deleted resource without the finalizer. -/
theorem Reconcile_deleted_noop (k : Kind) (r : Reconciler W k.Resource ε)
    (util : Util k.Resource) (request : Request) (w w1 : W) (obj : k.Resource)
    (hget : r.Client.doGet request.NamespacedName w = (.ok obj, w1))
    (hdel : k.deleted obj = true)
    (hnofin : util.HasFinalizer obj k.Finalizer = false) :
    Reconcile k r util request w =
      { result := {}, err := none, world := w1,
        calls := [.clientGet request.NamespacedName (.ok obj)] } := by
  rcases Reconcile_paths k r util request w with
    ⟨e, w1, _, hout⟩ | ⟨o, w1, _, ⟨_, _, hout⟩ | ⟨_, _, hout⟩ | ⟨_, _, e, w2, _, hout⟩ |
      ⟨_, _, w2, _, hout⟩ | ⟨_, _, b, e, w2, _, hout⟩ | ⟨_, _, w2, _, hout⟩ |
      ⟨_, _, w2, _, hout⟩⟩ <;>
  simp_all

/-- The outcome of the deletion branch when Delete fails. -/
theorem Reconcile_delete_failed (k : Kind) (r : Reconciler W k.Resource ε)
    (util : Util k.Resource) (request : Request) (w w1 w2 : W) (obj : k.Resource) (e : ε)
    (hget : r.Client.doGet request.NamespacedName w = (.ok obj, w1))
    (hdel : k.deleted obj = true)
    (hfin : util.HasFinalizer obj k.Finalizer = true)
    (hresp : r.actuator.doDelete obj w1 = (some e, w2)) :
    Reconcile k r util request w =
      { result := {}, err := some e, world := w2,
        calls := [.clientGet request.NamespacedName (.ok obj), .actuatorDelete obj (some e)] } := by
  rcases Reconcile_paths k r util request w with
    ⟨e, w1, _, hout⟩ | ⟨o, w1, _, ⟨_, _, hout⟩ | ⟨_, _, hout⟩ | ⟨_, _, e, w2, _, hout⟩ |
      ⟨_, _, w2, _, hout⟩ | ⟨_, _, b, e, w2, _, hout⟩ | ⟨_, _, w2, _, hout⟩ |
      ⟨_, _, w2, _, hout⟩⟩ <;>
  simp_all

/-- The outcome of the deletion branch when Delete succeeds. -/
theorem Reconcile_delete_done (k : Kind) (r : Reconciler W k.Resource ε)
    (util : Util k.Resource) (request : Request) (w w1 w2 : W) (obj : k.Resource)
    (hget : r.Client.doGet request.NamespacedName w = (.ok obj, w1))
    (hdel : k.deleted obj = true)
    (hfin : util.HasFinalizer obj k.Finalizer = true)
    (hresp : r.actuator.doDelete obj w1 = (none, w2)) :
    Reconcile k r util request w =
      { result := {}, err := (r.Client.doUpdate (util.DeleteFinalizer obj k.Finalizer) w2).1,
        world := (r.Client.doUpdate (util.DeleteFinalizer obj k.Finalizer) w2).2,
        calls := [.clientGet request.NamespacedName (.ok obj), .actuatorDelete obj none,
          .clientUpdate (util.DeleteFinalizer obj k.Finalizer)
            (r.Client.doUpdate (util.DeleteFinalizer obj k.Finalizer) w2).1] } := by
  rcases Reconcile_paths k r util request w with
    ⟨e, w1, _, hout⟩ | ⟨o, w1, _, ⟨_, _, hout⟩ | ⟨_, _, hout⟩ | ⟨_, _, e, w2, _, hout⟩ |
      ⟨_, _, w2, _, hout⟩ | ⟨_, _, b, e, w2, _, hout⟩ | ⟨_, _, w2, _, hout⟩ |
      ⟨_, _, w2, _, hout⟩⟩ <;>
  simp_all

/-- The outcome of the steady-state branch when Exists fails. -/
theorem Reconcile_exists_failed (k : Kind) (r : Reconciler W k.Resource ε)
    (util : Util k.Resource) (request : Request) (w w1 w2 : W) (obj : k.Resource)
    (exist : Bool) (e : ε)
    (hget : r.Client.doGet request.NamespacedName w = (.ok obj, w1))
    (hact : k.deleted obj = false)
    (hfin : util.HasFinalizer obj k.Finalizer = true)
    (hresp : r.actuator.doExists obj w1 = ((exist, some e), w2)) :
    Reconcile k r util request w =
      { result := {}, err := some e, world := w2,
        calls := [.clientGet request.NamespacedName (.ok obj),
          .actuatorExists obj (exist, some e)] } := by
  rcases Reconcile_paths k r util request w with
    ⟨e, w1, _, hout⟩ | ⟨o, w1, _, ⟨_, _, hout⟩ | ⟨_, _, hout⟩ | ⟨_, _, e, w2, _, hout⟩ |
      ⟨_, _, w2, _, hout⟩ | ⟨_, _, b, e, w2, _, hout⟩ | ⟨_, _, w2, _, hout⟩ |
      ⟨_, _, w2, _, hout⟩⟩ <;>
  simp_all

/-- The outcome of the steady-state branch when the external object exists. -/
theorem Reconcile_update (k : Kind) (r : Reconciler W k.Resource ε)
    (util : Util k.Resource) (request : Request) (w w1 w2 : W) (obj : k.Resource)
    (hget : r.Client.doGet request.NamespacedName w = (.ok obj, w1))
    (hact : k.deleted obj = false)
    (hfin : util.HasFinalizer obj k.Finalizer = true)
    (hresp : r.actuator.doExists obj w1 = ((true, none), w2)) :
    Reconcile k r util request w =
      { result := {}, err := (r.actuator.doUpdate obj w2).1,
        world := (r.actuator.doUpdate obj w2).2,
        calls := [.clientGet request.NamespacedName (.ok obj), .actuatorExists obj (true, none),
          .actuatorUpdate obj (r.actuator.doUpdate obj w2).1] } := by
  rcases Reconcile_paths k r util request w with
    ⟨e, w1, _, hout⟩ | ⟨o, w1, _, ⟨_, _, hout⟩ | ⟨_, _, hout⟩ | ⟨_, _, e, w2, _, hout⟩ |
      ⟨_, _, w2, _, hout⟩ | ⟨_, _, b, e, w2, _, hout⟩ | ⟨_, _, w2, _, hout⟩ |
      ⟨_, _, w2, _, hout⟩⟩ <;>
  simp_all

/-- The outcome of the steady-state branch when the external object is missing. -/
theorem Reconcile_create (k : Kind) (r : Reconciler W k.Resource ε)
    (util : Util k.Resource) (request : Request) (w w1 w2 : W) (obj : k.Resource)
    (hget : r.Client.doGet request.NamespacedName w = (.ok obj, w1))
    (hact : k.deleted obj = false)
    (hfin : util.HasFinalizer obj k.Finalizer = true)
    (hresp : r.actuator.doExists obj w1 = ((false, none), w2)) :
    Reconcile k r util request w =
      { result := {}, err := (r.actuator.doCreate obj w2).1,
        world := (r.actuator.doCreate obj w2).2,
        calls := [.clientGet request.NamespacedName (.ok obj), .actuatorExists obj (false, none),
          .actuatorCreate obj (r.actuator.doCreate obj w2).1] } := by
  rcases Reconcile_paths k r util request w with
    ⟨e, w1, _, hout⟩ | ⟨o, w1, _, ⟨_, _, hout⟩ | ⟨_, _, hout⟩ | ⟨_, _, e, w2, _, hout⟩ |
      ⟨_, _, w2, _, hout⟩ | ⟨_, _, b, e, w2, _, hout⟩ | ⟨_, _, w2, _, hout⟩ |
      ⟨_, _, w2, _, hout⟩⟩ <;>
  simp_all

end path_equations

/-! ### More on the modelled helpers and on editing a resource -/

section spec_util_more

/-- The modelled `AddFinalizer` keeps the key of the resource. -/
theorem key_spec_AddFinalizer (k : Kind) (obj : k.Resource) (finalizer : String) :
    k.key ((Util.spec k).AddFinalizer obj finalizer) = k.key obj := by
  unfold Util.spec
  dsimp only
  split
  · rfl
  · cases k <;> rfl

/-- After the modelled `AddFinalizer` the resource carries the token. -/
theorem spec_HasFinalizer_AddFinalizer (k : Kind) (obj : k.Resource) (finalizer : String) :
    (Util.spec k).HasFinalizer ((Util.spec k).AddFinalizer obj finalizer) finalizer = true := by
  by_cases h : finalizer ∈ (k.ObjectMeta obj).Finalizers
  · have : (Util.spec k).AddFinalizer obj finalizer = obj := by simp [Util.spec, h]
    rw [this]
    exact (spec_HasFinalizer k obj finalizer).2 h
  · rw [spec_AddFinalizer k obj finalizer h, spec_HasFinalizer, ObjectMeta_setFinalizers]
    simp

/-- Replacing the finalizers leaves the deletion marker as it is. -/
theorem deleted_setFinalizers (k : Kind) (obj : k.Resource) (fs : List String) :
    k.deleted (k.setFinalizers obj fs) = k.deleted obj := by
  cases k <;> rfl

/-- Replacing the finalizers leaves the key as it is. -/
theorem key_setFinalizers (k : Kind) (obj : k.Resource) (fs : List String) :
    k.key (k.setFinalizers obj fs) = k.key obj := by
  cases k <;> rfl

/-- Setting the deletion timestamp leaves the key as it is. -/
theorem key_setDeletionTimestamp (k : Kind) (obj : k.Resource) (t : Option Time) :
    k.key (k.setDeletionTimestamp t obj) = k.key obj := by
  cases k <;> rfl

/-- A resource given a non-zero deletion timestamp has a deletion marker. -/
theorem deleted_setDeletionTimestamp (k : Kind) (obj : k.Resource) (t : Time) (ht : t.nanos ≠ 0) :
    k.deleted (k.setDeletionTimestamp (some t) obj) = true := by
  cases k <;> simp [Kind.deleted, Kind.setDeletionTimestamp, Kind.ObjectMeta, Time.IsZero, ht]

/-- Setting the deletion timestamp leaves the finalizers as they are. -/
theorem finalizers_setDeletionTimestamp (k : Kind) (obj : k.Resource) (t : Option Time) :
    (k.ObjectMeta (k.setDeletionTimestamp t obj)).Finalizers = (k.ObjectMeta obj).Finalizers := by
  cases k <;> rfl

/-- Putting the original finalizers back undoes an earlier replacement. -/
theorem setFinalizers_setDeletionTimestamp_setFinalizers (k : Kind) (obj : k.Resource)
    (t : Option Time) (fs : List String) :
    k.setFinalizers (k.setDeletionTimestamp t (k.setFinalizers obj fs))
      (k.ObjectMeta obj).Finalizers = k.setDeletionTimestamp t obj := by
  cases k <;> rfl

end spec_util_more

/-! ### Answers -/

section answers
variable {ε : Type}

/-- Two returned errors give the same answer only when they are equal. -/
theorem Answer.ofError_inj (a b : Option ε) : Answer.ofError a = Answer.ofError b ↔ a = b := by
  cases a <;> cases b <;> simp [Answer.ofError]

/-- The answer of a returned error is never that of a successful load. -/
theorem Answer.ofError_ne_found (a : Option ε) (d f : Bool) :
    Answer.ofError a ≠ Answer.found d f := by
  cases a <;> simp [Answer.ofError]

/-- The answer of a returned error is never that of an Exists call. -/
theorem Answer.ofError_ne_exist (a : Option ε) (b : Bool) (e : Option ε) :
    Answer.ofError a ≠ Answer.exist b e := by
  cases a <;> simp [Answer.ofError]

/-- The answer of a successful load is never that of a returned error. -/
theorem Answer.found_ne_ofError (a : Option ε) (d f : Bool) :
    Answer.found d f ≠ Answer.ofError a := by
  cases a <;> simp [Answer.ofError]

/-- The answer of an Exists call is never that of a returned error. -/
theorem Answer.exist_ne_ofError (a : Option ε) (b : Bool) (e : Option ε) :
    Answer.exist b e ≠ Answer.ofError a := by
  cases a <;> simp [Answer.ofError]

end answers

/-! ### The remembering store -/

section cluster_store
variable {A ε : Type}

/-- Get on a cluster that stores a resource under the key. -/
theorem cluster_doGet_stored (k : Kind) (b : Backing A k.Resource ε) (key : NamespacedName)
    (w : Cluster k.Resource A) (obj : k.Resource)
    (hs : w.stored = some obj) (hk : k.key obj = key) :
    (b.reconciler k).Client.doGet key w = (.ok obj, w) := by
  simp [Backing.reconciler, hs, hk]

/-- Get on a cluster that stores nothing under the key. -/
theorem cluster_doGet_missing (k : Kind) (b : Backing A k.Resource ε) (key : NamespacedName)
    (w : Cluster k.Resource A)
    (hs : ∀ obj, w.stored = some obj → k.key obj ≠ key) :
    (b.reconciler k).Client.doGet key w = (.error b.notFound, w) := by
  rcases h : w.stored with _ | o
  · simp [Backing.reconciler, h]
  · simp [Backing.reconciler, h, hs o h]

/-- A rejected Update changes nothing in the store. -/
theorem cluster_doUpdate_rejected (k : Kind) (b : Backing A k.Resource ε)
    (w : Cluster k.Resource A) (obj : k.Resource) (e : ε) (a : A)
    (hver : b.verdict obj w.provider = (some e, a)) :
    (b.reconciler k).Client.doUpdate obj w = (some e, { w with provider := a }) := by
  simp [Backing.reconciler, hver]

/-- An accepted Update of the stored resource replaces it. -/
theorem cluster_doUpdate_accepted (k : Kind) (b : Backing A k.Resource ε)
    (w : Cluster k.Resource A) (old obj : k.Resource) (a : A)
    (hs : w.stored = some old) (hk : k.key old = k.key obj)
    (hver : b.verdict obj w.provider = (none, a)) :
    (b.reconciler k).Client.doUpdate obj w = (none, { stored := some obj, provider := a }) := by
  simp [Backing.reconciler, hver, hs, hk]

/-- An Update never empties the store and stores nothing but its argument. -/
theorem cluster_doUpdate_stored (k : Kind) (b : Backing A k.Resource ε)
    (w : Cluster k.Resource A) (obj : k.Resource) :
    ((b.reconciler k).Client.doUpdate obj w).2.stored = w.stored ∨
      (((b.reconciler k).Client.doUpdate obj w).1 = none ∧
        ((b.reconciler k).Client.doUpdate obj w).2.stored = some obj) := by
  rcases hver : b.verdict obj w.provider with ⟨_ | e, a⟩
  · rcases hs : w.stored with _ | o
    · simp [Backing.reconciler, hver, hs]
    · by_cases hk : k.key o = k.key obj <;> simp [Backing.reconciler, hver, hs, hk]
  · simp [Backing.reconciler, hver]

end cluster_store

section cluster
variable {A ε : Type} [APIStatus ε]

/-- The steady-state branch on a cluster whose provider reports the object. -/
theorem cluster_step_update (k : Kind) (b : Backing A k.Resource ε) (util : Util k.Resource)
    (request : Request) (w : Cluster k.Resource A) (obj : k.Resource) (a : A)
    (hs : w.stored = some obj) (hk : k.key obj = request.NamespacedName)
    (hact : k.deleted obj = false) (hfin : util.HasFinalizer obj k.Finalizer = true)
    (hex : b.actuator.doExists obj w.provider = ((true, none), a)) :
    Reconcile k (b.reconciler k) util request w =
      { result := {}, err := (b.actuator.doUpdate obj a).1,
        world := { stored := some obj, provider := (b.actuator.doUpdate obj a).2 },
        calls := [.clientGet request.NamespacedName (.ok obj), .actuatorExists obj (true, none),
          .actuatorUpdate obj (b.actuator.doUpdate obj a).1] } := by
  rw [Reconcile_update k (b.reconciler k) util request w w { w with provider := a } obj
    (cluster_doGet_stored k b _ w obj hs hk) hact hfin (by simp [Backing.reconciler, hex])]
  simp [Backing.reconciler, hs]

/-- The steady-state branch on a cluster whose provider misses the object. -/
theorem cluster_step_create (k : Kind) (b : Backing A k.Resource ε) (util : Util k.Resource)
    (request : Request) (w : Cluster k.Resource A) (obj : k.Resource) (a : A)
    (hs : w.stored = some obj) (hk : k.key obj = request.NamespacedName)
    (hact : k.deleted obj = false) (hfin : util.HasFinalizer obj k.Finalizer = true)
    (hex : b.actuator.doExists obj w.provider = ((false, none), a)) :
    Reconcile k (b.reconciler k) util request w =
      { result := {}, err := (b.actuator.doCreate obj a).1,
        world := { stored := some obj, provider := (b.actuator.doCreate obj a).2 },
        calls := [.clientGet request.NamespacedName (.ok obj), .actuatorExists obj (false, none),
          .actuatorCreate obj (b.actuator.doCreate obj a).1] } := by
  rw [Reconcile_create k (b.reconciler k) util request w w { w with provider := a } obj
    (cluster_doGet_stored k b _ w obj hs hk) hact hfin (by simp [Backing.reconciler, hex])]
  simp [Backing.reconciler, hs]

/-- The deletion branch on a cluster when Delete fails. -/
theorem cluster_step_delete_failed (k : Kind) (b : Backing A k.Resource ε)
    (util : Util k.Resource) (request : Request) (w : Cluster k.Resource A) (obj : k.Resource)
    (e : ε) (a : A)
    (hs : w.stored = some obj) (hk : k.key obj = request.NamespacedName)
    (hdel : k.deleted obj = true) (hfin : util.HasFinalizer obj k.Finalizer = true)
    (hresp : b.actuator.doDelete obj w.provider = (some e, a)) :
    Reconcile k (b.reconciler k) util request w =
      { result := {}, err := some e, world := { stored := some obj, provider := a },
        calls := [.clientGet request.NamespacedName (.ok obj), .actuatorDelete obj (some e)] } := by
  rw [Reconcile_delete_failed k (b.reconciler k) util request w w { w with provider := a } obj e
    (cluster_doGet_stored k b _ w obj hs hk) hdel hfin (by simp [Backing.reconciler, hresp])]
  simp [hs]

/-- The deletion branch on a cluster when Delete succeeds. -/
theorem cluster_step_delete_done (k : Kind) (b : Backing A k.Resource ε)
    (util : Util k.Resource) (request : Request) (w : Cluster k.Resource A) (obj : k.Resource)
    (a : A)
    (hs : w.stored = some obj) (hk : k.key obj = request.NamespacedName)
    (hdel : k.deleted obj = true) (hfin : util.HasFinalizer obj k.Finalizer = true)
    (hresp : b.actuator.doDelete obj w.provider = (none, a)) :
    Reconcile k (b.reconciler k) util request w =
      { result := {},
        err := ((b.reconciler k).Client.doUpdate (util.DeleteFinalizer obj k.Finalizer)
          { stored := some obj, provider := a }).1,
        world := ((b.reconciler k).Client.doUpdate (util.DeleteFinalizer obj k.Finalizer)
          { stored := some obj, provider := a }).2,
        calls := [.clientGet request.NamespacedName (.ok obj), .actuatorDelete obj none,
          .clientUpdate (util.DeleteFinalizer obj k.Finalizer)
            ((b.reconciler k).Client.doUpdate (util.DeleteFinalizer obj k.Finalizer)
              { stored := some obj, provider := a }).1] } := by
  rw [Reconcile_delete_done k (b.reconciler k) util request w w { w with provider := a } obj
    (cluster_doGet_stored k b _ w obj hs hk) hdel hfin (by simp [Backing.reconciler, hresp])]
  simp [hs]

/-- The finalizer-attach branch on a cluster. -/
theorem cluster_step_attach (k : Kind) (b : Backing A k.Resource ε)
    (util : Util k.Resource) (request : Request) (w : Cluster k.Resource A) (obj : k.Resource)
    (hs : w.stored = some obj) (hk : k.key obj = request.NamespacedName)
    (hact : k.deleted obj = false) (hnofin : util.HasFinalizer obj k.Finalizer = false) :
    Reconcile k (b.reconciler k) util request w =
      { result := {},
        err := ((b.reconciler k).Client.doUpdate (util.AddFinalizer obj k.Finalizer) w).1,
        world := ((b.reconciler k).Client.doUpdate (util.AddFinalizer obj k.Finalizer) w).2,
        calls := [.clientGet request.NamespacedName (.ok obj),
          .clientUpdate (util.AddFinalizer obj k.Finalizer)
            ((b.reconciler k).Client.doUpdate (util.AddFinalizer obj k.Finalizer) w).1] } :=
  Reconcile_attach k (b.reconciler k) util request w w obj
    (cluster_doGet_stored k b _ w obj hs hk) hact hnofin

/-- The no-op on a cluster that stores a deleted resource without the finalizer. -/
theorem cluster_step_deleted_noop (k : Kind) (b : Backing A k.Resource ε)
    (util : Util k.Resource) (request : Request) (w : Cluster k.Resource A) (obj : k.Resource)
    (hs : w.stored = some obj) (hk : k.key obj = request.NamespacedName)
    (hdel : k.deleted obj = true) (hnofin : util.HasFinalizer obj k.Finalizer = false) :
    Reconcile k (b.reconciler k) util request w =
      { result := {}, err := none, world := w,
        calls := [.clientGet request.NamespacedName (.ok obj)] } :=
  Reconcile_deleted_noop k (b.reconciler k) util request w w obj
    (cluster_doGet_stored k b _ w obj hs hk) hdel hnofin

/-- The invocation on a cluster that stores nothing under the key. -/
theorem cluster_step_missing (k : Kind) (b : Backing A k.Resource ε)
    (util : Util k.Resource) (request : Request) (w : Cluster k.Resource A)
    (hs : ∀ obj, w.stored = some obj → k.key obj ≠ request.NamespacedName) :
    Reconcile k (b.reconciler k) util request w =
      { result := {}, err := if errors.IsNotFound b.notFound then none else some b.notFound,
        world := w, calls := [.clientGet request.NamespacedName (.error b.notFound)] } :=
  Reconcile_load_failed k (b.reconciler k) util request w w b.notFound
    (cluster_doGet_missing k b _ w hs)

/-- One invocation on a cluster whose stored resource, if any, lacks the token:
Exists is not called, and the token is attached or the stored resource still
lacks it. -/
theorem cluster_step_without_finalizer (k : Kind) (b : Backing A k.Resource ε)
    (request : Request) (w : Cluster k.Resource A)
    (hinv : ∀ obj, w.stored = some obj → (Util.spec k).HasFinalizer obj k.Finalizer = false) :
    existsCalled (Reconcile k (b.reconciler k) (Util.spec k) request w).calls = false ∧
    (finalizerAttached (Util.spec k) k.Finalizer
        (Reconcile k (b.reconciler k) (Util.spec k) request w).calls = true ∨
      ∀ obj, (Reconcile k (b.reconciler k) (Util.spec k) request w).world.stored = some obj →
        (Util.spec k).HasFinalizer obj k.Finalizer = false) := by
  by_cases hs : ∀ obj, w.stored = some obj → k.key obj ≠ request.NamespacedName
  · rw [cluster_step_missing k b _ request w hs]
    exact ⟨by simp [existsCalled, Call.method], Or.inr hinv⟩
  · push_neg at hs
    obtain ⟨obj, hso, hk⟩ := hs
    have hno := hinv obj hso
    cases hd : k.deleted obj
    · rw [cluster_step_attach k b _ request w obj hso hk hd hno]
      refine ⟨by simp [existsCalled, Call.method], ?_⟩
      rcases cluster_doUpdate_stored k b w ((Util.spec k).AddFinalizer obj k.Finalizer) with
        h | ⟨h1, h2⟩
      · right
        intro o ho
        rw [h] at ho
        exact hinv o ho
      · left
        simp [finalizerAttached, hno, h1, spec_HasFinalizer_AddFinalizer]
    · rw [cluster_step_deleted_noop k b _ request w obj hso hk hd hno]
      exact ⟨by simp [existsCalled, Call.method], Or.inr hinv⟩

/-- Running a history in two parts. -/
theorem runSteps_append (k : Kind) (b : Backing A k.Resource ε) (util : Util k.Resource)
    (request : Request) (s₁ s₂ : List (Step k.Resource)) (w : Cluster k.Resource A) :
    runSteps k b util request (s₁ ++ s₂) w =
      ((runSteps k b util request s₁ w).1 ++
          (runSteps k b util request s₂ (runSteps k b util request s₁ w).2).1,
        (runSteps k b util request s₂ (runSteps k b util request s₁ w).2).2) := by
  induction s₁ generalizing w with
  | nil => simp [runSteps]
  | cons s rest ih =>
    cases s with
    | reconcile => simp [runSteps, ih]
    | edit f => simp [runSteps, ih]

/-- Repeating an invocation that leaves the world as it found it. -/
theorem runSteps_replicate_fixed (k : Kind) (b : Backing A k.Resource ε) (util : Util k.Resource)
    (request : Request) (w : Cluster k.Resource A) (m : Nat)
    (hfix : (Reconcile k (b.reconciler k) util request w).world = w) :
    runSteps k b util request (List.replicate m .reconcile) w =
      (List.replicate m (Reconcile k (b.reconciler k) util request w), w) := by
  induction m with
  | zero => simp [runSteps]
  | succ m ih => simp [List.replicate_succ, runSteps, hfix, ih]

end cluster

/-! ### Further properties of one invocation -/

section claims_one_invocation
variable {W ε : Type} [APIStatus ε]

/-- C11. Reconcile returns a non-nil error if and only if some call of its log
returned an error, a Get that failed with NotFound not counted.  And an
invocation is successful with nothing but the Get in its log (no Store Update,
no actuator call) exactly in the two terminal cases: the Get failed with
NotFound, or the loaded resource has a deletion marker and lacks the token. -/
theorem error_iff_some_call_failed (k : Kind) (r : Reconciler W k.Resource ε)
    (util : Util k.Resource) (request : Request) (w : W) :
    ((Reconcile k r util request w).err ≠ none ↔
      ∃ c ∈ (Reconcile k r util request w).calls, c.error ≠ none ∧ c.isGetNotFound = false) ∧
    (((Reconcile k r util request w).err = none ∧
        ∀ c ∈ (Reconcile k r util request w).calls, c.method = .clientGet) ↔
      ((∃ e, (Reconcile k r util request w).calls =
            [.clientGet request.NamespacedName (.error e)] ∧ errors.IsNotFound e = true) ∨
        (∃ obj, (Reconcile k r util request w).calls =
            [.clientGet request.NamespacedName (.ok obj)] ∧
            k.deleted obj = true ∧ util.HasFinalizer obj k.Finalizer = false))) := by
  rcases Reconcile_paths k r util request w with
    ⟨e, w1, _, hout⟩ | ⟨o, w1, _, ⟨_, _, hout⟩ | ⟨_, _, hout⟩ | ⟨_, _, e, w2, _, hout⟩ |
      ⟨_, _, w2, _, hout⟩ | ⟨_, _, b, e, w2, _, hout⟩ | ⟨_, _, w2, _, hout⟩ |
      ⟨_, _, w2, _, hout⟩⟩ <;>
  simp_all [Call.method, Call.error, Call.isGetNotFound]

/-- C12. When the Get fails with the error `E`: if `E` is NotFound the outcome is
success, otherwise the returned error is `E` itself; in both cases the log holds
the Get alone, so there is no actuator call and no Store Update, and the world
is as the Get left it. -/
theorem load_failure_makes_no_call (k : Kind) (r : Reconciler W k.Resource ε)
    (util : Util k.Resource) (request : Request) (w w1 : W) (E : ε)
    (hget : r.Client.doGet request.NamespacedName w = (.error E, w1)) :
    (errors.IsNotFound E = true →
      Reconcile k r util request w =
        { result := {}, err := none, world := w1,
          calls := [.clientGet request.NamespacedName (.error E)] }) ∧
    (errors.IsNotFound E = false →
      Reconcile k r util request w =
        { result := {}, err := some E, world := w1,
          calls := [.clientGet request.NamespacedName (.error E)] }) := by
  rcases Reconcile_paths k r util request w with
    ⟨e, w1, _, hout⟩ | ⟨o, w1, _, ⟨_, _, hout⟩ | ⟨_, _, hout⟩ | ⟨_, _, e, w2, _, hout⟩ |
      ⟨_, _, w2, _, hout⟩ | ⟨_, _, b, e, w2, _, hout⟩ | ⟨_, _, w2, _, hout⟩ |
      ⟨_, _, w2, _, hout⟩⟩ <;>
  simp_all

/-- An empty store: the Get answers NotFound, Reconcile succeeds and the fake actuator
saw no call. -/
theorem load_failure_makes_no_call_witness :
    (Reconcile .dnsrecord (testReconciler .dnsrecord) (Util.spec .dnsrecord) testRequest
      { objects := [], actuator := NewFakeActuator }).err = none ∧
    (Reconcile .dnsrecord (testReconciler .dnsrecord) (Util.spec .dnsrecord) testRequest
      { objects := [], actuator := NewFakeActuator }).calls.map Call.method = [.clientGet] ∧
    (Reconcile .dnsrecord (testReconciler .dnsrecord) (Util.spec .dnsrecord) testRequest
      { objects := [], actuator := NewFakeActuator }).world.actuator.CallCount = 0 :=
  ⟨congrArg Outcome.err
      ((load_failure_makes_no_call .dnsrecord (testReconciler .dnsrecord) (Util.spec .dnsrecord)
        testRequest { objects := [], actuator := NewFakeActuator } _ .notFound rfl).1 rfl),
    rfl, rfl⟩

/-- C13, as stated, fails.  In the unit test "Exists error" the log is Get, Exists:
no Store Update adding the token, no Delete, no Create, no Update, and yet an
actuator call, so none of the five actions executed. -/
theorem exists_error_executes_no_action :
    (runTest testDNSRecord
      (NewFakeActuator.OnExists true (some (.plain "exists error")))).calls.map Call.method =
      [.clientGet, .actuatorExists] ∧
    actionsExecuted (Util.spec .dnsrecord) DNSRecordFinalizer
      (runTest testDNSRecord
        (NewFakeActuator.OnExists true (some (.plain "exists error")))).calls ≠ 1 := by
  decide

/-- C13, amended.  In every invocation at most one of the five actions
attach-finalizer, delete-path, create, update, no-op executes; and none executes
exactly when the log is a successful Get followed by an Exists that returned an
error.  So exactly one action executes unless Exists fails.  The helpers are the
modelled ones. -/
theorem at_most_one_action_executes (k : Kind) (r : Reconciler W k.Resource ε)
    (request : Request) (w : W) :
    actionsExecuted (Util.spec k) k.Finalizer (Reconcile k r (Util.spec k) request w).calls ≤ 1 ∧
    (actionsExecuted (Util.spec k) k.Finalizer (Reconcile k r (Util.spec k) request w).calls = 0 ↔
      ∃ obj exist e, (Reconcile k r (Util.spec k) request w).calls =
        [.clientGet request.NamespacedName (.ok obj), .actuatorExists obj (exist, some e)]) := by
  have hadd : ∀ obj : k.Resource, (Util.spec k).HasFinalizer obj k.Finalizer = false →
      (Util.spec k).HasFinalizer ((Util.spec k).AddFinalizer obj k.Finalizer) k.Finalizer = true := by
    intro obj h
    have hn : k.Finalizer ∉ (k.ObjectMeta obj).Finalizers := by
      intro hm
      rw [(spec_HasFinalizer k obj k.Finalizer).2 hm] at h
      cases h
    rw [spec_AddFinalizer k obj k.Finalizer hn, spec_HasFinalizer, ObjectMeta_setFinalizers]
    simp
  rcases Reconcile_paths k r (Util.spec k) request w with
    ⟨e, w1, _, hout⟩ | ⟨o, w1, _, ⟨_, hf, hout⟩ | ⟨_, _, hout⟩ | ⟨_, _, e, w2, _, hout⟩ |
      ⟨_, _, w2, _, hout⟩ | ⟨_, _, b, e, w2, _, hout⟩ | ⟨_, _, w2, _, hout⟩ |
      ⟨_, _, w2, _, hout⟩⟩
  · simp [hout, actionsExecuted, attachFinalizerExecuted, deletePathExecuted, createExecuted,
      updateExecuted, noOpExecuted, Call.method]
  · simp [hout, actionsExecuted, attachFinalizerExecuted, deletePathExecuted, createExecuted,
      updateExecuted, noOpExecuted, Call.method, hf, hadd o hf]
  all_goals
    simp_all [actionsExecuted, attachFinalizerExecuted, deletePathExecuted, createExecuted,
      updateExecuted, noOpExecuted, Call.method]

end claims_one_invocation

/-! ### The resource handed to the Store Update -/

section in_place
variable {W ε : Type} [APIStatus ε]

/-- The eight ways an invocation can go when the actuator is handed a pointer,
each with its exact outcome.  `left` is the resource as the actuator call left
it: the Store Update of the delete path and the Update or Create of the
steady-state path are handed that resource. -/
theorem inPlace_Reconcile_paths (k : Kind) (r : InPlace.Reconciler W k.Resource ε)
    (util : Util k.Resource) (request : Request) (w : W) :
    (∃ e w1, r.Client.doGet request.NamespacedName w = (.error e, w1) ∧
      InPlace.Reconcile k r util request w =
        { result := {}, err := if errors.IsNotFound e then none else some e, world := w1,
          calls := [.clientGet request.NamespacedName (.error e)] }) ∨
    (∃ obj w1, r.Client.doGet request.NamespacedName w = (.ok obj, w1) ∧
      ((k.deleted obj = false ∧ util.HasFinalizer obj k.Finalizer = false ∧
          InPlace.Reconcile k r util request w =
            { result := {}, err := (r.Client.doUpdate (util.AddFinalizer obj k.Finalizer) w1).1,
              world := (r.Client.doUpdate (util.AddFinalizer obj k.Finalizer) w1).2,
              calls := [.clientGet request.NamespacedName (.ok obj),
                .clientUpdate (util.AddFinalizer obj k.Finalizer)
                  (r.Client.doUpdate (util.AddFinalizer obj k.Finalizer) w1).1] }) ∨
       (k.deleted obj = true ∧ util.HasFinalizer obj k.Finalizer = false ∧
          InPlace.Reconcile k r util request w =
            { result := {}, err := none, world := w1,
              calls := [.clientGet request.NamespacedName (.ok obj)] }) ∨
       (k.deleted obj = true ∧ util.HasFinalizer obj k.Finalizer = true ∧
          ∃ e left w2, r.actuator.doDelete obj w1 = ((some e, left), w2) ∧
          InPlace.Reconcile k r util request w =
            { result := {}, err := some e, world := w2,
              calls := [.clientGet request.NamespacedName (.ok obj), .actuatorDelete obj (some e)] }) ∨
       (k.deleted obj = true ∧ util.HasFinalizer obj k.Finalizer = true ∧
          ∃ left w2, r.actuator.doDelete obj w1 = ((none, left), w2) ∧
          InPlace.Reconcile k r util request w =
            { result := {}, err := (r.Client.doUpdate (util.DeleteFinalizer left k.Finalizer) w2).1,
              world := (r.Client.doUpdate (util.DeleteFinalizer left k.Finalizer) w2).2,
              calls := [.clientGet request.NamespacedName (.ok obj), .actuatorDelete obj none,
                .clientUpdate (util.DeleteFinalizer left k.Finalizer)
                  (r.Client.doUpdate (util.DeleteFinalizer left k.Finalizer) w2).1] }) ∨
       (k.deleted obj = false ∧ util.HasFinalizer obj k.Finalizer = true ∧
          ∃ b e left w2, r.actuator.doExists obj w1 = (((b, some e), left), w2) ∧
          InPlace.Reconcile k r util request w =
            { result := {}, err := some e, world := w2,
              calls := [.clientGet request.NamespacedName (.ok obj),
                .actuatorExists obj (b, some e)] }) ∨
       (k.deleted obj = false ∧ util.HasFinalizer obj k.Finalizer = true ∧
          ∃ left w2, r.actuator.doExists obj w1 = (((true, none), left), w2) ∧
          InPlace.Reconcile k r util request w =
            { result := {}, err := (r.actuator.doUpdate left w2).1.1,
              world := (r.actuator.doUpdate left w2).2,
              calls := [.clientGet request.NamespacedName (.ok obj),
                .actuatorExists obj (true, none),
                .actuatorUpdate left (r.actuator.doUpdate left w2).1.1] }) ∨
       (k.deleted obj = false ∧ util.HasFinalizer obj k.Finalizer = true ∧
          ∃ left w2, r.actuator.doExists obj w1 = (((false, none), left), w2) ∧
          InPlace.Reconcile k r util request w =
            { result := {}, err := (r.actuator.doCreate left w2).1.1,
              world := (r.actuator.doCreate left w2).2,
              calls := [.clientGet request.NamespacedName (.ok obj),
                .actuatorExists obj (false, none),
                .actuatorCreate left (r.actuator.doCreate left w2).1.1] }))) := by
  cases k
  all_goals
    rcases hget : r.Client.doGet request.NamespacedName w with ⟨_ | obj, w1⟩
    · left
      refine ⟨_, _, rfl, ?_⟩
      simp only [InPlace.Reconcile, InPlace.ReconcileDNSRecord.Reconcile,
        InPlace.ReconcileDNSZone.Reconcile, InPlace.Reconciler.Get,
        Client.Get, hget, Exec.ret]
      split <;> simp_all
    · right
      refine ⟨obj, w1, rfl, ?_⟩
      cases hd : Time.IsZero obj.ObjectMeta.DeletionTimestamp <;>
      cases hf : util.HasFinalizer obj _
      · simp_all [InPlace.Reconcile, InPlace.ReconcileDNSRecord.Reconcile,
          InPlace.ReconcileDNSZone.Reconcile, InPlace.Reconciler.Get,
          InPlace.Reconciler.Update, Client.Get, Client.Update, InPlace.Actuator.Delete,
          InPlace.Actuator.Exists, InPlace.Actuator.Update, InPlace.Actuator.Create, Exec.ret,
          Kind.deleted, Kind.ObjectMeta, Kind.Finalizer]
      · rcases hdel : r.actuator.doDelete obj w1 with ⟨⟨_ | e, left⟩, w2⟩
        · simp_all [InPlace.Reconcile, InPlace.ReconcileDNSRecord.Reconcile,
          InPlace.ReconcileDNSZone.Reconcile, InPlace.Reconciler.Get,
          InPlace.Reconciler.Update, Client.Get, Client.Update, InPlace.Actuator.Delete,
          InPlace.Actuator.Exists, InPlace.Actuator.Update, InPlace.Actuator.Create, Exec.ret,
          Kind.deleted, Kind.ObjectMeta, Kind.Finalizer]
          refine ⟨left, w2, ⟨rfl, rfl⟩, ?_⟩
          split <;> rename_i heq <;> simp only [Prod.mk.injEq] at heq <;> obtain ⟨h1, rfl⟩ := heq <;> simp [h1]
        · simp_all [InPlace.Reconcile, InPlace.ReconcileDNSRecord.Reconcile,
          InPlace.ReconcileDNSZone.Reconcile, InPlace.Reconciler.Get,
          InPlace.Reconciler.Update, Client.Get, Client.Update, InPlace.Actuator.Delete,
          InPlace.Actuator.Exists, InPlace.Actuator.Update, InPlace.Actuator.Create, Exec.ret,
          Kind.deleted, Kind.ObjectMeta, Kind.Finalizer]
          exact ⟨_, _, _, ⟨⟨rfl, rfl⟩, rfl⟩, rfl, rfl, rfl⟩
      · simp_all [InPlace.Reconcile, InPlace.ReconcileDNSRecord.Reconcile,
          InPlace.ReconcileDNSZone.Reconcile, InPlace.Reconciler.Get,
          InPlace.Reconciler.Update, Client.Get, Client.Update, InPlace.Actuator.Delete,
          InPlace.Actuator.Exists, InPlace.Actuator.Update, InPlace.Actuator.Create, Exec.ret,
          Kind.deleted, Kind.ObjectMeta, Kind.Finalizer]
        split <;> rename_i heq <;> simp only [Prod.mk.injEq] at heq <;> obtain ⟨h1, rfl⟩ := heq <;> simp [h1]
      · rcases hex : r.actuator.doExists obj w1 with ⟨⟨⟨_ | _, _ | e⟩, left⟩, w2⟩
        · simp_all [InPlace.Reconcile, InPlace.ReconcileDNSRecord.Reconcile,
          InPlace.ReconcileDNSZone.Reconcile, InPlace.Reconciler.Get,
          InPlace.Reconciler.Update, Client.Get, Client.Update, InPlace.Actuator.Delete,
          InPlace.Actuator.Exists, InPlace.Actuator.Update, InPlace.Actuator.Create, Exec.ret,
          Kind.deleted, Kind.ObjectMeta, Kind.Finalizer]
          refine ⟨left, w2, ⟨rfl, rfl⟩, ?_⟩
          split <;> rename_i heq <;> simp only [Prod.mk.injEq] at heq <;> obtain ⟨h1, rfl⟩ := heq <;> simp [h1]
        · simp_all [InPlace.Reconcile, InPlace.ReconcileDNSRecord.Reconcile,
          InPlace.ReconcileDNSZone.Reconcile, InPlace.Reconciler.Get,
          InPlace.Reconciler.Update, Client.Get, Client.Update, InPlace.Actuator.Delete,
          InPlace.Actuator.Exists, InPlace.Actuator.Update, InPlace.Actuator.Create, Exec.ret,
          Kind.deleted, Kind.ObjectMeta, Kind.Finalizer]
          exact ⟨_, _, _, ⟨⟨rfl, rfl⟩, rfl⟩, rfl, rfl, rfl⟩
        · simp_all [InPlace.Reconcile, InPlace.ReconcileDNSRecord.Reconcile,
          InPlace.ReconcileDNSZone.Reconcile, InPlace.Reconciler.Get,
          InPlace.Reconciler.Update, Client.Get, Client.Update, InPlace.Actuator.Delete,
          InPlace.Actuator.Exists, InPlace.Actuator.Update, InPlace.Actuator.Create, Exec.ret,
          Kind.deleted, Kind.ObjectMeta, Kind.Finalizer]
          refine ⟨left, w2, ⟨rfl, rfl⟩, ?_⟩
          split <;> rename_i heq <;> simp only [Prod.mk.injEq] at heq <;> obtain ⟨h1, rfl⟩ := heq <;> simp [h1]
        · simp_all [InPlace.Reconcile, InPlace.ReconcileDNSRecord.Reconcile,
          InPlace.ReconcileDNSZone.Reconcile, InPlace.Reconciler.Get,
          InPlace.Reconciler.Update, Client.Get, Client.Update, InPlace.Actuator.Delete,
          InPlace.Actuator.Exists, InPlace.Actuator.Update, InPlace.Actuator.Create, Exec.ret,
          Kind.deleted, Kind.ObjectMeta, Kind.Finalizer]
          exact ⟨_, _, _, ⟨⟨rfl, rfl⟩, rfl⟩, rfl, rfl, rfl⟩

/-- With an actuator that never writes to the resource it is handed, the
reconciler that hands over a pointer behaves as the one that hands over a value. -/
theorem inPlace_Reconcile_ofByValue (k : Kind) (r : Reconciler W k.Resource ε)
    (util : Util k.Resource) (request : Request) (w : W) :
    InPlace.Reconcile k (InPlace.ofByValue r) util request w = Reconcile k r util request w := by
  rcases Reconcile_paths k r util request w with
    ⟨e, w1, hg, hout⟩ | ⟨o, w1, hg, ⟨hd, hf, hout⟩ | ⟨hd, hf, hout⟩ | ⟨hd, hf, e, w2, hc, hout⟩ |
      ⟨hd, hf, w2, hc, hout⟩ | ⟨hd, hf, b, e, w2, hc, hout⟩ | ⟨hd, hf, w2, hc, hout⟩ |
      ⟨hd, hf, w2, hc, hout⟩⟩ <;>
  rcases inPlace_Reconcile_paths k (InPlace.ofByValue r) util request w with
    ⟨e', w1', hg', hout'⟩ | ⟨o', w1', hg', ⟨hd', hf', hout'⟩ | ⟨hd', hf', hout'⟩ |
      ⟨hd', hf', e', l', w2', hc', hout'⟩ | ⟨hd', hf', l', w2', hc', hout'⟩ |
      ⟨hd', hf', b', e', l', w2', hc', hout'⟩ | ⟨hd', hf', l', w2', hc', hout'⟩ |
      ⟨hd', hf', l', w2', hc', hout'⟩⟩ <;>
  rw [hout, hout'] <;>
  clear hout hout' <;>
  simp only [InPlace.ofByValue] at hg' ⊢ <;>
  rw [hg] at hg' <;>
  simp only [Prod.mk.injEq, Except.ok.injEq, Except.error.injEq, reduceCtorEq, false_and] at hg' <;>
  obtain ⟨rfl, rfl⟩ := hg' <;>
  (try simp only [InPlace.ofByValue, hc, Prod.mk.injEq, Option.some.injEq, reduceCtorEq,
    false_and, and_false, Bool.true_eq_false, Bool.false_eq_true] at hc') <;>
  simp_all

/-- C18 as stated fails: with an actuator whose Delete writes the provider status
of the record it is handed, the record given to the Store Update carries that
status, so it differs from the loaded record in more than its finalizer list. -/
theorem actuator_status_write_is_persisted :
    (InPlace.Reconcile .dnsrecord statusWritingReconciler (Util.spec .dnsrecord) testRequest
        { objects := [testDeletedDNSRecord ⟨1000000000⟩], actuator := NewFakeActuator }).calls =
      [.clientGet testRequest.NamespacedName (.ok (testDeletedDNSRecord ⟨1000000000⟩)),
        .actuatorDelete (testDeletedDNSRecord ⟨1000000000⟩) none,
        .clientUpdate
          { testDeletedDNSRecordWithoutFinalizer ⟨1000000000⟩ with
            Status := { ProviderStatus := some { Raw := [1] } } } none] ∧
    (testDeletedDNSRecord ⟨1000000000⟩).Status = {} ∧
    Kind.dnsrecord.setFinalizers
        { testDeletedDNSRecordWithoutFinalizer ⟨1000000000⟩ with
          Status := { ProviderStatus := some { Raw := [1] } } } [] ≠
      Kind.dnsrecord.setFinalizers (testDeletedDNSRecord ⟨1000000000⟩) [] := by
  refine ⟨rfl, rfl, by decide⟩

/-- C18, amended. In every invocation the log holds exactly one Get and at most
one Store Update (the client of a reconciler has no other method: the source
calls Get and Update only).  On the attach path no actuator call is made and the
resource handed to the Update equals the loaded one in every field but the
finalizer list, which is the loaded list, free of the token, with the token
appended.  On the delete path the Update comes after a Delete that returned nil
and the resource handed to it equals the resource as Delete left it in every
field but the finalizer list, which is that list with the token filtered out;
when Delete left the resource as loaded, the same holds of the loaded resource.
The helpers are the modelled ones. -/
theorem store_update_adds_or_removes_only_own_token (k : Kind)
    (r : InPlace.Reconciler W k.Resource ε) (request : Request) (w : W) :
    (InPlace.Reconcile k r (Util.spec k) request w).calls.countP
      (fun c => c.method == .clientGet) = 1 ∧
    (InPlace.Reconcile k r (Util.spec k) request w).calls.countP
      (fun c => c.method == .clientUpdate) ≤ 1 ∧
    ∀ loaded obj resp,
      Call.clientGet request.NamespacedName (.ok loaded) ∈
        (InPlace.Reconcile k r (Util.spec k) request w).calls →
      Call.clientUpdate obj resp ∈ (InPlace.Reconcile k r (Util.spec k) request w).calls →
      ∃ w1, r.Client.doGet request.NamespacedName w = (.ok loaded, w1) ∧
        (k.deleted loaded = false →
          (∀ c ∈ (InPlace.Reconcile k r (Util.spec k) request w).calls,
            c.method.isActuator = false) ∧
          k.setFinalizers obj [] = k.setFinalizers loaded [] ∧
          (k.ObjectMeta obj).Finalizers = (k.ObjectMeta loaded).Finalizers ++ [k.Finalizer] ∧
          k.Finalizer ∉ (k.ObjectMeta loaded).Finalizers) ∧
        (k.deleted loaded = true →
          Call.actuatorDelete loaded none ∈
            (InPlace.Reconcile k r (Util.spec k) request w).calls ∧
          k.setFinalizers obj [] =
            k.setFinalizers (r.actuator.doDelete loaded w1).1.2 [] ∧
          (k.ObjectMeta obj).Finalizers =
            (k.ObjectMeta (r.actuator.doDelete loaded w1).1.2).Finalizers.filter
              (fun f => f != k.Finalizer) ∧
          ((r.actuator.doDelete loaded w1).1.2 = loaded →
            k.setFinalizers obj [] = k.setFinalizers loaded [] ∧
            (k.ObjectMeta obj).Finalizers =
              (k.ObjectMeta loaded).Finalizers.filter (fun f => f != k.Finalizer))) := by
  have hset : ∀ (o : k.Resource) (fs : List String),
      k.setFinalizers (k.setFinalizers o fs) [] = k.setFinalizers o [] := by
    intro o fs
    cases k <;> rfl
  have hmem : ∀ o : k.Resource, (Util.spec k).HasFinalizer o k.Finalizer = false →
      k.Finalizer ∉ (k.ObjectMeta o).Finalizers := by
    intro o h hm
    rw [(spec_HasFinalizer k o k.Finalizer).2 hm] at h
    cases h
  have hdel : ∀ o : k.Resource, (Util.spec k).DeleteFinalizer o k.Finalizer =
      k.setFinalizers o ((k.ObjectMeta o).Finalizers.filter (fun f => f != k.Finalizer)) :=
    fun _ => rfl
  rcases inPlace_Reconcile_paths k r (Util.spec k) request w with
    ⟨e, w1, _, hout⟩ | ⟨o, w1, hg, ⟨hd, hf, hout⟩ | ⟨_, _, hout⟩ | ⟨_, _, e, l, w2, _, hout⟩ |
      ⟨hd, _, l, w2, hc, hout⟩ | ⟨_, _, b, e, l, w2, _, hout⟩ | ⟨_, _, l, w2, _, hout⟩ |
      ⟨_, _, l, w2, _, hout⟩⟩
  · simp [hout, Call.method]
  · rw [hout]
    refine ⟨by simp [Call.method], by simp [Call.method], ?_⟩
    intro loaded obj resp h1 h2
    simp at h1 h2
    obtain ⟨rfl, -⟩ := h2
    subst h1
    refine ⟨w1, hg, ?_, ?_⟩
    · intro _
      rw [spec_AddFinalizer k loaded k.Finalizer (hmem loaded hf)]
      refine ⟨by simp [Call.method, Method.isActuator], hset _ _, ?_, hmem loaded hf⟩
      simp [ObjectMeta_setFinalizers]
    · intro h
      rw [hd] at h
      cases h
  · simp [hout, Call.method]
  · simp [hout, Call.method]
  · rw [hout]
    refine ⟨by simp [Call.method], by simp [Call.method], ?_⟩
    intro loaded obj resp h1 h2
    simp at h1 h2
    obtain ⟨rfl, -⟩ := h2
    subst h1
    refine ⟨w1, hg, ?_, ?_⟩
    · intro h
      rw [hd] at h
      cases h
    · intro _
      rw [hc, hdel]
      refine ⟨by simp, hset _ _, by simp [ObjectMeta_setFinalizers], ?_⟩
      intro hl
      dsimp only at hl
      subst hl
      exact ⟨hset _ _, by simp [ObjectMeta_setFinalizers]⟩
  · simp [hout, Call.method]
  · simp [hout, Call.method]
  · simp [hout, Call.method]

/-- The status-writing actuator on the bench: what the Store Update is handed
differs only by the token from the record as Delete left it. -/
theorem store_update_adds_or_removes_only_own_token_witness :
    Kind.dnsrecord.setFinalizers
        { testDeletedDNSRecordWithoutFinalizer ⟨1000000000⟩ with
          Status := { ProviderStatus := some { Raw := [1] } } } [] =
      Kind.dnsrecord.setFinalizers
        { testDeletedDNSRecord ⟨1000000000⟩ with
          Status := { ProviderStatus := some { Raw := [1] } } } [] ∧
    (Kind.dnsrecord.ObjectMeta
        { testDeletedDNSRecordWithoutFinalizer ⟨1000000000⟩ with
          Status := { ProviderStatus := some { Raw := [1] } } }).Finalizers =
      (Kind.dnsrecord.ObjectMeta
        { testDeletedDNSRecord ⟨1000000000⟩ with
          Status := { ProviderStatus := some { Raw := [1] } } }).Finalizers.filter
        (fun f => f != Kind.dnsrecord.Finalizer) := by
  obtain ⟨w1, -, -, h⟩ :=
    (store_update_adds_or_removes_only_own_token .dnsrecord statusWritingReconciler testRequest
      { objects := [testDeletedDNSRecord ⟨1000000000⟩], actuator := NewFakeActuator }).2.2
      (testDeletedDNSRecord ⟨1000000000⟩)
      { testDeletedDNSRecordWithoutFinalizer ⟨1000000000⟩ with
        Status := { ProviderStatus := some { Raw := [1] } } }
      none (List.Mem.head _) (List.Mem.tail _ (List.Mem.tail _ (List.Mem.head _)))
  exact ⟨(h rfl).2.1, (h rfl).2.2.1⟩

end in_place

/-! ### The two reconcilers compared -/

section claims_two_kinds
variable {W₁ W₂ ε : Type} [APIStatus ε]

/-- C19. Take one invocation of the DNSRecord reconciler and one of the DNSZone
reconciler, over any two worlds and with any finalizer helpers.  If calls made
at the same position of the two logs were answered alike (the same error, the
same Exists answer, and for a successful load a resource in the same state:
deletion marker or not, own token or not), then the two logs name the same
methods in the same order with the same answers, the returned error and Result
are the same, and the Store Updates make the same change: both hand over
`AddFinalizer` of the loaded resource with the own token, or both
`DeleteFinalizer` of it. -/
theorem zone_and_record_reconcilers_agree (r₁ : ReconcileDNSRecord W₁ ε)
    (r₂ : ReconcileDNSZone W₂ ε) (util₁ : Util DNSRecord) (util₂ : Util DNSZone)
    (request₁ request₂ : Request) (w₁ : W₁) (w₂ : W₂)
    (hsame : ∀ p ∈ List.zip (ReconcileDNSRecord.Reconcile r₁ util₁ request₁ w₁).calls
        (ReconcileDNSZone.Reconcile r₂ util₂ request₂ w₂).calls,
      Kind.answer .dnsrecord util₁ p.1 = Kind.answer .dnszone util₂ p.2) :
    (ReconcileDNSRecord.Reconcile r₁ util₁ request₁ w₁).calls.map Call.method =
      (ReconcileDNSZone.Reconcile r₂ util₂ request₂ w₂).calls.map Call.method ∧
    (ReconcileDNSRecord.Reconcile r₁ util₁ request₁ w₁).calls.map (Kind.answer .dnsrecord util₁) =
      (ReconcileDNSZone.Reconcile r₂ util₂ request₂ w₂).calls.map (Kind.answer .dnszone util₂) ∧
    (ReconcileDNSRecord.Reconcile r₁ util₁ request₁ w₁).err =
      (ReconcileDNSZone.Reconcile r₂ util₂ request₂ w₂).err ∧
    (ReconcileDNSRecord.Reconcile r₁ util₁ request₁ w₁).result =
      (ReconcileDNSZone.Reconcile r₂ util₂ request₂ w₂).result ∧
    ∀ record zone record' zone' resp₁ resp₂,
      Call.clientGet request₁.NamespacedName (.ok record) ∈
        (ReconcileDNSRecord.Reconcile r₁ util₁ request₁ w₁).calls →
      Call.clientGet request₂.NamespacedName (.ok zone) ∈
        (ReconcileDNSZone.Reconcile r₂ util₂ request₂ w₂).calls →
      Call.clientUpdate record' resp₁ ∈ (ReconcileDNSRecord.Reconcile r₁ util₁ request₁ w₁).calls →
      Call.clientUpdate zone' resp₂ ∈ (ReconcileDNSZone.Reconcile r₂ util₂ request₂ w₂).calls →
      (util₁.HasFinalizer record DNSRecordFinalizer = false ∧
        util₂.HasFinalizer zone DNSZoneFinalizer = false ∧
        record' = util₁.AddFinalizer record DNSRecordFinalizer ∧
        zone' = util₂.AddFinalizer zone DNSZoneFinalizer) ∨
      (util₁.HasFinalizer record DNSRecordFinalizer = true ∧
        util₂.HasFinalizer zone DNSZoneFinalizer = true ∧
        record' = util₁.DeleteFinalizer record DNSRecordFinalizer ∧
        zone' = util₂.DeleteFinalizer zone DNSZoneFinalizer) := by
  have h1 := Reconcile_paths .dnsrecord r₁ util₁ request₁ w₁
  have h2 := Reconcile_paths .dnszone r₂ util₂ request₂ w₂
  rw [show Reconcile Kind.dnsrecord r₁ util₁ request₁ w₁ =
    ReconcileDNSRecord.Reconcile r₁ util₁ request₁ w₁ from rfl] at h1
  rw [show Reconcile Kind.dnszone r₂ util₂ request₂ w₂ =
    ReconcileDNSZone.Reconcile r₂ util₂ request₂ w₂ from rfl] at h2
  rcases h1 with
    ⟨e, w1, _, hout⟩ | ⟨o, w1, _, ⟨_, _, hout⟩ | ⟨_, _, hout⟩ | ⟨_, _, e, w2, _, hout⟩ |
      ⟨_, _, w2, _, hout⟩ | ⟨_, _, b, e, w2, _, hout⟩ | ⟨_, _, w2, _, hout⟩ |
      ⟨_, _, w2, _, hout⟩⟩ <;>
  rcases h2 with
    ⟨e', w1', _, hout'⟩ | ⟨o', w1', _, ⟨_, _, hout'⟩ | ⟨_, _, hout'⟩ | ⟨_, _, e', w2', _, hout'⟩ |
      ⟨_, _, w2', _, hout'⟩ | ⟨_, _, b', e', w2', _, hout'⟩ | ⟨_, _, w2', _, hout'⟩ |
      ⟨_, _, w2', _, hout'⟩⟩ <;>
  rw [hout, hout'] at hsame ⊢ <;>
  simp [Kind.answer, Call.method, Answer.ofError_inj, Answer.ofError_ne_found,
    Answer.ofError_ne_exist, Answer.found_ne_ofError, Answer.exist_ne_ofError] at hsame ⊢ <;>
  simp_all [Kind.Finalizer]

/-- The unit test "Non-existent DNS record" and its dnszone twin call the same
methods in the same order. -/
theorem zone_and_record_reconcilers_agree_witness :
    (ReconcileDNSRecord.Reconcile (testReconciler .dnsrecord) (Util.spec .dnsrecord) testRequest
        { objects := [testDNSRecord], actuator := NewFakeActuator }).calls.map Call.method =
      (ReconcileDNSZone.Reconcile (testReconciler .dnszone) (Util.spec .dnszone) testZoneRequest
        { objects := [testDNSZone], actuator := NewFakeActuator }).calls.map Call.method :=
  (zone_and_record_reconcilers_agree (testReconciler .dnsrecord) (testReconciler .dnszone)
    (Util.spec .dnsrecord) (Util.spec .dnszone) testRequest testZoneRequest
    { objects := [testDNSRecord], actuator := NewFakeActuator }
    { objects := [testDNSZone], actuator := NewFakeActuator } (by decide)).1

end claims_two_kinds

/-! ### Properties of several invocations -/

section claims_histories
variable {A ε : Type} [APIStatus ε]

/-- C14. Idempotence.  On a store holding an active resource that carries the
token, with Exists answering `(true, nil)` and Update succeeding in both
invocations, two invocations in succession each log exactly Get, Exists, Update:
Update is called twice in total, Create and Delete never, no Store Update is
issued, both invocations succeed, and the store still holds the initial
resource. -/
theorem reconcile_twice_is_idempotent (k : Kind) (b : Backing A k.Resource ε)
    (util : Util k.Resource) (request : Request) (w : Cluster k.Resource A) (obj : k.Resource)
    (a1 a2 a3 a4 : A)
    (hstored : w.stored = some obj)
    (hkey : k.key obj = request.NamespacedName)
    (hact : k.deleted obj = false)
    (hfin : util.HasFinalizer obj k.Finalizer = true)
    (hex1 : b.actuator.doExists obj w.provider = ((true, none), a1))
    (hup1 : b.actuator.doUpdate obj a1 = (none, a2))
    (hex2 : b.actuator.doExists obj a2 = ((true, none), a3))
    (hup2 : b.actuator.doUpdate obj a3 = (none, a4)) :
    (runSteps k b util request [.reconcile, .reconcile] w).1.map (fun out => out.calls) =
      [[.clientGet request.NamespacedName (.ok obj), .actuatorExists obj (true, none),
          .actuatorUpdate obj none],
        [.clientGet request.NamespacedName (.ok obj), .actuatorExists obj (true, none),
          .actuatorUpdate obj none]] ∧
    (runSteps k b util request [.reconcile, .reconcile] w).1.map (fun out => out.err) =
      [none, none] ∧
    (runSteps k b util request [.reconcile, .reconcile] w).2.stored = some obj ∧
    (runSteps k b util request [.reconcile, .reconcile] w).2.provider = a4 := by
  have h1 := cluster_step_update k b util request w obj a1 hstored hkey hact hfin hex1
  have h2 := cluster_step_update k b util request { stored := some obj, provider := a2 } obj a3
    rfl hkey hact hfin hex2
  rw [hup1] at h1
  rw [hup2] at h2
  simp [runSteps, h1, h2]

/-- Scenario D twice on the bench: the fake actuator saw Exists, Update, Exists,
Update and the stored record is the initial one. -/
theorem reconcile_twice_is_idempotent_witness :
    (runSteps .dnsrecord (testBacking .dnsrecord) (Util.spec .dnsrecord) testRequest
      [.reconcile, .reconcile]
      { stored := some testDNSRecord, provider := NewFakeActuator.OnExists true none }).2.stored =
      some testDNSRecord ∧
    (runSteps .dnsrecord (testBacking .dnsrecord) (Util.spec .dnsrecord) testRequest
      [.reconcile, .reconcile]
      { stored := some testDNSRecord,
        provider := NewFakeActuator.OnExists true none }).2.provider.calls =
      [{ method := "Exists" }, { method := "Update" }, { method := "Exists" },
        { method := "Update" }] :=
  ⟨(reconcile_twice_is_idempotent .dnsrecord (testBacking .dnsrecord) (Util.spec .dnsrecord)
      testRequest
      { stored := some testDNSRecord, provider := NewFakeActuator.OnExists true none }
      testDNSRecord _ _ _ _ rfl rfl rfl rfl rfl rfl rfl rfl).2.2.1, rfl⟩

/-- C15. For every `n`: on a store holding a resource with a deletion marker and
the token, if every Delete call logged over `n` successive invocations returned
an error, then after the `n` invocations the store still holds that resource
(token included), each invocation logged exactly Get, Delete and returned the
error of its Delete, and Delete was called `n` times in all. -/
theorem failing_delete_never_releases_finalizer (k : Kind) (b : Backing A k.Resource ε)
    (util : Util k.Resource) (request : Request) (n : Nat) (w : Cluster k.Resource A)
    (obj : k.Resource)
    (hstored : w.stored = some obj)
    (hkey : k.key obj = request.NamespacedName)
    (hdel : k.deleted obj = true)
    (hfin : util.HasFinalizer obj k.Finalizer = true)
    (hfail : ∀ out ∈ (runSteps k b util request (List.replicate n .reconcile) w).1,
      ∀ c ∈ out.calls, c.method = .actuatorDelete → c.error.isSome = true) :
    (runSteps k b util request (List.replicate n .reconcile) w).2.stored = some obj ∧
    (runSteps k b util request (List.replicate n .reconcile) w).1.length = n ∧
    (∀ out ∈ (runSteps k b util request (List.replicate n .reconcile) w).1,
      ∃ e, out.err = some e ∧
        out.calls = [.clientGet request.NamespacedName (.ok obj), .actuatorDelete obj (some e)]) ∧
    ((runSteps k b util request (List.replicate n .reconcile) w).1.map
      (fun out => out.calls.countP (fun c => c.method == .actuatorDelete))).sum = n := by
  induction n generalizing w with
  | zero => simp [runSteps, hstored]
  | succ n ih =>
    rw [List.replicate_succ] at hfail ⊢
    rcases hresp : b.actuator.doDelete obj w.provider with ⟨_ | e, a⟩
    · exfalso
      have h := cluster_step_delete_done k b util request w obj a hstored hkey hdel hfin hresp
      have hc := hfail (Reconcile k (b.reconciler k) util request w) (by simp [runSteps])
        (.actuatorDelete obj none) (by rw [h]; simp) rfl
      cases hc
    · have h := cluster_step_delete_failed k b util request w obj e a hstored hkey hdel hfin hresp
      simp only [runSteps, h] at hfail ⊢
      have ih' := ih { stored := some obj, provider := a } rfl
        (fun out hout => hfail out (List.mem_cons_of_mem _ hout))
      obtain ⟨i1, i2, i3, i4⟩ := ih'
      refine ⟨i1, by simp [i2], ?_, ?_⟩
      · intro out hout
        rcases List.mem_cons.1 hout with rfl | hout
        · exact ⟨e, rfl, rfl⟩
        · exact i3 out hout
      · have hc : ([.clientGet request.NamespacedName (.ok obj), .actuatorDelete obj (some e)] :
            List (Call k.Resource ε)).countP (fun c => c.method == .actuatorDelete) = 1 := by
          simp [Call.method]
        simp only [List.map_cons, List.sum_cons, hc, i4]
        omega

/-- Scenario C three times on the bench: the stored record keeps its finalizer and
the fake actuator saw three Delete calls. -/
theorem failing_delete_never_releases_finalizer_witness :
    (runSteps .dnsrecord (testBacking .dnsrecord) (Util.spec .dnsrecord) testRequest
      (List.replicate 3 .reconcile)
      { stored := some (testDeletedDNSRecord ⟨1⟩),
        provider := NewFakeActuator.OnDelete (some (.plain "delete error")) }).2.stored =
      some (testDeletedDNSRecord ⟨1⟩) ∧
    (runSteps .dnsrecord (testBacking .dnsrecord) (Util.spec .dnsrecord) testRequest
      (List.replicate 3 .reconcile)
      { stored := some (testDeletedDNSRecord ⟨1⟩),
        provider := NewFakeActuator.OnDelete (some (.plain "delete error")) }).2.provider.calls =
      [{ method := "Delete" }, { method := "Delete" }, { method := "Delete" }] :=
  ⟨(failing_delete_never_releases_finalizer .dnsrecord (testBacking .dnsrecord)
      (Util.spec .dnsrecord) testRequest 3
      { stored := some (testDeletedDNSRecord ⟨1⟩),
        provider := NewFakeActuator.OnDelete (some (.plain "delete error")) }
      (testDeletedDNSRecord ⟨1⟩) rfl rfl rfl rfl (by decide)).1, rfl⟩

/-- C16. On a store holding a resource with a deletion marker and the token, if
Delete returns nil and the store rejects the Update that removes the finalizer
with the error `E`, then Reconcile returns `E`, the store still holds the
resource with its token, and the next invocation loads it and calls Delete on it
again. -/
theorem rejected_finalizer_removal_repeats_delete (k : Kind) (b : Backing A k.Resource ε)
    (util : Util k.Resource) (request : Request) (w : Cluster k.Resource A) (obj : k.Resource)
    (a1 a2 : A) (E : ε)
    (hstored : w.stored = some obj)
    (hkey : k.key obj = request.NamespacedName)
    (hdel : k.deleted obj = true)
    (hfin : util.HasFinalizer obj k.Finalizer = true)
    (hok : b.actuator.doDelete obj w.provider = (none, a1))
    (hrej : b.verdict (util.DeleteFinalizer obj k.Finalizer) a1 = (some E, a2)) :
    (Reconcile k (b.reconciler k) util request w).err = some E ∧
    (Reconcile k (b.reconciler k) util request w).calls =
      [.clientGet request.NamespacedName (.ok obj), .actuatorDelete obj none,
        .clientUpdate (util.DeleteFinalizer obj k.Finalizer) (some E)] ∧
    (Reconcile k (b.reconciler k) util request w).world.stored = some obj ∧
    ∃ resp rest,
      (Reconcile k (b.reconciler k) util request
        (Reconcile k (b.reconciler k) util request w).world).calls =
        .clientGet request.NamespacedName (.ok obj) :: .actuatorDelete obj resp :: rest := by
  have h1 := cluster_step_delete_done k b util request w obj a1 hstored hkey hdel hfin hok
  rw [cluster_doUpdate_rejected k b _ _ E a2 hrej] at h1
  rw [h1]
  refine ⟨rfl, rfl, rfl, ?_⟩
  rcases hresp : b.actuator.doDelete obj a2 with ⟨_ | e, a3⟩
  · rw [cluster_step_delete_done k b util request _ obj a3 rfl hkey hdel hfin hresp]
    exact ⟨_, _, rfl⟩
  · rw [cluster_step_delete_failed k b util request _ obj e a3 rfl hkey hdel hfin hresp]
    exact ⟨_, _, rfl⟩

/-- The bench with a store that answers Conflict: the error comes back and the
stored record keeps its finalizer. -/
theorem rejected_finalizer_removal_repeats_delete_witness :
    (Reconcile .dnsrecord ((conflictBacking .dnsrecord).reconciler .dnsrecord)
      (Util.spec .dnsrecord) testRequest
      { stored := some (testDeletedDNSRecord ⟨1⟩), provider := NewFakeActuator }).err =
      some .conflict ∧
    (Reconcile .dnsrecord ((conflictBacking .dnsrecord).reconciler .dnsrecord)
      (Util.spec .dnsrecord) testRequest
      { stored := some (testDeletedDNSRecord ⟨1⟩), provider := NewFakeActuator }).world.stored =
      some (testDeletedDNSRecord ⟨1⟩) :=
  ⟨(rejected_finalizer_removal_repeats_delete .dnsrecord (conflictBacking .dnsrecord)
      (Util.spec .dnsrecord) testRequest
      { stored := some (testDeletedDNSRecord ⟨1⟩), provider := NewFakeActuator }
      (testDeletedDNSRecord ⟨1⟩) _ _ .conflict rfl rfl rfl rfl rfl rfl).1,
    (rejected_finalizer_removal_repeats_delete .dnsrecord (conflictBacking .dnsrecord)
      (Util.spec .dnsrecord) testRequest
      { stored := some (testDeletedDNSRecord ⟨1⟩), provider := NewFakeActuator }
      (testDeletedDNSRecord ⟨1⟩) _ _ .conflict rfl rfl rfl rfl rfl rfl).2.2.1⟩

/-- C20, as stated, fails.  A store that holds the record of `testDNSRecord()`, which
carries the token from the start: the first and only invocation calls Exists,
and no invocation precedes it. -/
theorem steady_state_without_prior_attach :
    ¬ ExistsPrecededByAttach (Util.spec .dnsrecord) DNSRecordFinalizer
      (runSteps .dnsrecord (testBacking .dnsrecord) (Util.spec .dnsrecord) testRequest
        [.reconcile] { stored := some testDNSRecord, provider := NewFakeActuator }).1 := by
  intro h
  obtain ⟨j, _, hj, _⟩ := h 0 _ rfl rfl
  exact Nat.not_lt_zero j hj

/-- C20, amended.  In every history on a store whose resource does not carry the
token at the start (or that holds none), made of invocations and of edits by
other actors that never add the token, an invocation that calls Exists comes
after an invocation that attached the token, its Store Update having
succeeded.  The helpers are the modelled ones. -/
theorem steady_state_only_after_attach (k : Kind) (b : Backing A k.Resource ε)
    (request : Request) (steps : List (Step k.Resource)) (w : Cluster k.Resource A)
    (hinit : ∀ obj, w.stored = some obj → k.Finalizer ∉ (k.ObjectMeta obj).Finalizers)
    (hedit : ∀ f, Step.edit f ∈ steps → ∀ obj,
      k.Finalizer ∈ (k.ObjectMeta (f obj)).Finalizers → k.Finalizer ∈ (k.ObjectMeta obj).Finalizers) :
    ExistsPrecededByAttach (Util.spec k) k.Finalizer
      (runSteps k b (Util.spec k) request steps w).1 := by
  have hinv : ∀ obj, w.stored = some obj → (Util.spec k).HasFinalizer obj k.Finalizer = false := by
    intro obj ho
    cases h : (Util.spec k).HasFinalizer obj k.Finalizer
    · rfl
    · exact absurd ((spec_HasFinalizer k obj k.Finalizer).1 h) (hinit obj ho)
  clear hinit
  induction steps generalizing w with
  | nil =>
    unfold ExistsPrecededByAttach
    intro i out hi _
    simp [runSteps] at hi
  | cons s rest ih =>
    cases s with
    | edit f =>
      simp only [runSteps]
      apply ih
      · intro g hg
        exact hedit g (List.mem_cons_of_mem _ hg)
      · intro obj ho
        simp only [Option.map_eq_some'] at ho
        obtain ⟨o, ho, rfl⟩ := ho
        cases h : (Util.spec k).HasFinalizer (f o) k.Finalizer
        · rfl
        · have h1 := hedit f (List.mem_cons_self _ _) o ((spec_HasFinalizer k _ _).1 h)
          have h2 := hinv o ho
          rw [(spec_HasFinalizer k o k.Finalizer).2 h1] at h2
          cases h2
    | reconcile =>
      obtain ⟨hno, hatt | hkeep⟩ := cluster_step_without_finalizer k b request w hinv
      · unfold ExistsPrecededByAttach
        intro i out hi hex
        cases i with
        | zero =>
          simp only [runSteps, List.getElem?_cons_zero, Option.some.injEq] at hi
          subst hi
          rw [hno] at hex
          cases hex
        | succ i =>
          exact ⟨0, _, Nat.succ_pos i, by simp [runSteps], hatt⟩
      · unfold ExistsPrecededByAttach
        intro i out hi hex
        cases i with
        | zero =>
          simp only [runSteps, List.getElem?_cons_zero, Option.some.injEq] at hi
          subst hi
          rw [hno] at hex
          cases hex
        | succ i =>
          simp only [runSteps, List.getElem?_cons_succ] at hi
          obtain ⟨j, out', hj, hout', hatt⟩ :=
            ih _ (fun g hg => hedit g (List.mem_cons_of_mem _ hg)) hkeep i out hi hex
          exact ⟨j + 1, out', Nat.succ_lt_succ hj, by simpa [runSteps] using hout', hatt⟩

/-- Two invocations on the test record stored without finalizer: the first
attaches, the second calls Exists. -/
theorem steady_state_only_after_attach_witness :
    ExistsPrecededByAttach (Util.spec .dnsrecord) DNSRecordFinalizer
      (runSteps .dnsrecord (testBacking .dnsrecord) (Util.spec .dnsrecord) testRequest
        [.reconcile, .reconcile]
        { stored := some testDNSRecordWithoutFinalizer, provider := NewFakeActuator }).1 :=
  steady_state_only_after_attach .dnsrecord (testBacking .dnsrecord) testRequest
    [.reconcile, .reconcile]
    { stored := some testDNSRecordWithoutFinalizer, provider := NewFakeActuator }
    (fun _ h => by cases h; exact List.not_mem_nil _)
    (fun f hf => by simp at hf)

end claims_histories

section claims_lifecycle
variable {ε : Type} [APIStatus ε]

/-- C17. The lifecycle.  Start from a stored active resource without the token, a
store that accepts every Update and a provider whose calls succeed and whose
Exists turns true once Create has run.  Then the 1st invocation logs Get, Store
Update (the attach, no actuator call); the 2nd logs Get, Exists, Create; each of
the `m` following logs Get, Exists, Update; and after another actor has set the
deletion timestamp the next one logs Get, Delete, Store Update.  All succeed,
the store ends with the initial resource plus the deletion timestamp (the token
added and removed again), the reconciler issued two Store Updates in all, and
the provider-changing calls were, in order, Create, `m` times Update, Delete.
The helpers are the modelled ones. -/
theorem lifecycle_trace (k : Kind) (notFound : ε) (request : Request) (obj : k.Resource)
    (m : Nat) (t : Time)
    (hkey : k.key obj = request.NamespacedName)
    (hact : k.deleted obj = false)
    (hnofin : k.Finalizer ∉ (k.ObjectMeta obj).Finalizers)
    (ht : t.nanos ≠ 0) :
    (runSteps k (lifecycleBacking notFound) (Util.spec k) request (lifecycleSteps k m t)
        { stored := some obj, provider := false }).1.map (fun out => out.calls.map Call.method) =
      [[.clientGet, .clientUpdate], [.clientGet, .actuatorExists, .actuatorCreate]] ++
        List.replicate m [.clientGet, .actuatorExists, .actuatorUpdate] ++
        [[.clientGet, .actuatorDelete, .clientUpdate]] ∧
    (runSteps k (lifecycleBacking notFound) (Util.spec k) request (lifecycleSteps k m t)
        { stored := some obj, provider := false }).1.map (fun out => out.err) =
      List.replicate (m + 3) none ∧
    (runSteps k (lifecycleBacking notFound) (Util.spec k) request (lifecycleSteps k m t)
        { stored := some obj, provider := false }).2 =
      { stored := some (k.setDeletionTimestamp (some t) obj), provider := false } ∧
    (methodsCalled (runSteps k (lifecycleBacking notFound) (Util.spec k) request
        (lifecycleSteps k m t) { stored := some obj, provider := false }).1).count
      .clientUpdate = 2 ∧
    (methodsCalled (runSteps k (lifecycleBacking notFound) (Util.spec k) request
        (lifecycleSteps k m t) { stored := some obj, provider := false }).1).filter
      Method.mutatesProvider =
      [.actuatorCreate] ++ List.replicate m .actuatorUpdate ++ [.actuatorDelete] := by
  have hflat : ∀ n : Nat,
      (List.replicate n [Method.clientGet, Method.actuatorExists, Method.actuatorUpdate]).flatten.count
          .clientUpdate = 0 ∧
        (List.replicate n [Method.clientGet, Method.actuatorExists,
          Method.actuatorUpdate]).flatten.filter Method.mutatesProvider =
          List.replicate n .actuatorUpdate := by
    intro n
    induction n with
    | zero => exact ⟨rfl, rfl⟩
    | succ n ih =>
      rw [List.replicate_succ, List.flatten_cons, List.count_append, List.filter_append, ih.1, ih.2,
        List.replicate_succ]
      exact ⟨rfl, rfl⟩
  -- the resource after the attach, and after the request for deletion
  have hadd := spec_AddFinalizer k obj k.Finalizer hnofin
  have hno : (Util.spec k).HasFinalizer obj k.Finalizer = false := by
    cases h : (Util.spec k).HasFinalizer obj k.Finalizer
    · rfl
    · exact absurd ((spec_HasFinalizer k obj k.Finalizer).1 h) hnofin
  generalize hobj1 : (Util.spec k).AddFinalizer obj k.Finalizer = obj1 at hadd
  have hkey1 : k.key obj1 = request.NamespacedName := by
    rw [← hobj1, key_spec_AddFinalizer, hkey]
  have hact1 : k.deleted obj1 = false := by rw [hadd, deleted_setFinalizers, hact]
  have hfin1 : (Util.spec k).HasFinalizer obj1 k.Finalizer = true := by
    rw [← hobj1]
    exact spec_HasFinalizer_AddFinalizer k obj k.Finalizer
  -- first invocation: attach
  have s1 : Reconcile k ((lifecycleBacking notFound).reconciler k) (Util.spec k) request
      { stored := some obj, provider := false } =
      { result := {}, err := none, world := { stored := some obj1, provider := false },
        calls := [.clientGet request.NamespacedName (.ok obj), .clientUpdate obj1 none] } := by
    have h := cluster_step_attach k (lifecycleBacking notFound) (Util.spec k) request
      { stored := some obj, provider := false } obj rfl hkey hact hno
    rw [hobj1, cluster_doUpdate_accepted k (lifecycleBacking notFound)
      { stored := some obj, provider := false } obj obj1 false rfl
      (by rw [hkey, hkey1]) rfl] at h
    exact h
  -- second invocation: Exists, Create
  have s2 : Reconcile k ((lifecycleBacking notFound).reconciler k) (Util.spec k) request
      { stored := some obj1, provider := false } =
      { result := {}, err := none, world := { stored := some obj1, provider := true },
        calls := [.clientGet request.NamespacedName (.ok obj1),
          .actuatorExists obj1 (false, none), .actuatorCreate obj1 none] } :=
    cluster_step_create k (lifecycleBacking notFound) (Util.spec k) request
      { stored := some obj1, provider := false } obj1 false rfl hkey1 hact1 hfin1 rfl
  -- the steady state: Exists, Update
  have s3 : Reconcile k ((lifecycleBacking notFound).reconciler k) (Util.spec k) request
      { stored := some obj1, provider := true } =
      { result := {}, err := none, world := { stored := some obj1, provider := true },
        calls := [.clientGet request.NamespacedName (.ok obj1),
          .actuatorExists obj1 (true, none), .actuatorUpdate obj1 none] } :=
    cluster_step_update k (lifecycleBacking notFound) (Util.spec k) request
      { stored := some obj1, provider := true } obj1 true rfl hkey1 hact1 hfin1 rfl
  -- last invocation: Delete, finalizer removed
  have hkey2 : k.key (k.setDeletionTimestamp (some t) obj1) = request.NamespacedName := by
    rw [key_setDeletionTimestamp, hkey1]
  have hfin2 : (Util.spec k).HasFinalizer (k.setDeletionTimestamp (some t) obj1) k.Finalizer =
      true := by
    rw [spec_HasFinalizer, finalizers_setDeletionTimestamp, ← spec_HasFinalizer]
    exact hfin1
  have hdel3 : (Util.spec k).DeleteFinalizer (k.setDeletionTimestamp (some t) obj1) k.Finalizer =
      k.setDeletionTimestamp (some t) obj := by
    show k.setFinalizers _ _ = _
    rw [finalizers_setDeletionTimestamp, hadd, ObjectMeta_setFinalizers]
    have : ((k.ObjectMeta obj).Finalizers ++ [k.Finalizer]).filter (fun f => f != k.Finalizer) =
        (k.ObjectMeta obj).Finalizers := by
      rw [List.filter_append]
      simp only [bne_self_eq_false, Bool.false_eq_true, not_false_eq_true, List.filter_cons_of_neg,
        List.filter_nil, List.append_nil]
      rw [List.filter_eq_self]
      intro f hf
      simp only [bne_iff_ne, ne_eq]
      rintro rfl
      exact hnofin hf
    rw [this]
    exact setFinalizers_setDeletionTimestamp_setFinalizers k obj (some t) _
  have s4 : Reconcile k ((lifecycleBacking notFound).reconciler k) (Util.spec k) request
      { stored := some (k.setDeletionTimestamp (some t) obj1), provider := true } =
      { result := {}, err := none,
        world := { stored := some (k.setDeletionTimestamp (some t) obj), provider := false },
        calls := [.clientGet request.NamespacedName (.ok (k.setDeletionTimestamp (some t) obj1)),
          .actuatorDelete (k.setDeletionTimestamp (some t) obj1) none,
          .clientUpdate (k.setDeletionTimestamp (some t) obj) none] } := by
    have h := cluster_step_delete_done k (lifecycleBacking notFound) (Util.spec k) request
      { stored := some (k.setDeletionTimestamp (some t) obj1), provider := true }
      (k.setDeletionTimestamp (some t) obj1) false rfl hkey2
      (deleted_setDeletionTimestamp k obj1 t ht) hfin2 rfl
    rw [hdel3, cluster_doUpdate_accepted k (lifecycleBacking notFound)
      { stored := some (k.setDeletionTimestamp (some t) obj1), provider := false }
      (k.setDeletionTimestamp (some t) obj1) (k.setDeletionTimestamp (some t) obj) false rfl
      (by rw [key_setDeletionTimestamp, key_setDeletionTimestamp, hkey, hkey1]) rfl] at h
    exact h
  -- the whole history
  have hrep := runSteps_replicate_fixed k (lifecycleBacking notFound) (Util.spec k) request
    { stored := some obj1, provider := true } m (by rw [s3])
  have h12 : runSteps k (lifecycleBacking notFound) (Util.spec k) request
      [.reconcile, .reconcile] { stored := some obj, provider := false } =
      ([Reconcile k ((lifecycleBacking notFound).reconciler k) (Util.spec k) request
            { stored := some obj, provider := false },
          Reconcile k ((lifecycleBacking notFound).reconciler k) (Util.spec k) request
            { stored := some obj1, provider := false }],
        { stored := some obj1, provider := true }) := by
    simp only [runSteps, s1, s2]
  have h4 : runSteps k (lifecycleBacking notFound) (Util.spec k) request
      [.edit (k.setDeletionTimestamp (some t)), .reconcile]
      { stored := some obj1, provider := true } =
      ([Reconcile k ((lifecycleBacking notFound).reconciler k) (Util.spec k) request
            { stored := some (k.setDeletionTimestamp (some t) obj1), provider := true }],
        { stored := some (k.setDeletionTimestamp (some t) obj), provider := false }) := by
    simp only [runSteps, Option.map_some', s4]
  unfold lifecycleSteps
  rw [runSteps_append, runSteps_append, h12, hrep, h4, s1, s2, s3, s4]
  have hm : List.map (fun out => List.map Call.method out.calls)
      (([{ result := {}, err := none, world := { stored := some obj1, provider := false },
            calls := [.clientGet request.NamespacedName (.ok obj), .clientUpdate obj1 none] },
          { result := {}, err := none, world := { stored := some obj1, provider := true },
            calls := [.clientGet request.NamespacedName (.ok obj1),
              .actuatorExists obj1 (false, none), .actuatorCreate obj1 none] }] ++
        List.replicate m
          { result := {}, err := none, world := { stored := some obj1, provider := true },
            calls := [.clientGet request.NamespacedName (.ok obj1),
              .actuatorExists obj1 (true, none), .actuatorUpdate obj1 none] }) ++
        [{ result := {}, err := none,
            world := { stored := some (k.setDeletionTimestamp (some t) obj), provider := false },
            calls := [.clientGet request.NamespacedName
                (.ok (k.setDeletionTimestamp (some t) obj1)),
              .actuatorDelete (k.setDeletionTimestamp (some t) obj1) none,
              .clientUpdate (k.setDeletionTimestamp (some t) obj) none] }] :
        List (Outcome (Cluster k.Resource Bool) k.Resource ε)) =
      [[.clientGet, .clientUpdate], [.clientGet, .actuatorExists, .actuatorCreate]] ++
        List.replicate m [.clientGet, .actuatorExists, .actuatorUpdate] ++
        [[.clientGet, .actuatorDelete, .clientUpdate]] := by
    simp [Call.method]
  refine ⟨hm, ?_, rfl, ?_, ?_⟩
  rotate_left
  · unfold methodsCalled
    rw [hm]
    simp only [List.flatten_append, List.count_append, (hflat m).1]
    rfl
  · unfold methodsCalled
    rw [hm]
    simp only [List.flatten_append, List.filter_append, (hflat m).2]
    rfl
  · simp only [List.map_append, List.map_cons, List.map_nil, List.map_replicate,
      List.cons_append, List.nil_append]
    rw [← List.replicate_succ', ← List.replicate_succ, ← List.replicate_succ]

/-- The lifecycle of the test record with two steady-state invocations. -/
theorem lifecycle_trace_witness :
    (runSteps .dnsrecord (lifecycleBacking TestError.notFound) (Util.spec .dnsrecord) testRequest
        (lifecycleSteps .dnsrecord 2 ⟨1⟩)
        { stored := some testDNSRecordWithoutFinalizer, provider := false }).1.map
      (fun out => out.calls.map Call.method) =
      [[.clientGet, .clientUpdate], [.clientGet, .actuatorExists, .actuatorCreate]] ++
        List.replicate 2 [.clientGet, .actuatorExists, .actuatorUpdate] ++
        [[.clientGet, .actuatorDelete, .clientUpdate]] ∧
    (runSteps .dnsrecord (lifecycleBacking TestError.notFound) (Util.spec .dnsrecord) testRequest
        (lifecycleSteps .dnsrecord 2 ⟨1⟩)
        { stored := some testDNSRecordWithoutFinalizer, provider := false }).2.stored =
      some (testDeletedDNSRecordWithoutFinalizer ⟨1⟩) :=
  ⟨(lifecycle_trace .dnsrecord TestError.notFound testRequest testDNSRecordWithoutFinalizer 2 ⟨1⟩
      rfl rfl (List.not_mem_nil _) (by decide)).1, rfl⟩

end claims_lifecycle

/-! ### Completed paths are not repeated -/

section claims_completed
variable {A ε : Type} [APIStatus ε]

/-- C21. On a store holding a resource with a deletion marker and the token, if
Delete returns nil and the store accepts the Update that removes the finalizer,
then the first invocation logs Get, Delete, Update and returns nil, and each of
any number of further invocations loads the stored resource (still marked for
deletion, without the token), makes no actuator call and no Store Update, and
returns nil: Delete is not called again. -/
theorem completed_delete_is_not_repeated (k : Kind) (b : Backing A k.Resource ε)
    (request : Request) (w : Cluster k.Resource A) (obj : k.Resource) (a1 a2 : A) (n : Nat)
    (hstored : w.stored = some obj)
    (hkey : k.key obj = request.NamespacedName)
    (hdel : k.deleted obj = true)
    (hfin : k.Finalizer ∈ (k.ObjectMeta obj).Finalizers)
    (hok : b.actuator.doDelete obj w.provider = (none, a1))
    (hacc : b.verdict ((Util.spec k).DeleteFinalizer obj k.Finalizer) a1 = (none, a2)) :
    runSteps k b (Util.spec k) request (.reconcile :: List.replicate n .reconcile) w =
      ({ result := {}, err := none,
          world := { stored := some ((Util.spec k).DeleteFinalizer obj k.Finalizer),
                     provider := a2 },
          calls := [.clientGet request.NamespacedName (.ok obj), .actuatorDelete obj none,
            .clientUpdate ((Util.spec k).DeleteFinalizer obj k.Finalizer) none] } ::
        List.replicate n
          { result := {}, err := none,
            world := { stored := some ((Util.spec k).DeleteFinalizer obj k.Finalizer),
                       provider := a2 },
            calls := [.clientGet request.NamespacedName
              (.ok ((Util.spec k).DeleteFinalizer obj k.Finalizer))] },
        { stored := some ((Util.spec k).DeleteFinalizer obj k.Finalizer), provider := a2 }) ∧
    k.deleted ((Util.spec k).DeleteFinalizer obj k.Finalizer) = true ∧
    k.Finalizer ∉ (k.ObjectMeta ((Util.spec k).DeleteFinalizer obj k.Finalizer)).Finalizers := by
  have hfin' := (spec_HasFinalizer k obj k.Finalizer).2 hfin
  have hkey' : k.key ((Util.spec k).DeleteFinalizer obj k.Finalizer) = request.NamespacedName := by
    rw [← hkey]
    exact key_setFinalizers k obj _
  have hdel' : k.deleted ((Util.spec k).DeleteFinalizer obj k.Finalizer) = true := by
    rw [← hdel]
    exact deleted_setFinalizers k obj _
  have hgone : k.Finalizer ∉
      (k.ObjectMeta ((Util.spec k).DeleteFinalizer obj k.Finalizer)).Finalizers := by
    simp [spec_DeleteFinalizer]
  have hno : (Util.spec k).HasFinalizer ((Util.spec k).DeleteFinalizer obj k.Finalizer)
      k.Finalizer = false := by
    cases h : (Util.spec k).HasFinalizer ((Util.spec k).DeleteFinalizer obj k.Finalizer)
      k.Finalizer
    · rfl
    · exact absurd ((spec_HasFinalizer k _ k.Finalizer).1 h) hgone
  have s1 := cluster_step_delete_done k b (Util.spec k) request w obj a1 hstored hkey hdel hfin'
    hok
  rw [cluster_doUpdate_accepted k b { stored := some obj, provider := a1 } obj
    ((Util.spec k).DeleteFinalizer obj k.Finalizer) a2 rfl (by rw [hkey, hkey']) hacc] at s1
  have s2 := cluster_step_deleted_noop k b (Util.spec k) request
    { stored := some ((Util.spec k).DeleteFinalizer obj k.Finalizer), provider := a2 }
    ((Util.spec k).DeleteFinalizer obj k.Finalizer) rfl hkey' hdel' hno
  have hrep := runSteps_replicate_fixed k b (Util.spec k) request
    { stored := some ((Util.spec k).DeleteFinalizer obj k.Finalizer), provider := a2 } n
    (by rw [s2])
  refine ⟨?_, hdel', hgone⟩
  simp only [runSteps, s1, hrep, s2]

/-- Scenario D on the bench followed by two more invocations: one Delete in all,
the stored record ends as the deleted record without finalizer. -/
theorem completed_delete_is_not_repeated_witness :
    (runSteps .dnsrecord (testBacking .dnsrecord) (Util.spec .dnsrecord) testRequest
        (.reconcile :: List.replicate 2 .reconcile)
        { stored := some (testDeletedDNSRecord ⟨1⟩), provider := NewFakeActuator }).1.map
      (fun out => (out.calls.map Call.method, out.err)) =
      [([.clientGet, .actuatorDelete, .clientUpdate], none), ([.clientGet], none),
        ([.clientGet], none)] ∧
    (runSteps .dnsrecord (testBacking .dnsrecord) (Util.spec .dnsrecord) testRequest
        (.reconcile :: List.replicate 2 .reconcile)
        { stored := some (testDeletedDNSRecord ⟨1⟩), provider := NewFakeActuator }).2 =
      { stored := some (testDeletedDNSRecordWithoutFinalizer ⟨1⟩),
        provider := { calls := [{ method := "Delete" }] } } := by
  rw [(completed_delete_is_not_repeated .dnsrecord (testBacking .dnsrecord) testRequest
    { stored := some (testDeletedDNSRecord ⟨1⟩), provider := NewFakeActuator }
    (testDeletedDNSRecord ⟨1⟩) (NewFakeActuator.Delete (testDeletedDNSRecord ⟨1⟩)).2
    (NewFakeActuator.Delete (testDeletedDNSRecord ⟨1⟩)).2 2 rfl rfl rfl (by decide) rfl rfl).1]
  exact ⟨rfl, rfl⟩

/-- C22 as stated fails: on the bench with Exists configured to return an error,
the first invocation attaches the token and persists it, and the next one calls
Exists, then neither Create nor Update, and returns the error of Exists. -/
theorem attach_then_failed_exists :
    (runSteps .dnsrecord (testBacking .dnsrecord) (Util.spec .dnsrecord) testRequest
        [.reconcile, .reconcile]
        { stored := some testDNSRecordWithoutFinalizer,
          provider := NewFakeActuator.OnExists true (some (.plain "exists error")) }).1.map
      (fun out => (finalizerAttached (Util.spec .dnsrecord) DNSRecordFinalizer out.calls,
        out.calls.map Call.method, steadyStateCompleted out.calls, out.err)) =
      [(true, [.clientGet, .clientUpdate], false, none),
        (false, [.clientGet, .actuatorExists], false, some (.plain "exists error"))] ∧
    (runSteps .dnsrecord (testBacking .dnsrecord) (Util.spec .dnsrecord) testRequest
        [.reconcile, .reconcile]
        { stored := some testDNSRecordWithoutFinalizer,
          provider := NewFakeActuator.OnExists true (some (.plain "exists error")) }).2.stored =
      some testDNSRecord := by
  decide

/-- C22, amended. On a store holding an active resource without the token, if
the store accepts the Update that adds it, then the invocation attaches and
persists the token, the stored finalizer list holds the token exactly once, and
the next invocation loads the stored resource and calls Exists on it; it then
calls Update if Exists answered (true, nil) or Create if it answered
(false, nil), and returns what that call returned; if Exists returned an error
it makes no further call and returns that error.  It issues no Store Update and
leaves the stored resource as it is. -/
theorem attach_is_not_repeated (k : Kind) (b : Backing A k.Resource ε)
    (request : Request) (w : Cluster k.Resource A) (obj : k.Resource) (a1 : A)
    (hstored : w.stored = some obj)
    (hkey : k.key obj = request.NamespacedName)
    (hact : k.deleted obj = false)
    (hnofin : k.Finalizer ∉ (k.ObjectMeta obj).Finalizers)
    (hacc : b.verdict ((Util.spec k).AddFinalizer obj k.Finalizer) w.provider = (none, a1)) :
    Reconcile k (b.reconciler k) (Util.spec k) request w =
      { result := {}, err := none,
        world := { stored := some ((Util.spec k).AddFinalizer obj k.Finalizer), provider := a1 },
        calls := [.clientGet request.NamespacedName (.ok obj),
          .clientUpdate ((Util.spec k).AddFinalizer obj k.Finalizer) none] } ∧
    (k.ObjectMeta ((Util.spec k).AddFinalizer obj k.Finalizer)).Finalizers.count k.Finalizer = 1 ∧
    (∃ rest,
      (Reconcile k (b.reconciler k) (Util.spec k) request
        { stored := some ((Util.spec k).AddFinalizer obj k.Finalizer), provider := a1 }).calls =
        .clientGet request.NamespacedName (.ok ((Util.spec k).AddFinalizer obj k.Finalizer)) ::
          .actuatorExists ((Util.spec k).AddFinalizer obj k.Finalizer)
            (b.actuator.doExists ((Util.spec k).AddFinalizer obj k.Finalizer) a1).1 :: rest ∧
      ((b.actuator.doExists ((Util.spec k).AddFinalizer obj k.Finalizer) a1).1 = (true, none) →
        rest = [.actuatorUpdate ((Util.spec k).AddFinalizer obj k.Finalizer)
            (Reconcile k (b.reconciler k) (Util.spec k) request
              { stored := some ((Util.spec k).AddFinalizer obj k.Finalizer), provider := a1 }).err] ∧
          (Reconcile k (b.reconciler k) (Util.spec k) request
              { stored := some ((Util.spec k).AddFinalizer obj k.Finalizer), provider := a1 }).err =
            (b.actuator.doUpdate ((Util.spec k).AddFinalizer obj k.Finalizer)
              (b.actuator.doExists ((Util.spec k).AddFinalizer obj k.Finalizer) a1).2).1) ∧
      ((b.actuator.doExists ((Util.spec k).AddFinalizer obj k.Finalizer) a1).1 = (false, none) →
        rest = [.actuatorCreate ((Util.spec k).AddFinalizer obj k.Finalizer)
            (Reconcile k (b.reconciler k) (Util.spec k) request
              { stored := some ((Util.spec k).AddFinalizer obj k.Finalizer), provider := a1 }).err] ∧
          (Reconcile k (b.reconciler k) (Util.spec k) request
              { stored := some ((Util.spec k).AddFinalizer obj k.Finalizer), provider := a1 }).err =
            (b.actuator.doCreate ((Util.spec k).AddFinalizer obj k.Finalizer)
              (b.actuator.doExists ((Util.spec k).AddFinalizer obj k.Finalizer) a1).2).1) ∧
      (∀ e, (b.actuator.doExists ((Util.spec k).AddFinalizer obj k.Finalizer) a1).1.2 = some e →
        rest = [] ∧
          (Reconcile k (b.reconciler k) (Util.spec k) request
              { stored := some ((Util.spec k).AddFinalizer obj k.Finalizer), provider := a1 }).err = some e)) ∧
    (∀ c ∈ (Reconcile k (b.reconciler k) (Util.spec k) request
        { stored := some ((Util.spec k).AddFinalizer obj k.Finalizer), provider := a1 }).calls,
      c.method ≠ .clientUpdate) ∧
    (Reconcile k (b.reconciler k) (Util.spec k) request
        { stored := some ((Util.spec k).AddFinalizer obj k.Finalizer),
          provider := a1 }).world.stored =
      some ((Util.spec k).AddFinalizer obj k.Finalizer) := by
  have hno : (Util.spec k).HasFinalizer obj k.Finalizer = false := by
    cases h : (Util.spec k).HasFinalizer obj k.Finalizer
    · rfl
    · exact absurd ((spec_HasFinalizer k obj k.Finalizer).1 h) hnofin
  have hcount : (k.ObjectMeta ((Util.spec k).AddFinalizer obj k.Finalizer)).Finalizers.count
      k.Finalizer = 1 := by
    rw [spec_AddFinalizer k obj k.Finalizer hnofin, ObjectMeta_setFinalizers]
    simp [List.count_eq_zero_of_not_mem hnofin]
  have hkey1 : k.key ((Util.spec k).AddFinalizer obj k.Finalizer) = request.NamespacedName := by
    rw [key_spec_AddFinalizer, hkey]
  have hact1 : k.deleted ((Util.spec k).AddFinalizer obj k.Finalizer) = false := by
    rw [spec_AddFinalizer k obj k.Finalizer hnofin, deleted_setFinalizers, hact]
  have hfin1 := spec_HasFinalizer_AddFinalizer k obj k.Finalizer
  have s1 := cluster_step_attach k b (Util.spec k) request w obj hstored hkey hact hno
  rw [cluster_doUpdate_accepted k b w obj ((Util.spec k).AddFinalizer obj k.Finalizer) a1
    hstored (by rw [hkey, hkey1]) hacc] at s1
  refine ⟨s1, hcount, ?_⟩
  generalize (Util.spec k).AddFinalizer obj k.Finalizer = obj1 at hkey1 hact1 hfin1 ⊢
  rcases hex : b.actuator.doExists obj1 a1 with ⟨⟨exist, err⟩, a⟩
  rcases err with _ | e
  · cases exist
    · rw [cluster_step_create k b (Util.spec k) request { stored := some obj1, provider := a1 }
        obj1 a rfl hkey1 hact1 hfin1 hex]
      simp [Call.method]
    · rw [cluster_step_update k b (Util.spec k) request { stored := some obj1, provider := a1 }
        obj1 a rfl hkey1 hact1 hfin1 hex]
      simp [Call.method]
  · rw [Reconcile_exists_failed k (b.reconciler k) (Util.spec k) request
      { stored := some obj1, provider := a1 } { stored := some obj1, provider := a1 }
      { stored := some obj1, provider := a } obj1 exist e
      (cluster_doGet_stored k b _ _ obj1 rfl hkey1) hact1 hfin1
      (by simp [Backing.reconciler, hex])]
    simp [Call.method]

/-- Scenario A on the bench, then the Create path on the record the attach
stored. -/
theorem attach_is_not_repeated_witness :
    (Reconcile .dnsrecord ((testBacking .dnsrecord).reconciler .dnsrecord)
        (Util.spec .dnsrecord) testRequest
        { stored := some testDNSRecordWithoutFinalizer, provider := NewFakeActuator }).world =
      { stored := some testDNSRecord, provider := NewFakeActuator } ∧
    (Reconcile .dnsrecord ((testBacking .dnsrecord).reconciler .dnsrecord)
        (Util.spec .dnsrecord) testRequest
        { stored := some testDNSRecord, provider := NewFakeActuator }).calls.map Call.method =
      [.clientGet, .actuatorExists, .actuatorCreate] := by
  rw [(attach_is_not_repeated .dnsrecord (testBacking .dnsrecord) testRequest
    { stored := some testDNSRecordWithoutFinalizer, provider := NewFakeActuator }
    testDNSRecordWithoutFinalizer NewFakeActuator rfl rfl rfl (by decide) rfl).1]
  exact ⟨rfl, rfl⟩

end claims_completed

/-! ### What one invocation depends on -/

section coarse_answers
variable {ε : Type}

/-- Two returned errors look alike once their identity is forgotten exactly when
both are nil or both are not. -/
theorem Answer.coarse_ofError (a b : Option ε) :
    (Answer.ofError a).coarse = (Answer.ofError b).coarse ↔ a.isSome = b.isSome := by
  cases a <;> cases b <;> simp [Answer.ofError, Answer.coarse]

/-- A returned error never looks like an Exists answer. -/
theorem Answer.coarse_ofError_ne_exist (a : Option ε) (b : Bool) (e : Option ε) :
    (Answer.ofError a).coarse ≠ (Answer.exist b e).coarse := by
  cases a <;> simp [Answer.ofError, Answer.coarse]

/-- An Exists answer never looks like a returned error. -/
theorem Answer.coarse_exist_ne_ofError (a : Option ε) (b : Bool) (e : Option ε) :
    (Answer.exist b e).coarse ≠ (Answer.ofError a).coarse := by
  cases a <;> simp [Answer.ofError, Answer.coarse]

/-- Two Exists answers look alike exactly when the booleans agree and both
errors are nil or both are not. -/
theorem Answer.coarse_exist (b b' : Bool) (e e' : Option ε) :
    (Answer.exist b e).coarse = (Answer.exist b' e').coarse ↔ b = b' ∧ e.isSome = e'.isSome := by
  cases e <;> cases e' <;> simp [Answer.coarse]

/-- Two successful loads look alike exactly when the two tested facts agree. -/
theorem Answer.coarse_found (d f d' f' : Bool) :
    (Answer.found d f : Answer ε).coarse = (Answer.found d' f' : Answer ε).coarse ↔
      d = d' ∧ f = f' := by
  simp [Answer.coarse]

/-- Two failures always look alike. -/
theorem Answer.coarse_failed (e e' : ε) :
    (Answer.failed e).coarse = (Answer.failed e').coarse := rfl

/-- A failure never looks like a successful load. -/
theorem Answer.coarse_failed_ne_found (e : ε) (d f : Bool) :
    (Answer.failed e).coarse ≠ (Answer.found d f : Answer ε).coarse := by
  simp [Answer.coarse]

/-- A successful load never looks like a failure. -/
theorem Answer.coarse_found_ne_failed (e : ε) (d f : Bool) :
    (Answer.found d f : Answer ε).coarse ≠ (Answer.failed e).coarse := by
  simp [Answer.coarse]

end coarse_answers

section claims_inputs
variable {W ε : Type} [APIStatus ε]

/-- C23. The two tokens are the distinct strings of the API package, and a
loaded resource whose finalizer list lacks the token of the kind, whatever other
tokens it holds, is treated as lacking the finalizer: an active one is updated
with the token appended after the tokens it had, and one marked for deletion is
a no-op whose only call is the Get. -/
theorem foreign_finalizers_are_ignored (k : Kind) (r : Reconciler W k.Resource ε)
    (request : Request) (w w1 : W) (obj : k.Resource)
    (hget : r.Client.doGet request.NamespacedName w = (.ok obj, w1))
    (hforeign : k.Finalizer ∉ (k.ObjectMeta obj).Finalizers) :
    DNSRecordFinalizer = "dnsrecord.cloudkit.openshift.io" ∧
    DNSZoneFinalizer = "dnszone.cloudkit.openshift.io" ∧
    DNSRecordFinalizer ≠ DNSZoneFinalizer ∧
    (Util.spec k).HasFinalizer obj k.Finalizer = false ∧
    (k.deleted obj = false →
      Reconcile k r (Util.spec k) request w =
        { result := {},
          err := (r.Client.doUpdate
            (k.setFinalizers obj ((k.ObjectMeta obj).Finalizers ++ [k.Finalizer])) w1).1,
          world := (r.Client.doUpdate
            (k.setFinalizers obj ((k.ObjectMeta obj).Finalizers ++ [k.Finalizer])) w1).2,
          calls := [.clientGet request.NamespacedName (.ok obj),
            .clientUpdate (k.setFinalizers obj ((k.ObjectMeta obj).Finalizers ++ [k.Finalizer]))
              (r.Client.doUpdate
                (k.setFinalizers obj ((k.ObjectMeta obj).Finalizers ++ [k.Finalizer])) w1).1] }) ∧
    (k.deleted obj = true →
      Reconcile k r (Util.spec k) request w =
        { result := {}, err := none, world := w1,
          calls := [.clientGet request.NamespacedName (.ok obj)] }) := by
  have hno : (Util.spec k).HasFinalizer obj k.Finalizer = false := by
    cases h : (Util.spec k).HasFinalizer obj k.Finalizer
    · rfl
    · exact absurd ((spec_HasFinalizer k obj k.Finalizer).1 h) hforeign
  refine ⟨rfl, rfl, by decide, hno, ?_, ?_⟩
  · intro hact
    rw [Reconcile_attach k r (Util.spec k) request w w1 obj hget hact hno,
      spec_AddFinalizer k obj k.Finalizer hforeign]
  · intro hdel
    exact Reconcile_deleted_noop k r (Util.spec k) request w w1 obj hget hdel hno

/-- A record holding only the zone token: the record reconciler appends its own
token and keeps the foreign one. -/
theorem foreign_finalizers_are_ignored_witness :
    (Reconcile .dnsrecord (testReconciler .dnsrecord) (Util.spec .dnsrecord) testRequest
        { objects := [{ testDNSRecord with
            ObjectMeta := { testDNSRecord.ObjectMeta with Finalizers := [DNSZoneFinalizer] } }],
          actuator := NewFakeActuator }).calls =
      [.clientGet testRequest.NamespacedName
          (.ok { testDNSRecord with
            ObjectMeta := { testDNSRecord.ObjectMeta with Finalizers := [DNSZoneFinalizer] } }),
        .clientUpdate { testDNSRecord with
            ObjectMeta := { testDNSRecord.ObjectMeta with
              Finalizers := [DNSZoneFinalizer, DNSRecordFinalizer] } } none] := by
  rw [(foreign_finalizers_are_ignored .dnsrecord (testReconciler .dnsrecord) testRequest
    { objects := [{ testDNSRecord with
        ObjectMeta := { testDNSRecord.ObjectMeta with Finalizers := [DNSZoneFinalizer] } }],
      actuator := NewFakeActuator }
    { objects := [{ testDNSRecord with
        ObjectMeta := { testDNSRecord.ObjectMeta with Finalizers := [DNSZoneFinalizer] } }],
      actuator := NewFakeActuator }
    { testDNSRecord with
      ObjectMeta := { testDNSRecord.ObjectMeta with Finalizers := [DNSZoneFinalizer] } }
    rfl (by decide)).2.2.2.2.1 rfl]
  rfl

end claims_inputs

section claims_determinism
variable {W₁ W₂ ε : Type} [APIStatus ε]

/-- C24. Take two invocations of the reconciler of one kind, on any two stores,
actuators, requests and worlds.  If the answers they get agree call by call once
the identity of errors is forgotten (a load tells only whether the deletion
marker and the token are present), the two invocations call the same methods in
the same order; if the answers agree exactly, they also return the same error
and the same result. -/
theorem two_run_determinism (k : Kind) (r₁ : Reconciler W₁ k.Resource ε)
    (r₂ : Reconciler W₂ k.Resource ε) (util : Util k.Resource) (request₁ request₂ : Request)
    (w₁ : W₁) (w₂ : W₂)
    (hcoarse : ∀ p ∈ List.zip (Reconcile k r₁ util request₁ w₁).calls
        (Reconcile k r₂ util request₂ w₂).calls,
      (k.answer util p.1).coarse = (k.answer util p.2).coarse) :
    (Reconcile k r₁ util request₁ w₁).calls.map Call.method =
      (Reconcile k r₂ util request₂ w₂).calls.map Call.method ∧
    ((∀ p ∈ List.zip (Reconcile k r₁ util request₁ w₁).calls
          (Reconcile k r₂ util request₂ w₂).calls,
        k.answer util p.1 = k.answer util p.2) →
      (Reconcile k r₁ util request₁ w₁).err = (Reconcile k r₂ util request₂ w₂).err ∧
      (Reconcile k r₁ util request₁ w₁).result = (Reconcile k r₂ util request₂ w₂).result) := by
  rcases Reconcile_paths k r₁ util request₁ w₁ with
    ⟨e, w1, _, hout⟩ | ⟨o, w1, _, ⟨_, _, hout⟩ | ⟨_, _, hout⟩ | ⟨_, _, e, w2, _, hout⟩ |
      ⟨_, _, w2, _, hout⟩ | ⟨_, _, b, e, w2, _, hout⟩ | ⟨_, _, w2, _, hout⟩ |
      ⟨_, _, w2, _, hout⟩⟩ <;>
  rcases Reconcile_paths k r₂ util request₂ w₂ with
    ⟨e', w1', _, hout'⟩ | ⟨o', w1', _, ⟨_, _, hout'⟩ | ⟨_, _, hout'⟩ | ⟨_, _, e', w2', _, hout'⟩ |
      ⟨_, _, w2', _, hout'⟩ | ⟨_, _, b', e', w2', _, hout'⟩ | ⟨_, _, w2', _, hout'⟩ |
      ⟨_, _, w2', _, hout'⟩⟩ <;>
  rw [hout, hout'] at hcoarse ⊢ <;>
  simp only [List.zip_cons_cons, List.zip_nil_right, List.zip_nil_left, List.mem_cons,
    List.mem_singleton, List.not_mem_nil, forall_eq_or_imp, forall_eq, Kind.answer,
    Answer.coarse_ofError, Answer.coarse_ofError_ne_exist, Answer.coarse_exist_ne_ofError,
    Answer.coarse_exist, Answer.coarse_found, Answer.coarse_failed, Answer.coarse_failed_ne_found,
    Answer.coarse_found_ne_failed, Answer.ofError_inj, Answer.ofError_ne_found,
    Answer.ofError_ne_exist, Answer.found_ne_ofError, Answer.exist_ne_ofError,
    List.map_cons, List.map_nil, Call.method, ne_eq, not_true_eq_false, not_false_eq_true,
    false_and, and_false, and_true, true_and, imp_false, false_imp_iff, IsEmpty.forall_iff,
    implies_true, Option.isSome_some, Option.isSome_none, reduceCtorEq, Answer.found.injEq,
    Answer.failed.injEq, Answer.exist.injEq] at hcoarse ⊢ <;>
  simp_all

/-- Two deleted records that differ in their deletion instant and spec, with
Delete failing with two different errors: the same methods are called. -/
theorem two_run_determinism_witness :
    (runTest (testDeletedDNSRecord ⟨1⟩)
        (NewFakeActuator.OnDelete (some (.plain "delete error")))).calls.map Call.method =
      (runTest { testDeletedDNSRecord ⟨7⟩ with
          Spec := { ZoneName := "other zone", RecordName := "other record" } }
        (NewFakeActuator.OnDelete (some .conflict))).calls.map Call.method :=
  (two_run_determinism .dnsrecord (testReconciler .dnsrecord) (testReconciler .dnsrecord)
    (Util.spec .dnsrecord) testRequest testRequest
    { objects := [testDeletedDNSRecord ⟨1⟩],
      actuator := NewFakeActuator.OnDelete (some (.plain "delete error")) }
    { objects := [{ testDeletedDNSRecord ⟨7⟩ with
        Spec := { ZoneName := "other zone", RecordName := "other record" } }],
      actuator := NewFakeActuator.OnDelete (some .conflict) }
    (by decide)).1

end claims_determinism

section claims_bounds
variable {W ε : Type} [APIStatus ε]

/-- C25. On every path the result returned by Reconcile is the empty
reconcile.Result: Requeue is false and RequeueAfter is zero. -/
theorem reconcile_never_requeues (k : Kind) (r : Reconciler W k.Resource ε)
    (util : Util k.Resource) (request : Request) (w : W) :
    (Reconcile k r util request w).result = {} ∧
    (Reconcile k r util request w).result.Requeue = false ∧
    (Reconcile k r util request w).result.RequeueAfter = 0 := by
  rcases Reconcile_paths k r util request w with
    ⟨e, w1, _, hout⟩ | ⟨o, w1, _, ⟨_, _, hout⟩ | ⟨_, _, hout⟩ | ⟨_, _, e, w2, _, hout⟩ |
      ⟨_, _, w2, _, hout⟩ | ⟨_, _, b, e, w2, _, hout⟩ | ⟨_, _, w2, _, hout⟩ |
      ⟨_, _, w2, _, hout⟩⟩ <;>
  simp [hout]

/-- C26. Every invocation of Reconcile makes exactly one Store Get, at most one
Store Update and at most two actuator calls; the actuator calls are none,
Delete, Exists, Exists then Update, or Exists then Create; and an invocation
that calls Exists, Create or Update makes no Store Update. -/
theorem per_invocation_call_bounds (k : Kind) (r : Reconciler W k.Resource ε)
    (util : Util k.Resource) (request : Request) (w : W) :
    (Reconcile k r util request w).calls.countP (fun c => c.method == .clientGet) = 1 ∧
    (Reconcile k r util request w).calls.countP (fun c => c.method == .clientUpdate) ≤ 1 ∧
    (Reconcile k r util request w).calls.countP (fun c => c.method.isActuator) ≤ 2 ∧
    (actuatorCalls (Reconcile k r util request w).calls = [] ∨
      actuatorCalls (Reconcile k r util request w).calls = [.actuatorDelete] ∨
      actuatorCalls (Reconcile k r util request w).calls = [.actuatorExists] ∨
      actuatorCalls (Reconcile k r util request w).calls = [.actuatorExists, .actuatorUpdate] ∨
      actuatorCalls (Reconcile k r util request w).calls = [.actuatorExists, .actuatorCreate]) ∧
    ((∃ c ∈ (Reconcile k r util request w).calls,
        c.method = .actuatorExists ∨ c.method = .actuatorCreate ∨ c.method = .actuatorUpdate) →
      ∀ c ∈ (Reconcile k r util request w).calls, c.method ≠ .clientUpdate) := by
  rcases Reconcile_paths k r util request w with
    ⟨e, w1, _, hout⟩ | ⟨o, w1, _, ⟨_, _, hout⟩ | ⟨_, _, hout⟩ | ⟨_, _, e, w2, _, hout⟩ |
      ⟨_, _, w2, _, hout⟩ | ⟨_, _, b, e, w2, _, hout⟩ | ⟨_, _, w2, _, hout⟩ |
      ⟨_, _, w2, _, hout⟩⟩ <;>
  simp [hout, actuatorCalls, Call.method, Method.isActuator]

end claims_bounds

/-! ### The fake actuator -/

section fake
variable {ε : Type}

/-- The log after a sequence of uses: the log before, then the names of the
actuator methods called, in order. -/
theorem runOps_calls (ops : List (FakeOp ε)) (a : fakeActuator ε) :
    (runOps ops a).calls = a.calls ++ (ops.filterMap FakeOp.logged).map methodCall.mk := by
  induction ops generalizing a with
  | nil => simp [runOps]
  | cons op rest ih =>
    have h := ih (FakeOp.apply a op)
    simp only [runOps, List.foldl_cons] at h ⊢
    rw [h]
    cases op <;>
      simp [FakeOp.apply, FakeOp.logged, fakeActuator.Create, fakeActuator.Delete,
        fakeActuator.Update, fakeActuator.Exists, fakeActuator.OnCreate, fakeActuator.OnUpdate,
        fakeActuator.OnDelete, fakeActuator.OnExists]

/-- The configured answers after a sequence of uses. -/
theorem runOps_configured (ops : List (FakeOp ε)) (a : fakeActuator ε) :
    (runOps ops a).createErr = configuredCreate ops a.createErr ∧
    (runOps ops a).updateErr = configuredUpdate ops a.updateErr ∧
    (runOps ops a).deleteErr = configuredDelete ops a.deleteErr ∧
    ((runOps ops a).existsResult, (runOps ops a).existsErr) =
      configuredExists ops (a.existsResult, a.existsErr) := by
  induction ops generalizing a with
  | nil => simp [runOps, configuredCreate, configuredUpdate, configuredDelete, configuredExists]
  | cons op rest ih =>
    have h := ih (FakeOp.apply a op)
    simp only [runOps, configuredCreate, configuredUpdate, configuredDelete, configuredExists,
      List.foldl_cons] at h ⊢
    cases op <;> exact h

/-- C27. After any sequence of uses of a fresh fake actuator, CallCount is the
number of Create, Delete, Update and Exists calls among them and Called(m) holds
exactly when one of those calls was to the method named m; a setter or a query
leaves the log as it is, and an actuator method appends its name to it. -/
theorem fake_call_log_is_faithful (ops : List (FakeOp ε)) :
    (runOps ops NewFakeActuator).CallCount = (ops.filterMap FakeOp.logged).length ∧
    (∀ m : String, (runOps ops NewFakeActuator).Called m = true ↔
      m ∈ ops.filterMap FakeOp.logged) ∧
    (∀ (a : fakeActuator ε) (op : FakeOp ε), op.logged = none →
      (FakeOp.apply a op).calls = a.calls) ∧
    (∀ (a : fakeActuator ε) (op : FakeOp ε) (name : String), op.logged = some name →
      (FakeOp.apply a op).calls = a.calls ++ [{ method := name }]) := by
  refine ⟨?_, ?_, ?_, ?_⟩
  · simp [fakeActuator.CallCount, runOps_calls, NewFakeActuator]
  · intro m
    simp [fakeActuator.Called, runOps_calls, NewFakeActuator]
  · intro a op h
    cases op <;> simp [FakeOp.logged] at h <;> rfl
  · intro a op name h
    cases op <;> simp [FakeOp.logged] at h <;> subst h <;> rfl

/-- C28. After any sequence of uses of a fresh fake actuator, Create, Update and
Delete return the error last given to their own setter and Exists the pair last
given to OnExists, nil and (false, nil) when there was none; a method called
right after its setter returns what was set; and the reconciler driven by a
fresh fake on an active resource with the token calls Exists and then Create. -/
theorem fake_answers_as_configured (k : Kind) (util : Util k.Resource) (request : Request)
    (obj : k.Resource) (ops : List (FakeOp ε))
    (hkey : k.key obj = request.NamespacedName)
    (hact : k.deleted obj = false)
    (hfin : util.HasFinalizer obj k.Finalizer = true) :
    (((runOps ops NewFakeActuator).Create obj).1 = configuredCreate ops none ∧
      ((runOps ops NewFakeActuator).Update obj).1 = configuredUpdate ops none ∧
      ((runOps ops NewFakeActuator).Delete obj).1 = configuredDelete ops none ∧
      ((runOps ops NewFakeActuator).Exists obj).1 = configuredExists ops (false, none)) ∧
    (∀ (a : fakeActuator ε) (err : Option ε) (result : Bool),
      ((a.OnCreate err).Create obj).1 = err ∧
      ((a.OnUpdate err).Update obj).1 = err ∧
      ((a.OnDelete err).Delete obj).1 = err ∧
      ((a.OnExists result err).Exists obj).1 = (result, err)) ∧
    (((NewFakeActuator : fakeActuator ε).Create obj).1 = none ∧
      ((NewFakeActuator : fakeActuator ε).Update obj).1 = none ∧
      ((NewFakeActuator : fakeActuator ε).Delete obj).1 = none ∧
      ((NewFakeActuator : fakeActuator ε).Exists obj).1 = (false, none)) ∧
    (Reconcile k ((testBacking k).reconciler k) util request
        { stored := some obj, provider := NewFakeActuator }).calls =
      [.clientGet request.NamespacedName (.ok obj), .actuatorExists obj (false, none),
        .actuatorCreate obj none] ∧
    (Reconcile k ((testBacking k).reconciler k) util request
        { stored := some obj, provider := NewFakeActuator }).err = none ∧
    (Reconcile k ((testBacking k).reconciler k) util request
        { stored := some obj, provider := NewFakeActuator }).world.provider.calls =
      [{ method := "Exists" }, { method := "Create" }] := by
  have hcfg := runOps_configured ops (NewFakeActuator : fakeActuator ε)
  have hstep := cluster_step_create k (testBacking k) util request
    { stored := some obj, provider := NewFakeActuator } obj
    ((NewFakeActuator : fakeActuator TestError).Exists obj).2 rfl hkey hact hfin rfl
  refine ⟨⟨hcfg.1, hcfg.2.1, hcfg.2.2.1, hcfg.2.2.2⟩, ?_, ⟨rfl, rfl, rfl, rfl⟩, ?_, ?_, ?_⟩
  · intro a err result
    exact ⟨rfl, rfl, rfl, rfl⟩
  · rw [hstep]
    rfl
  · rw [hstep]
    rfl
  · rw [hstep]
    rfl

/-- The bench with an unconfigured fake takes the Create path, and the second of
two errors given to OnCreate is the one Create returns. -/
theorem fake_answers_as_configured_witness :
    (Reconcile .dnsrecord ((testBacking .dnsrecord).reconciler .dnsrecord)
        (Util.spec .dnsrecord) testRequest
        { stored := some testDNSRecord, provider := NewFakeActuator }).calls =
      [.clientGet testRequest.NamespacedName (.ok testDNSRecord),
        .actuatorExists testDNSRecord (false, none), .actuatorCreate testDNSRecord none] ∧
    ((runOps [.OnCreate (some (TestError.plain "first")), .Create, .OnDelete (some .conflict),
          .OnCreate (some (.plain "second"))] NewFakeActuator).Create testDNSRecord).1 =
      some (.plain "second") :=
  ⟨(fake_answers_as_configured .dnsrecord (Util.spec .dnsrecord) testRequest testDNSRecord
      ([] : List (FakeOp TestError)) rfl rfl rfl).2.2.2.1,
    (fake_answers_as_configured .dnsrecord (Util.spec .dnsrecord) testRequest testDNSRecord
      [.OnCreate (some (TestError.plain "first")), .Create, .OnDelete (some .conflict),
        .OnCreate (some (.plain "second"))] rfl rfl rfl).1.1⟩

end fake

end CloudKit
